import Mathlib

/-!
# People Requisition lifecycle engine

A shallow embedding of `src/services/peopleRequisitionService.mjs` together with the
repository functions (`src/dbqueries/*.mjs`) and the Mongoose schemas (`src/models/*.mjs`)
it relies on.  Collections are lists of documents, an asynchronous service function becomes a
pure function from the database before the call to the outcome and the database after it,
and a thrown error becomes `Except.error`.
-/

set_option linter.dupNamespace false

namespace RHub

/-! ## Data model -/

/-- A Mongo `ObjectId`; the services only compare ids for equality. -/
abbrev ObjectId := Nat

/-- Modelled from the spec: `AppError` of `utils/appError.mjs`, which is not among the sources;
section 7 describes it as a typed error carrying a message and a status code.  An exception
that is not an `AppError` (a `TypeError`, a Mongo or Mongoose error) has no `statusCode`, and
`errorHandler` (`middlewares/errorMiddleware.mjs`) answers it with 500; such an exception is
represented with status code 500. -/
structure AppError where
  message : String
  statusCode : Nat
deriving DecidableEq, Repr

/-- Schema `jobPositionSchema`. -/
structure JobPosition where
  id : ObjectId
  JobPosition : String
  IsDelete : Bool
deriving DecidableEq, Repr

/-- Schema `departmentSchema`; the audit fields that `editDepartment` and `removeDepartment`
write are absent (`none`) until then. -/
structure Department where
  id : ObjectId
  Department : String
  IsDelete : Bool
  ModifiedBy : Option String := none
  ModifiedOn : Option Nat := none
  DeletedBy : Option String := none
  DeletedOn : Option Nat := none
deriving DecidableEq, Repr

/-- Schema `natureOfEmploymentSchema`. -/
structure NatureOfEmployment where
  id : ObjectId
  NatureOfEmployment : String
  IsDelete : Bool
deriving DecidableEq, Repr

/-- Schema `userSchema`, as the services see a user: `Role` is the populated `RoleId.Role`
(every query used here populates `RoleId`, and `createUser`, `editUser` only store the id of
an existing role). -/
structure User where
  id : ObjectId
  RHubUserId : String
  Name : String
  Email : String
  Role : String
  DepartmentId : Option ObjectId
  JobPositionId : Option ObjectId
  IsDelete : Bool
deriving DecidableEq, Repr

/-- Schema `peopleRequisitionSchema`; dates are numbers (milliseconds), an absent optional
field is `none`. -/
structure PeopleRequisition where
  id : ObjectId
  JobCode : String
  JobId : ObjectId
  DepartmentId : ObjectId
  RecruiterId : ObjectId
  HRBPId : ObjectId
  NatureOfEmploymentId : ObjectId
  JobDescription : Option String
  Status : String
  PRFNumber : Option String
  PRFLink : Option String
  ClosingDate : Option Nat
  IsApprovedByHRBP : Bool
  IsActive : Bool
  IsDelete : Bool
  CreatedBy : Option String
  CreatedOn : Nat
  ModifiedBy : Option String
  ModifiedOn : Option Nat
  DeletedBy : Option String
  DeletedOn : Option Nat
  JdFileName : Option String
  JdFilePath : Option String
  JdUploadedOn : Option Nat
deriving DecidableEq, Repr

/-- Schema `prefixCounterSchema`; the field `prefix` of the source is called `pfx` here, the
source name being a reserved word. -/
structure PrefixCounter where
  pfx : String
  count : Nat
deriving DecidableEq, Repr

/-- One call of `emailService.sendEmail(to, subject, template, data)`; the parameter `to` of
the source is called `recipient` here.  `sendEmail` catches every error of rendering and
transport, so a call never fails. -/
structure Mail where
  recipient : String
  subject : String
  template : String
deriving DecidableEq, Repr

/-- The collections, the notifications handed to `emailService.sendEmail` so far and the
paths present in the upload directory. -/
structure Db where
  prs : List PeopleRequisition
  jobPositions : List JobPosition
  departments : List Department
  users : List User
  natures : List NatureOfEmployment
  counters : List PrefixCounter
  outbox : List Mail
  files : List String
deriving DecidableEq, Repr

deriving instance DecidableEq for Except

/-- Outcome of a service call: the value returned or the error thrown, and the database
after the call. -/
abbrev Outcome (α : Type) := Except AppError α × Db

/-! ## Repository functions (`src/dbqueries`) -/

/-- The function `peopleRequisitionQueries.findById`. -/
def findById (s : Db) (id : ObjectId) : Option PeopleRequisition :=
  s.prs.find? (fun p => p.id == id)

/-- The function `jobPositionQueries.findJobPositionById`. -/
def findJobPositionById (s : Db) (id : ObjectId) : Option JobPosition :=
  s.jobPositions.find? (fun j => j.id == id)

/-- The function `departmentQueries.findDepartmentById`. -/
def findDepartmentById (s : Db) (id : ObjectId) : Option Department :=
  s.departments.find? (fun d => d.id == id)

/-- The function `userQueries.findUserById`. -/
def findUserById (s : Db) (id : ObjectId) : Option User :=
  s.users.find? (fun u => u.id == id)

/-- The function `natureOfEmploymentQueries.findNatureOfEmploymentById`. -/
def findNatureOfEmploymentById (s : Db) (id : ObjectId) : Option NatureOfEmployment :=
  s.natures.find? (fun n => n.id == id)

/-- The query of `peopleRequisitionQueries.findActiveByDetails`: same job, department and
nature of employment, `IsDelete: false`, `Status` in `['open', 'inprogress']`. -/
def activeWithDetails (jobId departmentId natureOfEmploymentId : ObjectId)
    (p : PeopleRequisition) : Bool :=
  p.JobId == jobId && p.DepartmentId == departmentId &&
    p.NatureOfEmploymentId == natureOfEmploymentId && p.IsDelete == false &&
    ["open", "inprogress"].contains p.Status

/-- The function `peopleRequisitionQueries.findActiveByDetails`. -/
def findActiveByDetails (s : Db) (jobId departmentId natureOfEmploymentId : ObjectId) :
    Option PeopleRequisition :=
  s.prs.find? (activeWithDetails jobId departmentId natureOfEmploymentId)

/-- A requisition with its references populated, as `findByIdAndPopulateDetails` returns it;
a reference whose document does not exist is populated with `null` (`none`). -/
structure PopulatedPR where
  pr : PeopleRequisition
  Recruiter : Option User
  DepartmentDoc : Option Department
  Job : Option JobPosition
  HRBP : Option User
deriving DecidableEq, Repr

/-- The populate chain of `findByIdAndPopulateDetails`, for a requisition already read. -/
def populateDetails (s : Db) (pr : PeopleRequisition) : PopulatedPR :=
  { pr := pr
    Recruiter := findUserById s pr.RecruiterId
    DepartmentDoc := findDepartmentById s pr.DepartmentId
    Job := findJobPositionById s pr.JobId
    HRBP := findUserById s pr.HRBPId }

/-- The function `peopleRequisitionQueries.findByIdAndPopulateDetails`. -/
def findByIdAndPopulateDetails (s : Db) (id : ObjectId) : Option PopulatedPR :=
  (findById s id).map (populateDetails s)

/-- The call `pr.save()` on a requisition read from the collection: the stored document with
the same `_id` is replaced. -/
def save (s : Db) (pr : PeopleRequisition) : Db :=
  { s with prs := s.prs.map (fun p => if p.id = pr.id then pr else p) }

/-- The call `emailService.sendEmail`. -/
def sendEmail (s : Db) (m : Mail) : Db :=
  { s with outbox := s.outbox ++ [m] }

/-- The `enum` of `Status` in `peopleRequisitionSchema`, checked by `save` when `Status` was
modified. -/
def statusEnum : List String := ["open", "inprogress", "onhold", "completed", "closed"]

/-! ## Status transition (`updatePeopleRequisitionStatus`) -/

/-- The value of `isValidTransition` computed in lines 250-260 of the service. -/
def isValidTransition (userRole currentStatus newStatus : String) : Bool :=
  (userRole == "HRBP" &&
    ((currentStatus == "open" && newStatus == "onhold") ||
     (currentStatus == "completed" && newStatus == "closed") ||
     (currentStatus == "onhold" && newStatus == "open") ||
     (currentStatus == "closed" && ["open", "onhold"].contains newStatus))) ||
  (userRole == "Recruiter" &&
    ((currentStatus == "open" && newStatus == "inprogress") ||
     (currentStatus == "inprogress" && newStatus == "completed")))

/-- The notification block of `updatePeopleRequisitionStatus` (lines 270-287): a Recruiter
who completes a requisition mails the HRBP; reading `Name` or `Email` of a reference that
populated to `null` throws a `TypeError`. -/
def notifyCompleted (s : Db) (prId : ObjectId) (userRole newStatus : String) :
    Except AppError Db :=
  if userRole == "Recruiter" && newStatus == "completed" then
    match findByIdAndPopulateDetails s prId with
    | none => .ok s
    | some populatedPR =>
      match populatedPR.HRBP, populatedPR.Recruiter, populatedPR.Job with
      | some hrbp, some _, some job =>
        .ok (sendEmail s
          { recipient := hrbp.Email
            subject := "Process Completed: " ++ job.JobPosition ++ " (" ++
              populatedPR.pr.JobCode ++ ")"
            template := "prCompletedEmail" })
      | _, _, _ => .error ⟨"TypeError: Cannot read properties of null", 500⟩
  else .ok s

/-- The assignments of lines 265-267: `Status`, `ModifiedBy` and `ModifiedOn` are set. -/
def withStatus (pr : PeopleRequisition) (newStatus : String) (updatingUser : User)
    (now : Nat) : PeopleRequisition :=
  { pr with
    Status := newStatus
    ModifiedBy := some updatingUser.RHubUserId
    ModifiedOn := some now }

/-- The function `updatePeopleRequisitionStatus(prId, newStatus, updatingUser)`; `now` is the
value of `Date.now()`. -/
def updatePeopleRequisitionStatus (s : Db) (now : Nat) (prId : ObjectId) (newStatus : String)
    (updatingUser : User) : Outcome PeopleRequisition :=
  match findById s prId with
  | none => (.error ⟨"People Requisition not found.", 404⟩, s)
  | some pr =>
    if pr.IsDelete then (.error ⟨"People Requisition not found.", 404⟩, s)
    else
      let isAssignedHrbp := pr.HRBPId == updatingUser.id
      let isAssignedRecruiter := pr.RecruiterId == updatingUser.id
      if !isAssignedHrbp && !isAssignedRecruiter then
        (.error ⟨"You do not have permission to update this People Requisition.", 403⟩, s)
      else
        let userRole := updatingUser.Role
        let currentStatus := pr.Status
        if !isValidTransition userRole currentStatus newStatus then
          (.error ⟨"As a " ++ userRole ++ ", you cannot change the status from " ++
            currentStatus ++ " to " ++ newStatus ++ ".", 400⟩, s)
        else
          let updatedPR := withStatus pr newStatus updatingUser now
          if !statusEnum.contains newStatus then
            (.error ⟨"ValidationError: Status is not a valid enum value", 500⟩, s)
          else
            let s1 := save s updatedPR
            match notifyCompleted s1 prId userRole newStatus with
            | .error e => (.error e, s1)
            | .ok s2 => (.ok updatedPR, s2)

/-! ## Job codes (`createPeopleRequisition`, lines 49-52) -/

/-- The method `String.prototype.split` with a one-character separator: the pieces between
the occurrences of `sep`; the empty string gives one empty piece. -/
def splitOn (sep : Char) : List Char → List (List Char)
  | [] => [[]]
  | c :: cs =>
    if c = sep then [] :: splitOn sep cs
    else
      match splitOn sep cs with
      | [] => [[c]]
      | w :: ws => (c :: w) :: ws

/-- The method `Array.prototype.join('')` on an array of characters and `undefined`s: an
`undefined` element contributes the empty string. -/
def joinChars (xs : List (Option Char)) : List Char :=
  (xs.map (fun o => match o with
    | none => []
    | some c => [c])).flatten

/-- The method `String.prototype.toUpperCase`: every character is replaced by its upper-case
mapping `up c`, which can be several characters. -/
def toUpperCase (up : Char → List Char) (s : List Char) : List Char :=
  (s.map up).flatten

/-- The upper-case mapping used for the job codes of the model: that of the ASCII letters.
JavaScript also maps the cased characters outside ASCII; the statements about the code prefix
hold for every mapping. -/
def upperCaseMapping (c : Char) : List Char := [c.toUpper]

/-- The expression `name.split(' ').map(word => word[0]).join('').toUpperCase()` of line 49,
on the characters of `name`.  Characters are code points; JavaScript indexes UTF-16 code
units, which is the same thing on the Basic Multilingual Plane. -/
def codePrefixWith (up : Char → List Char) (name : List Char) : List Char :=
  toUpperCase up (joinChars ((splitOn ' ' name).map (fun word => word.head?)))

/-- The code prefix of a job position name (line 49). -/
def codePrefix (name : String) : String :=
  String.mk (codePrefixWith upperCaseMapping name.data)

/-- The method `String.prototype.padStart(targetLength, padChar)` for a one-character pad. -/
def padStart (targetLength : Nat) (padChar : Char) (s : List Char) : List Char :=
  List.replicate (targetLength - s.length) padChar ++ s

/-- The expression `String(count).padStart(3, '0')` of line 51; `String(count)` is the
decimal numeral of `count` (counts are far below `2 ^ 53`, where JavaScript numbers are
exact and print in plain decimal). -/
def formattedCount (count : Nat) : List Char :=
  padStart 3 '0' (Nat.toDigits 10 count)

/-- The template string of line 52: the prefix followed by the formatted count. -/
def jobCode (pfx : String) (count : Nat) : String :=
  String.mk (pfx.data ++ formattedCount count)

/-- The function `prefixCounterQueries.findAndIncrement`: `findOneAndUpdate` with
`$inc: { count: 1 }`, `new: true` and `upsert: true`.  The first counter with the prefix is
incremented, or a counter with count 1 is inserted; the updated document and the collection
after the call are returned. -/
def findAndIncrement : List PrefixCounter → String → PrefixCounter × List PrefixCounter
  | [], pfx => (⟨pfx, 1⟩, [⟨pfx, 1⟩])
  | c :: cs, pfx =>
    if c.pfx = pfx then (⟨c.pfx, c.count + 1⟩, ⟨c.pfx, c.count + 1⟩ :: cs)
    else ((findAndIncrement cs pfx).1, c :: (findAndIncrement cs pfx).2)

/-- The count stored for a prefix, 0 when the collection has no counter for it. -/
def countOf (cs : List PrefixCounter) (pfx : String) : Nat :=
  match cs.find? (fun c => c.pfx == pfx) with
  | some c => c.count
  | none => 0

/-- The value of a decimal numeral, leading zeros allowed. -/
def parseDecimal (l : List Char) : Nat :=
  l.foldl (fun a c => 10 * a + (c.toNat - 48)) 0

/-! ## Creation (`createPeopleRequisition`) -/

/-- The request body of a creation, `prData`. -/
structure PrData where
  jobId : ObjectId
  departmentId : ObjectId
  recruiterId : ObjectId
  natureOfEmploymentId : ObjectId
  jobDescription : Option String
  PRFNumber : Option String
  PRFLink : Option String
  ClosingDate : Option Nat
deriving DecidableEq, Repr

/-- The `_id` Mongo gives to a new requisition: one that no stored requisition has. -/
def freshId (s : Db) : ObjectId :=
  (s.prs.map (fun p => p.id)).foldr max 0 + 1

/-- The object `newPR` of lines 54-66 completed with the schema defaults (`Status: 'open'`,
`IsApprovedByHRBP: false`, `IsActive: true`, `IsDelete: false`, `CreatedOn: Date.now`). -/
def newDocument (s : Db) (now : Nat) (code : String) (prData : PrData) (creatingUser : User) :
    PeopleRequisition :=
  { id := freshId s
    JobCode := code
    JobId := prData.jobId
    DepartmentId := prData.departmentId
    RecruiterId := prData.recruiterId
    HRBPId := creatingUser.id
    NatureOfEmploymentId := prData.natureOfEmploymentId
    JobDescription := prData.jobDescription
    Status := "open"
    PRFNumber := prData.PRFNumber
    PRFLink := prData.PRFLink
    ClosingDate := prData.ClosingDate
    IsApprovedByHRBP := false
    IsActive := true
    IsDelete := false
    CreatedBy := some creatingUser.RHubUserId
    CreatedOn := now
    ModifiedBy := none
    ModifiedOn := none
    DeletedBy := none
    DeletedOn := none
    JdFileName := none
    JdFilePath := none
    JdUploadedOn := none }

/-- The function `peopleRequisitionQueries.createNewPeopleRequisition`: the document is
inserted unless a stored requisition, deleted or not, has the same `JobCode` (the schema
declares `JobCode` `unique`), in which case Mongo rejects the insert. -/
def createNewPeopleRequisition (s : Db) (doc : PeopleRequisition) :
    Outcome PeopleRequisition :=
  if s.prs.any (fun p => p.JobCode == doc.JobCode) then
    (.error ⟨"E11000 duplicate key error: JobCode", 500⟩, s)
  else (.ok doc, { s with prs := s.prs ++ [doc] })

/-- The error thrown by each of the four reference checks of lines 32-47. -/
def invalidFields : AppError := ⟨"One or more provided fields are invalid.", 400⟩

/-- Lines 49-70 of `createPeopleRequisition`, reached once the references are validated: the
prefix is derived from the job position name, its counter is incremented, the job code is
formed and the document is inserted. -/
def generateCodeAndPersist (s : Db) (now : Nat) (jobPosition : JobPosition) (prData : PrData)
    (creatingUser : User) : Outcome PeopleRequisition :=
  let pfx := codePrefix jobPosition.JobPosition
  let counterDoc := (findAndIncrement s.counters pfx).1
  let s1 := { s with counters := (findAndIncrement s.counters pfx).2 }
  createNewPeopleRequisition s1
    (newDocument s1 now (jobCode pfx counterDoc.count) prData creatingUser)

/-- The function `createPeopleRequisition(prData, creatingUser)`; `now` is the value of
`Date.now()`. -/
def createPeopleRequisition (s : Db) (now : Nat) (prData : PrData) (creatingUser : User) :
    Outcome PeopleRequisition :=
  match findActiveByDetails s prData.jobId prData.departmentId prData.natureOfEmploymentId with
  | some _ =>
    (.error ⟨"An active People Requisition for this job and department already exists.",
      409⟩, s)
  | none =>
    match findJobPositionById s prData.jobId, findDepartmentById s prData.departmentId,
      findUserById s prData.recruiterId,
      findNatureOfEmploymentById s prData.natureOfEmploymentId with
    | jobPosition, department, recruiter, natureOfEmployment =>
      match jobPosition with
      | none => (.error invalidFields, s)
      | some jobPosition =>
        if jobPosition.IsDelete then (.error invalidFields, s)
        else
          match department with
          | none => (.error invalidFields, s)
          | some department =>
            if department.IsDelete then (.error invalidFields, s)
            else
              match recruiter with
              | none => (.error invalidFields, s)
              | some recruiter =>
                if recruiter.IsDelete || recruiter.Role != "Recruiter" then
                  (.error invalidFields, s)
                else
                  match natureOfEmployment with
                  | none => (.error invalidFields, s)
                  | some natureOfEmployment =>
                    if natureOfEmployment.IsDelete then (.error invalidFields, s)
                    else generateCodeAndPersist s now jobPosition prData creatingUser

/-! ## Approval (`approvePeopleRequisition`) -/

/-- The assignments of lines 92-94. -/
def withApproval (pr : PeopleRequisition) (approvingUser : User) (now : Nat) :
    PeopleRequisition :=
  { pr with
    IsApprovedByHRBP := true
    ModifiedBy := some approvingUser.RHubUserId
    ModifiedOn := some now }

/-- The function `approvePeopleRequisition(prId, approvingUser)`.  After the save the
notification data is read from the populated recruiter, department and job position; a
reference that populated to `null` makes that read throw a `TypeError`. -/
def approvePeopleRequisition (s : Db) (now : Nat) (prId : ObjectId) (approvingUser : User) :
    Outcome PeopleRequisition :=
  match findByIdAndPopulateDetails s prId with
  | none => (.error ⟨"People Requisition not found.", 404⟩, s)
  | some populated =>
    if populated.pr.IsDelete then
      (.error ⟨"This People Requisition has been deleted and cannot be approved.", 409⟩, s)
    else if populated.pr.IsApprovedByHRBP then
      (.error ⟨"This People Requisition has already been approved.", 409⟩, s)
    else
      let updatedPR := withApproval populated.pr approvingUser now
      let s1 := save s updatedPR
      match populated.Recruiter, populated.DepartmentDoc, populated.Job with
      | some recruiter, some _, some job =>
        (.ok updatedPR, sendEmail s1
          { recipient := recruiter.Email
            subject := "New Requirement Assigned: " ++ job.JobPosition
            template := "prApprovalEmail" })
      | _, _, _ => (.error ⟨"TypeError: Cannot read properties of null", 500⟩, s1)

/-! ## Field-level edit (`updatePeopleRequisition`) -/

/-- A value of the JSON request body.  `oid id` is the string that spells the ObjectId `id`
the way `ObjectId.toString` does; `oidText id text` is a string `text` in another spelling
that Mongoose also casts to the ObjectId `id` (the 24 hexadecimal digits with upper-case
letters, for instance); `str s` is a string that cannot be cast to an ObjectId; `object`
stands for arrays and objects. -/
inductive Value where
  | null
  | bool (b : Bool)
  | num (n : Nat)
  | str (s : String)
  | oid (id : ObjectId)
  | oidText (id : ObjectId) (text : String)
  | object
deriving DecidableEq, Repr

/-- JavaScript truthiness of a body value; a string that spells an ObjectId is not empty. -/
def Value.truthy : Value → Bool
  | .null => false
  | .bool b => b
  | .num n => n != 0
  | .str s => s != ""
  | .oid _ => true
  | .oidText _ _ => true
  | .object => true

/-- The request body `updateData`: its keys with their values, in enumeration order. -/
abbrev UpdateData := List (String × Value)

/-- The property read `updateData[key]`; `none` is `undefined`. -/
def getField (updateData : UpdateData) (key : String) : Option Value :=
  updateData.lookup key

/-- The constant `HRBP_EDITABLE_FIELDS` (line 119). -/
def HRBP_EDITABLE_FIELDS : List String :=
  ["PRFNumber", "PRFLink", "RecruiterId", "DepartmentId", "NatureOfEmploymentId",
    "JobDescription"]

/-- The constant `RECRUITER_EDITABLE_FIELDS` (line 120). -/
def RECRUITER_EDITABLE_FIELDS : List String :=
  ["PRFNumber", "PRFLink", "DepartmentId", "NatureOfEmploymentId", "JobDescription"]

/-- The value of `allowedFields` (line 140). -/
def allowedFieldsFor (userRole : String) : List String :=
  if userRole == "HRBP" then HRBP_EDITABLE_FIELDS else RECRUITER_EDITABLE_FIELDS

/-- The spelling of an ObjectId: 24 hexadecimal digits. -/
def hexString (id : ObjectId) : String :=
  String.mk (padStart 24 '0' (Nat.toDigits 16 id))

/-- Mongoose's cast of a value assigned to a `String` path: `null` unsets the field, numbers
and booleans are converted, arrays and objects are a cast error (`none`). -/
def castToString : Value → Option (Option String)
  | .null => some none
  | .bool b => some (some (if b then "true" else "false"))
  | .num n => some (some (toString n))
  | .str s => some (some s)
  | .oid id => some (some (hexString id))
  | .oidText _ text => some (some text)
  | .object => none

/-- Mongoose's cast of a value to an ObjectId, as it is applied to a value assigned to a
required `ObjectId` path (followed by the `required` validator) and to the argument of
`findById`: only a spelling of an ObjectId passes. -/
def castToObjectId : Value → Option ObjectId
  | .oid id => some id
  | .oidText id _ => some id
  | _ => none

/-- The assignment `pr[key] = updateData[key]` for an allowed key, with the validation that
`save` later runs on the modified path; `none` when that validation fails. -/
def assignField (pr : PeopleRequisition) (key : String) (value : Value) :
    Option PeopleRequisition :=
  if key == "PRFNumber" then (castToString value).map (fun v => { pr with PRFNumber := v })
  else if key == "PRFLink" then (castToString value).map (fun v => { pr with PRFLink := v })
  else if key == "JobDescription" then
    (castToString value).map (fun v => { pr with JobDescription := v })
  else if key == "RecruiterId" then
    (castToObjectId value).map (fun v => { pr with RecruiterId := v })
  else if key == "DepartmentId" then
    (castToObjectId value).map (fun v => { pr with DepartmentId := v })
  else if key == "NatureOfEmploymentId" then
    (castToObjectId value).map (fun v => { pr with NatureOfEmploymentId := v })
  else some pr

/-- The loop of lines 169-173 over the keys `keys`, each assigned when it is allowed. -/
def assignFields (allowedFields : List String) (updateData : UpdateData) :
    List String → PeopleRequisition → Option PeopleRequisition
  | [], pr => some pr
  | key :: keys, pr =>
    if allowedFields.contains key then
      match getField updateData key with
      | none => assignFields allowedFields updateData keys pr
      | some value =>
        match assignField pr key value with
        | none => none
        | some pr1 => assignFields allowedFields updateData keys pr1
    else assignFields allowedFields updateData keys pr

/-- Lines 147-153: a truthy `RecruiterId` must be the id of an existing, non-deleted user with
role 'Recruiter'.  A truthy value that is no ObjectId makes `findById` throw a cast error. -/
def checkRecruiterId (s : Db) (updateData : UpdateData) : Except AppError Unit :=
  match getField updateData "RecruiterId" with
  | none => .ok ()
  | some value =>
    if value.truthy then
      match castToObjectId value with
      | some id =>
        match findUserById s id with
        | none => .error ⟨"The provided Recruiter ID is invalid.", 400⟩
        | some newRecruiter =>
          if newRecruiter.IsDelete || newRecruiter.Role != "Recruiter" then
            .error ⟨"The provided Recruiter ID is invalid.", 400⟩
          else .ok ()
      | none => .error ⟨"CastError: Cast to ObjectId failed", 500⟩
    else .ok ()

/-- Lines 154-160, for `DepartmentId`. -/
def checkDepartmentId (s : Db) (updateData : UpdateData) : Except AppError Unit :=
  match getField updateData "DepartmentId" with
  | none => .ok ()
  | some value =>
    if value.truthy then
      match castToObjectId value with
      | some id =>
        match findDepartmentById s id with
        | none => .error ⟨"The provided Department ID is invalid.", 400⟩
        | some newDepartment =>
          if newDepartment.IsDelete then
            .error ⟨"The provided Department ID is invalid.", 400⟩
          else .ok ()
      | none => .error ⟨"CastError: Cast to ObjectId failed", 500⟩
    else .ok ()

/-- Lines 161-167, for `NatureOfEmploymentId`. -/
def checkNatureOfEmploymentId (s : Db) (updateData : UpdateData) : Except AppError Unit :=
  match getField updateData "NatureOfEmploymentId" with
  | none => .ok ()
  | some value =>
    if value.truthy then
      match castToObjectId value with
      | some id =>
        match findNatureOfEmploymentById s id with
        | none => .error ⟨"The provided Nature of Employment ID is invalid.", 400⟩
        | some newNatureOfEmployment =>
          if newNatureOfEmployment.IsDelete then
            .error ⟨"The provided Nature of Employment ID is invalid.", 400⟩
          else .ok ()
      | none => .error ⟨"CastError: Cast to ObjectId failed", 500⟩
    else .ok ()

/-- The comparison `newRecruiterId !== oldRecruiterId` of line 178, where `oldRecruiterId`
is the string `pr.RecruiterId.toString()`: the raw value of the request is compared with the
spelling `hexString old`.  Two such spellings differ exactly when the ids do; a string in
another spelling is compared as the text it is; a value that is no string always differs. -/
def differsFromSpelling (newRecruiterId : Value) (old : ObjectId) : Bool :=
  match newRecruiterId with
  | .oid id => id != old
  | .oidText _ text => text != hexString old
  | .str text => text != hexString old
  | _ => true

/-- The condition of line 178, `newRecruiterId && newRecruiterId !== oldRecruiterId`. -/
def recruiterChanged (updateData : UpdateData) (oldRecruiterId : ObjectId) : Bool :=
  match getField updateData "RecruiterId" with
  | none => false
  | some newRecruiterId =>
    newRecruiterId.truthy && differsFromSpelling newRecruiterId oldRecruiterId

/-- Lines 178-194: when the recruiter changed, the saved requisition is read again with its
references and the new recruiter is mailed; reading a reference that populated to `null`
throws a `TypeError`. -/
def notifyReassignment (s : Db) (prId : ObjectId) (updateData : UpdateData)
    (oldRecruiterId : ObjectId) : Except AppError Db :=
  if recruiterChanged updateData oldRecruiterId then
    match findByIdAndPopulateDetails s prId with
    | none => .ok s
    | some populatedPR =>
      match populatedPR.Recruiter, populatedPR.DepartmentDoc, populatedPR.Job with
      | some recruiter, some _, some job =>
        .ok (sendEmail s
          { recipient := recruiter.Email
            subject := "Reassignment: New Requirement Assigned - " ++ job.JobPosition
            template := "prReassignmentEmail" })
      | _, _, _ => .error ⟨"TypeError: Cannot read properties of null", 500⟩
  else .ok s

/-- The assignments of lines 174-175. -/
def withModifier (pr : PeopleRequisition) (updatingUser : User) (now : Nat) :
    PeopleRequisition :=
  { pr with
    ModifiedBy := some updatingUser.RHubUserId
    ModifiedOn := some now }

/-- Lines 168-198 of `updatePeopleRequisition`, reached once the payload passed the key and
reference checks: assignment, save, notification, and the final populated read. -/
def applyUpdate (s : Db) (now : Nat) (prId : ObjectId) (pr : PeopleRequisition)
    (updateData : UpdateData) (updatingUser : User) : Outcome PopulatedPR :=
  let oldRecruiterId := pr.RecruiterId
  match assignFields (allowedFieldsFor updatingUser.Role) updateData
      (updateData.map (fun e => e.1)) pr with
  | none => (.error ⟨"ValidationError: People Requisition validation failed", 500⟩, s)
  | some assigned =>
    let s1 := save s (withModifier assigned updatingUser now)
    match notifyReassignment s1 prId updateData oldRecruiterId with
    | .error e => (.error e, s1)
    | .ok s2 =>
      match findByIdAndPopulateDetails s2 prId with
      | none => (.error ⟨"TypeError: Cannot read properties of null", 500⟩, s2)
      | some updatedPR => (.ok updatedPR, s2)

/-- The function `updatePeopleRequisition(prId, updateData, updatingUser)`; `now` is the
value of `Date.now()`. -/
def updatePeopleRequisition (s : Db) (now : Nat) (prId : ObjectId) (updateData : UpdateData)
    (updatingUser : User) : Outcome PopulatedPR :=
  match findById s prId with
  | none => (.error ⟨"People Requisition not found.", 404⟩, s)
  | some pr =>
    if pr.IsDelete then
      (.error ⟨"This People Requisition has been deleted and cannot be edited.", 409⟩, s)
    else
      let isAssignedHrbp := pr.HRBPId == updatingUser.id
      let isAssignedRecruiter := pr.RecruiterId == updatingUser.id
      if !isAssignedHrbp && !isAssignedRecruiter then
        (.error ⟨"You do not have permission to edit this People Requisition.", 403⟩, s)
      else if !(["open", "onhold"].contains pr.Status) then
        (.error ⟨"Cannot edit details of a requisition with status \"" ++ pr.Status ++
          "\".", 409⟩, s)
      else
        let allowedFields := allowedFieldsFor updatingUser.Role
        match (updateData.map (fun e => e.1)).find? (fun key => !allowedFields.contains key) with
        | some key =>
          (.error ⟨"You do not have permission to edit the " ++ key ++ " field.", 403⟩, s)
        | none =>
          match checkRecruiterId s updateData with
          | .error e => (.error e, s)
          | .ok _ =>
            match checkDepartmentId s updateData with
            | .error e => (.error e, s)
            | .ok _ =>
              match checkNatureOfEmploymentId s updateData with
              | .error e => (.error e, s)
              | .ok _ => applyUpdate s now prId pr updateData updatingUser

/-! ## Soft deletion (`deletePeopleRequisition`) -/

/-- The assignments of lines 219-221. -/
def withDeletion (pr : PeopleRequisition) (deletingUser : User) (now : Nat) :
    PeopleRequisition :=
  { pr with
    IsDelete := true
    DeletedBy := some deletingUser.RHubUserId
    DeletedOn := some now }

/-- The function `deletePeopleRequisition(prId, deletingUser)`. -/
def deletePeopleRequisition (s : Db) (now : Nat) (prId : ObjectId) (deletingUser : User) :
    Outcome Unit :=
  match findById s prId with
  | none => (.error ⟨"People Requisition not found.", 404⟩, s)
  | some pr =>
    if pr.IsDelete then
      (.error ⟨"This People Requisition has already been deleted.", 409⟩, s)
    else if pr.Status != "open" then
      (.error ⟨"Cannot delete a requisition with status " ++ pr.Status ++
        ". Only open requisitions can be deleted.", 409⟩, s)
    else (.ok (), save s (withDeletion pr deletingUser now))

/-! ## Authorized retrieval (`getPeopleRequisitionById`, `getAllPeopleRequisitions`) -/

/-- The function `getPeopleRequisitionById(prId, requestingUser)`.  The assignment tests read
`_id` of the populated HRBP and recruiter, which throws a `TypeError` when one of them
populated to `null`. -/
def getPeopleRequisitionById (s : Db) (prId : ObjectId) (requestingUser : User) :
    Outcome PopulatedPR :=
  match findByIdAndPopulateDetails s prId with
  | none => (.error ⟨"People Requisition not found.", 404⟩, s)
  | some pr =>
    if pr.pr.IsDelete then (.error ⟨"People Requisition not found.", 404⟩, s)
    else
      match pr.HRBP, pr.Recruiter with
      | some hrbp, some recruiter =>
        let isAssignedHrbp := hrbp.id == requestingUser.id
        let isAssignedRecruiter := recruiter.id == requestingUser.id
        let userRole := requestingUser.Role
        if userRole == "Recruiter" && !pr.pr.IsApprovedByHRBP then
          (.error ⟨"People Requisition not found.", 404⟩, s)
        else if !isAssignedHrbp && !isAssignedRecruiter then
          (.error ⟨"You do not have permission to view this People Requisition.", 403⟩, s)
        else (.ok pr, s)
      | _, _ => (.error ⟨"TypeError: Cannot read properties of null", 500⟩, s)

/-- The query string `req.query` as far as `getAllPeopleRequisitions` reads it; an absent
parameter is `none`.  `departmentId` is a `Value` because it is cast to an ObjectId. -/
structure QueryParams where
  status : Option String
  departmentId : Option Value
  search : Option String
  page : Option String
  limit : Option String
  sortBy : Option String
  orderBy : Option String
deriving DecidableEq, Repr

/-- The object `filters` handed to `findAllPeopleRequisition`; an absent key is `none`.
`JobCode` holds the pattern of the `$regex` with option `i`. -/
structure Filters where
  IsDelete : Bool
  RecruiterId : Option ObjectId
  IsApprovedByHRBP : Option Bool
  Status : Option String
  DepartmentId : Option Value
  JobCode : Option String
deriving DecidableEq, Repr

/-- Lines 325-343: the filter built from the requester and the query parameters. -/
def buildFilters (queryParams : QueryParams) (requestingUser : User) : Filters :=
  let filters : Filters := ⟨false, none, none, none, none, none⟩
  let filters :=
    if requestingUser.Role == "Recruiter" then
      { filters with RecruiterId := some requestingUser.id, IsApprovedByHRBP := some true }
    else filters
  let filters :=
    match queryParams.status with
    | some status => if status != "" then { filters with Status := some status } else filters
    | none => filters
  let filters :=
    match queryParams.departmentId with
    | some departmentId =>
      if departmentId.truthy then { filters with DepartmentId := some departmentId }
      else filters
    | none => filters
  match queryParams.search with
  | some search => if search != "" then { filters with JobCode := some search.trim } else filters
  | none => filters

/-- The function `parseInt(text, 10)`: leading white space, an optional sign and the longest
run of decimal digits; `none` is `NaN`. -/
def parseInt (text : String) : Option Int :=
  let cs := text.data.dropWhile Char.isWhitespace
  let signed : Bool × List Char :=
    match cs with
    | '-' :: rest => (true, rest)
    | '+' :: rest => (false, rest)
    | rest => (false, rest)
  let digits := signed.2.takeWhile Char.isDigit
  if digits.isEmpty then none
  else if signed.1 then some (-(parseDecimal digits : Int))
  else some (parseDecimal digits : Int)

/-- The expression `parseInt(param, 10) || fallback`: `NaN` and 0 give the fallback. -/
def parseIntOr (param : Option String) (fallback : Int) : Int :=
  match param with
  | none => fallback
  | some text =>
    match parseInt text with
    | none => fallback
    | some n => if n = 0 then fallback else n

/-- A requisition satisfies a filter whose department and code conditions were resolved to
`department` and `codeMatches`. -/
def matchesFilters (filters : Filters) (department : Option ObjectId)
    (codeMatches : Option (String → Bool)) (p : PeopleRequisition) : Bool :=
  p.IsDelete == filters.IsDelete &&
  (match filters.RecruiterId with
    | none => true
    | some id => p.RecruiterId == id) &&
  (match filters.IsApprovedByHRBP with
    | none => true
    | some b => p.IsApprovedByHRBP == b) &&
  (match filters.Status with
    | none => true
    | some st => p.Status == st) &&
  (match department with
    | none => true
    | some id => p.DepartmentId == id) &&
  (match codeMatches with
    | none => true
    | some test => test p.JobCode)

/-- The function `peopleRequisitionQueries.findAllPeopleRequisition`.  The semantics of Mongo
that the sources do not contain are parameters: `regex pattern` is the test of a
case-insensitive regular expression (`none` for a pattern Mongo rejects) and
`le sortBy orderBy` is the order of two documents in a sort on `sortBy` with direction
`orderBy`.  A department that is no ObjectId is a cast error, a negative `skip` is rejected
by Mongo, and a negative `limit` is taken by its absolute value. -/
def findAllPeopleRequisition (regex : String → Option (String → Bool))
    (le : String → Int → PeopleRequisition → PeopleRequisition → Bool)
    (s : Db) (filters : Filters) (sortBy : String) (orderBy : Int) (page limit : Int) :
    Except AppError (List PopulatedPR × Nat) :=
  let skip := (page - 1) * limit
  match (match filters.DepartmentId with
    | none => some none
    | some departmentId => (castToObjectId departmentId).map some) with
  | none => .error ⟨"CastError: Cast to ObjectId failed", 500⟩
  | some department =>
    match (match filters.JobCode with
      | none => some none
      | some pattern => (regex pattern).map some) with
    | none => .error ⟨"MongoServerError: Regular expression is invalid", 500⟩
    | some codeMatches =>
      if skip < 0 then .error ⟨"MongoServerError: skip value must be non-negative", 500⟩
      else
        let found := s.prs.filter (matchesFilters filters department codeMatches)
        let results := (((found.mergeSort (le sortBy orderBy)).drop skip.toNat).take
          limit.natAbs).map (populateDetails s)
        .ok (results, found.length)

/-- The object `pagination` of the result. -/
structure Pagination where
  page : Int
  limit : Int
  total : Nat
  totalPages : Int
deriving DecidableEq, Repr

/-- The result of `getAllPeopleRequisitions`. -/
structure PageResult where
  data : List PopulatedPR
  pagination : Pagination
deriving DecidableEq, Repr

/-- The expression `Math.ceil(total / limit)` for a non-zero `limit`. -/
def ceilDiv (total : Nat) (limit : Int) : Int :=
  -(Int.fdiv (-(total : Int)) limit)

/-- The function `getAllPeopleRequisitions(queryParams, requestingUser)`, with the two
parameters of `findAllPeopleRequisition`. -/
def getAllPeopleRequisitions (regex : String → Option (String → Bool))
    (le : String → Int → PeopleRequisition → PeopleRequisition → Bool)
    (s : Db) (queryParams : QueryParams) (requestingUser : User) : Outcome PageResult :=
  let userRole := requestingUser.Role
  if userRole != "Recruiter" && userRole != "HRBP" then
    (.error ⟨"You do not have permission to view this People Requisition.", 403⟩, s)
  else
    let filters := buildFilters queryParams requestingUser
    let page := parseIntOr queryParams.page 1
    let limit := parseIntOr queryParams.limit 10
    let sortBy :=
      match queryParams.sortBy with
      | some field => if field != "" then field else "CreatedOn"
      | none => "CreatedOn"
    let orderBy : Int := if queryParams.orderBy == some "asc" then 1 else -1
    match findAllPeopleRequisition regex le s filters sortBy orderBy page limit with
    | .error e => (.error e, s)
    | .ok (results, total) =>
      (.ok ⟨results, ⟨page, limit, total, ceilDiv total limit⟩⟩, s)

/-! ## Job-description attachment (`uploadJobDescription`) -/

/-- The object `req.file` that multer hands over after it stored the upload at `path`. -/
structure UploadedFile where
  originalname : String
  path : String
deriving DecidableEq, Repr

/-- The call `fs.unlinkSync(path)`: the file is removed, or `ENOENT` is thrown when there is
no such file. -/
def unlinkSync (s : Db) (path : String) : Except AppError Db :=
  if s.files.contains path then .ok { s with files := s.files.filter (fun f => f != path) }
  else .error ⟨"ENOENT: no such file or directory", 500⟩

/-- Lines 389-398: the previous file is removed when the requisition has one and it exists;
every error is caught. -/
def removeOldFile (s : Db) (pr : PeopleRequisition) : Db :=
  match pr.JdFilePath with
  | none => s
  | some old =>
    if old != "" && s.files.contains old then
      { s with files := s.files.filter (fun f => f != old) }
    else s

/-- The assignments of lines 399-403. -/
def withJobDescriptionFile (pr : PeopleRequisition) (file : UploadedFile) (user : User)
    (now : Nat) : PeopleRequisition :=
  { pr with
    JdFileName := some file.originalname
    JdFilePath := some file.path
    JdUploadedOn := some now
    ModifiedBy := some user.RHubUserId
    ModifiedOn := some now }

/-- Lines 407-422: the HRBP is mailed; reading a reference that populated to `null` throws a
`TypeError`. -/
def notifyUpload (s : Db) (prId : ObjectId) : Except AppError Db :=
  match findByIdAndPopulateDetails s prId with
  | none => .ok s
  | some populatedPR =>
    match populatedPR.HRBP, populatedPR.Job with
    | some hrbp, some job =>
      .ok (sendEmail s
        { recipient := hrbp.Email
          subject := "Job Description Uploaded for " ++ job.JobPosition ++ " (" ++
            populatedPR.pr.JobCode ++ ")"
          template := "jdUploadedEmail" })
    | _, _ => .error ⟨"TypeError: Cannot read properties of null", 500⟩

/-- The function `uploadJobDescription(prId, file, user)`; `file` is `none` when the request
carried no file. -/
def uploadJobDescription (s : Db) (now : Nat) (prId : ObjectId) (file : Option UploadedFile)
    (user : User) : Outcome Unit :=
  match file with
  | none => (.error ⟨"No file was uploaded.", 400⟩, s)
  | some file =>
    if user.Role != "Recruiter" then
      match unlinkSync s file.path with
      | .error e => (.error e, s)
      | .ok s1 => (.error ⟨"You do not have permission to perform this action.", 403⟩, s1)
    else
      match findById s prId with
      | none =>
        match unlinkSync s file.path with
        | .error e => (.error e, s)
        | .ok s1 => (.error ⟨"People Requisition not found.", 404⟩, s1)
      | some pr =>
        if pr.IsDelete then
          match unlinkSync s file.path with
          | .error e => (.error e, s)
          | .ok s1 =>
            (.error ⟨"People Requisition not found or has been deleted.", 404⟩, s1)
        else
          let s1 := removeOldFile s pr
          let s2 := save s1 (withJobDescriptionFile pr file user now)
          match notifyUpload s2 prId with
          | .error e => (.error e, s2)
          | .ok s3 => (.ok (), s3)

/-! ## Engine operations -/

/-- One call of an engine operation that can change the database, with its arguments. -/
inductive Op where
  | create (now : Nat) (prData : PrData) (creatingUser : User)
  | approve (now : Nat) (prId : ObjectId) (approvingUser : User)
  | update (now : Nat) (prId : ObjectId) (updateData : UpdateData) (updatingUser : User)
  | delete (now : Nat) (prId : ObjectId) (deletingUser : User)
  | updateStatus (now : Nat) (prId : ObjectId) (newStatus : String) (updatingUser : User)
  | uploadJobDescription (now : Nat) (prId : ObjectId) (file : Option UploadedFile)
      (user : User)

/-- The database after one operation, whether it succeeded or failed. -/
def step (s : Db) : Op → Db
  | .create now prData u => (createPeopleRequisition s now prData u).2
  | .approve now prId u => (approvePeopleRequisition s now prId u).2
  | .update now prId updateData u => (updatePeopleRequisition s now prId updateData u).2
  | .delete now prId u => (deletePeopleRequisition s now prId u).2
  | .updateStatus now prId newStatus u =>
    (updatePeopleRequisitionStatus s now prId newStatus u).2
  | .uploadJobDescription now prId file u => (uploadJobDescription s now prId file u).2

/-- The database after a sequence of operations. -/
def run (s : Db) : List Op → Db
  | [] => s
  | op :: ops => run (step s op) ops

/-- The transition table of section 4.4 of the specification, as triples
(role, current status, new status). -/
def transitionTable : List (String × String × String) :=
  [("HRBP", "open", "onhold"), ("HRBP", "onhold", "open"), ("HRBP", "completed", "closed"),
   ("HRBP", "closed", "open"), ("HRBP", "closed", "onhold"),
   ("Recruiter", "open", "inprogress"), ("Recruiter", "inprogress", "completed")]

/-- Referential integrity of one requisition: its recruiter, HRBP, job position and
department exist in their collections.  Creation and editing store only ids that were just
looked up, and no service removes a user or a master entity (deletion is a flag). -/
def refsResolve (s : Db) (pr : PeopleRequisition) : Bool :=
  (findUserById s pr.RecruiterId).isSome && (findUserById s pr.HRBPId).isSome &&
    (findJobPositionById s pr.JobId).isSome && (findDepartmentById s pr.DepartmentId).isSome

/-- A requisition is active when it is not deleted and its status is open or inprogress
(section 3 of the specification). -/
def isActivePR (p : PeopleRequisition) : Bool :=
  !p.IsDelete && (p.Status == "open" || p.Status == "inprogress")

/-- Two requisitions are for the same (job position, department, nature of employment). -/
def sameTriple (p q : PeopleRequisition) : Bool :=
  p.JobId == q.JobId && p.DepartmentId == q.DepartmentId &&
    p.NatureOfEmploymentId == q.NatureOfEmploymentId

/-- A reference is unusable when its document is missing or soft-deleted. -/
def missingOrDeleted {α : Type} (doc : Option α) (isDelete : α → Bool) : Bool :=
  match doc with
  | none => true
  | some d => isDelete d

/-- The four references of a creation request as claim C5 words them: the job position, the
department, the recruiter or the nature of employment is missing or soft-deleted, or the
recruiter's role name is not 'Recruiter'. -/
def referencesInvalid (s : Db) (prData : PrData) : Bool :=
  missingOrDeleted (findJobPositionById s prData.jobId) (fun j => j.IsDelete) ||
  missingOrDeleted (findDepartmentById s prData.departmentId) (fun d => d.IsDelete) ||
  missingOrDeleted (findUserById s prData.recruiterId) (fun u => u.IsDelete) ||
  missingOrDeleted (findNatureOfEmploymentById s prData.natureOfEmploymentId)
    (fun n => n.IsDelete) ||
  (match findUserById s prData.recruiterId with
    | none => false
    | some u => u.Role != "Recruiter")

/-- A call failed with the given status code. -/
def failsWith {α : Type} (out : Outcome α) (code : Nat) : Prop :=
  ∃ e, out.1 = .error e ∧ e.statusCode = code

/-- The code prefix as claim C7 words it: the space-separated words of the name that are not
empty, each replaced by its upper-cased first character, concatenated in order. -/
def initialsOfWords (up : Char → List Char) (name : List Char) : List Char :=
  (((splitOn ' ' name).filter (fun word => !word.isEmpty)).map (fun word =>
    match word with
    | [] => []
    | c :: _ => up c)).flatten

/-- The counter collection after `findAndIncrement` was called for each prefix of `ps` in
turn. -/
def incrementAll (cs : List PrefixCounter) (ps : List String) : List PrefixCounter :=
  ps.foldl (fun c p => (findAndIncrement c p).2) cs

/-- One call of `createPeopleRequisition`. -/
structure CreateRequest where
  now : Nat
  prData : PrData
  creatingUser : User
deriving DecidableEq, Repr

/-- The database after a sequence of calls of `createPeopleRequisition`, successful or
not. -/
def runCreations (s : Db) : List CreateRequest → Db
  | [] => s
  | r :: rs => runCreations (createPeopleRequisition s r.now r.prData r.creatingUser).2 rs

/-! ## A small database used to exercise the statements -/

/-- An HRBP, two recruiters and an interviewer. -/
def hrbpUser : User := ⟨1, "RHUB-001", "Chandran", "hrbp@gmail.com", "HRBP", some 20, none, false⟩

def recruiterUser : User :=
  ⟨2, "RHUB-002", "Riya", "riya@gmail.com", "Recruiter", some 20, none, false⟩

def otherRecruiter : User :=
  ⟨3, "RHUB-003", "Omar", "omar@gmail.com", "Recruiter", some 20, none, false⟩

def panelUser : User :=
  ⟨4, "RHUB-004", "Pia", "pia@gmail.com", "Interview Panel", some 20, none, false⟩

/-- Master data and users, no requisition and no counter yet. -/
def emptyStore : Db :=
  { prs := []
    jobPositions := [⟨10, "Senior Software Engineer", false⟩, ⟨11, "A 1", false⟩,
      ⟨12, "Technical Recruiter", true⟩]
    departments := [{ id := 20, Department := "Engineering", IsDelete := false },
      { id := 21, Department := "Marketing", IsDelete := true }]
    users := [hrbpUser, recruiterUser, otherRecruiter, panelUser]
    natures := [⟨30, "Full-Time", false⟩, ⟨31, "Contract", false⟩]
    counters := []
    outbox := []
    files := [] }

/-- A creation request for (Senior Software Engineer, Engineering, Full-Time). -/
def sseRequest : PrData := ⟨10, 20, 2, 30, some "Builds things", none, none, none⟩

/-- The requisition that `sseRequest` creates in `emptyStore` at time 100. -/
def openPR : PeopleRequisition := newDocument emptyStore 100 "SSE001" sseRequest hrbpUser

/-- The store after that creation. -/
def storeOne : Db := { emptyStore with prs := [openPR], counters := [⟨"SSE", 1⟩] }

/-- The same store with the requisition soft-deleted. -/
def storeDeleted : Db :=
  { storeOne with prs := [{ openPR with IsDelete := true, DeletedBy := some "RHUB-001" }] }

/-- The store `storeOne` after the requisition was approved at time 150. -/
def storeApproved : Db :=
  { storeOne with
    prs := [withApproval openPR hrbpUser 150]
    outbox := [⟨"riya@gmail.com", "New Requirement Assigned: Senior Software Engineer",
      "prApprovalEmail"⟩] }

/-- A store in which the prefix "A" has already been counted up to 1001: the requisition
with code "A1001" is stored, and no counter exists for the prefix "A1". -/
def collisionStore : Db :=
  { emptyStore with
    jobPositions := emptyStore.jobPositions ++ [⟨13, "Analyst", false⟩]
    prs := [newDocument emptyStore 50 "A1001" ⟨13, 20, 2, 30, none, none, none, none⟩ hrbpUser]
    counters := [⟨"A", 1001⟩] }

/-- A creation request for the job position named "A 1", whose prefix is "A1". -/
def a1Request : PrData := ⟨11, 20, 2, 30, none, none, none, none⟩

/-- A run of four calls from `emptyStore`: the HRBP creates a requisition, puts it on hold, creates a second
one for the same triple and re-opens the first. -/
def reopenRun : Db :=
  let s1 := (createPeopleRequisition emptyStore 100 sseRequest hrbpUser).2
  let s2 := (updatePeopleRequisitionStatus s1 200 1 "onhold" hrbpUser).2
  let s3 := (createPeopleRequisition s2 300 sseRequest hrbpUser).2
  (updatePeopleRequisitionStatus s3 400 1 "open" hrbpUser).2

/-- The store `storeOne` after the counter collection was dropped and re-created empty, as
`seeder/seeder.mjs` does (it drops the counters and keeps the requisitions). -/
def reseededStore : Db := { storeOne with counters := [] }

/-- A creation request for the same job position as `sseRequest` with another nature of
employment. -/
def sseContractRequest : PrData := ⟨10, 20, 2, 31, none, none, none, none⟩

/-- The store `storeOne` after the recruiter moved the requisition to inprogress. -/
def storeInProgress : Db :=
  { storeOne with prs := [withStatus openPR "inprogress" recruiterUser 180] }

/-- The requisition `q` differs from `pr` at most in the six editable fields. -/
def EditFrame (pr q : PeopleRequisition) : Prop :=
  q = { pr with
    PRFNumber := q.PRFNumber
    PRFLink := q.PRFLink
    JobDescription := q.JobDescription
    RecruiterId := q.RecruiterId
    DepartmentId := q.DepartmentId
    NatureOfEmploymentId := q.NatureOfEmploymentId }

/-- The recruiter, the department and the nature of employment of a requisition exist and
are not soft-deleted. -/
def referencesLive (s : Db) (pr : PeopleRequisition) : Bool :=
  !missingOrDeleted (findUserById s pr.RecruiterId) (fun r => r.IsDelete) &&
  !missingOrDeleted (findDepartmentById s pr.DepartmentId) (fun d => d.IsDelete) &&
  !missingOrDeleted (findNatureOfEmploymentById s pr.NatureOfEmploymentId)
    (fun n => n.IsDelete)

/-- The payload by which the HRBP reassigns the requisition of `storeOne` to the recruiter 3
and sets its PRF number. -/
def reassignPayload : UpdateData := [("RecruiterId", .oid 3), ("PRFNumber", .str "P-1")]

/-- The requisition of `storeOne` after `reassignPayload` was applied at time 200. -/
def reassignedPR : PeopleRequisition :=
  withModifier { openPR with RecruiterId := 3, PRFNumber := some "P-1" } hrbpUser 200

/-- The store after that update. -/
def storeReassigned : Db :=
  { storeOne with
    prs := [reassignedPR]
    outbox := [⟨"omar@gmail.com",
      "Reassignment: New Requirement Assigned - Senior Software Engineer",
      "prReassignmentEmail"⟩] }

/-- The operation `op` replaced the stored requisition `pr` by `q`: the guards it passed and
the assignments it made. -/
def StepChange (op : Op) (pr q : PeopleRequisition) : Prop :=
  match op with
  | .create _ _ _ => False
  | .approve now prId u =>
    pr.id = prId ∧ pr.IsDelete = false ∧ pr.IsApprovedByHRBP = false ∧
      q = withApproval pr u now
  | .update now prId _ u =>
    pr.id = prId ∧ pr.IsDelete = false ∧ (pr.HRBPId = u.id ∨ pr.RecruiterId = u.id) ∧
      ∃ a, EditFrame pr a ∧ q = withModifier a u now
  | .delete now prId u =>
    pr.id = prId ∧ pr.IsDelete = false ∧ pr.Status = "open" ∧ q = withDeletion pr u now
  | .updateStatus now prId newStatus u =>
    pr.id = prId ∧ pr.IsDelete = false ∧ (pr.HRBPId = u.id ∨ pr.RecruiterId = u.id) ∧
      isValidTransition u.Role pr.Status newStatus = true ∧ q = withStatus pr newStatus u now
  | .uploadJobDescription now prId file u =>
    pr.id = prId ∧ pr.IsDelete = false ∧ u.Role = "Recruiter" ∧
      ∃ f, file = some f ∧ q = withJobDescriptionFile pr f u now

/-- What one operation can do to the collection of requisitions: nothing, append one new
document, or replace one stored requisition. -/
def StepEffect (s : Db) (op : Op) : Prop :=
  (step s op).prs = s.prs ∨
  (∃ doc, (∃ now prData u, op = .create now prData u) ∧
    (step s op).prs = s.prs ++ [doc] ∧ doc.Status = "open" ∧
    doc.IsApprovedByHRBP = false ∧ doc.IsDelete = false ∧ ∀ p ∈ s.prs, p.id ≠ doc.id) ∨
  (∃ pr q, findById s pr.id = some pr ∧ StepChange op pr q ∧
    (step s op).prs = (save s q).prs)

/-- The department condition of a filter after the cast to an ObjectId. -/
def departmentCondition (filters : Filters) : Option ObjectId :=
  filters.DepartmentId.bind castToObjectId

/-- The test of the job code that a filter asks for: the regular expression of its pattern. -/
def codeCondition (regex : String → Option (String → Bool)) (filters : Filters) :
    Option (String → Bool) :=
  filters.JobCode.bind regex

/-- The number of stored requisitions that satisfy a filter. -/
def matchingCount (regex : String → Option (String → Bool)) (s : Db) (filters : Filters) :
    Nat :=
  (s.prs.filter
    (matchesFilters filters (departmentCondition filters) (codeCondition regex filters))).length

/-- A query whose page is not a number and whose limit is zero. -/
def badPageQuery : QueryParams := ⟨none, none, none, some "abc", some "0", none, none⟩

/-- The database without the file at `path`. -/
def withoutFile (s : Db) (path : String) : Db :=
  { s with files := s.files.filter (fun f => f != path) }

/-- The requisition `q` with the five fields that an upload assigns taken from `pr`. -/
def restoreJdFields (q pr : PeopleRequisition) : PeopleRequisition :=
  { q with
    JdFileName := pr.JdFileName
    JdFilePath := pr.JdFilePath
    JdUploadedOn := pr.JdUploadedOn
    ModifiedBy := pr.ModifiedBy
    ModifiedOn := pr.ModifiedOn }

/-- The approved requisition with a job description stored at "uploads/jd-1.pdf". -/
def prWithJd : PeopleRequisition :=
  { withApproval openPR hrbpUser 150 with
    JdFileName := some "jd.pdf"
    JdFilePath := some "uploads/jd-1.pdf"
    JdUploadedOn := some 200 }

/-- The store after the first upload, with a second upload just stored by multer. -/
def storeWithJd : Db :=
  { storeApproved with prs := [prWithJd], files := ["uploads/jd-1.pdf", "uploads/jd-2.pdf"] }

/-- The second upload. -/
def secondUpload : UploadedFile := ⟨"jd-v2.docx", "uploads/jd-2.pdf"⟩

/-- The result of `downloadJobDescription`. -/
structure Download where
  filePath : String
  fileName : Option String
deriving DecidableEq, Repr

/-- The function `downloadJobDescription(prId, user)`; a missing and an empty `JdFilePath`
are falsy. -/
def downloadJobDescription (s : Db) (prId : ObjectId) (user : User) : Outcome Download :=
  match findById s prId with
  | none => (.error ⟨"Job description not found for this requisition.", 404⟩, s)
  | some pr =>
    match pr.JdFilePath with
    | none => (.error ⟨"Job description not found for this requisition.", 404⟩, s)
    | some filePath =>
      if pr.IsDelete || filePath == "" then
        (.error ⟨"Job description not found for this requisition.", 404⟩, s)
      else
        let isAssignedHrbp := pr.HRBPId == user.id
        let isAssignedRecruiter := pr.RecruiterId == user.id
        if !isAssignedHrbp && !isAssignedRecruiter then
          (.error ⟨"You do not have permission to download this file.", 403⟩, s)
        else (.ok ⟨filePath, pr.JdFileName⟩, s)

/-- The store `storeWithJd` after the HRBP soft-deleted the requisition at time 250. -/
def storeWithJdDeleted : Db :=
  { storeWithJd with prs := [withDeletion prWithJd hrbpUser 250] }

/-! ## Departments (`departmentService`) -/

/-- The function `departmentQueries.findActivePRByDepartment`:
`findOne({DepartmentId: id, IsDelete: false})` on the requisitions. -/
def findActivePRByDepartment (s : Db) (id : ObjectId) : Option PeopleRequisition :=
  s.prs.find? (fun p => p.DepartmentId == id && p.IsDelete == false)

/-- The function `departmentQueries.findActiveUserByDepartment`:
`findOne({DepartmentId: id, IsDelete: false})` on the users. -/
def findActiveUserByDepartment (s : Db) (id : ObjectId) : Option User :=
  s.users.find? (fun u => u.DepartmentId == some id && u.IsDelete == false)

/-- The function `departmentQueries.findAllDepartmentByName`: the departments whose name the
case-insensitive regular expression `^name$` accepts; `regex pattern` is the test of that
expression, `none` for a pattern Mongo rejects. -/
def findAllDepartmentByName (regex : String → Option (String → Bool)) (s : Db)
    (name : String) : Option (List Department) :=
  (regex ("^" ++ name ++ "$")).map
    (fun test => s.departments.filter (fun d => test d.Department))

/-- The function `departmentQueries.saveDepartment` on a department read from the
collection: the stored document with the same `_id` is replaced. -/
def saveDepartment (s : Db) (department : Department) : Db :=
  { s with
    departments := s.departments.map (fun d => if d.id = department.id then department else d) }

/-- The class `\w` of a JavaScript regular expression. -/
def isWordChar (c : Char) : Bool :=
  c.isAlphanum || c == '_'

/-- The class `\s` of a JavaScript regular expression, which is also what `trim` removes. -/
def isSpaceChar (c : Char) : Bool :=
  [0x09, 0x0a, 0x0b, 0x0c, 0x0d, 0x20, 0xa0, 0x1680, 0x2028, 0x2029, 0x202f, 0x205f, 0x3000,
    0xfeff].contains c.toNat || (0x2000 ≤ c.toNat && c.toNat ≤ 0x200a)

/-- The replacement of `toTitleCase`, character by character; the flag says whether the
position is inside a match of `\w\S*`.  A match starts at a word character, which is
upper-cased, and runs to the next white space, lower-cased by `lower`. -/
def toTitleCaseFrom (lower : Char → List Char) : Bool → List Char → List Char
  | _, [] => []
  | true, c :: cs =>
    if isSpaceChar c then c :: toTitleCaseFrom lower false cs
    else lower c ++ toTitleCaseFrom lower true cs
  | false, c :: cs =>
    if isWordChar c then c.toUpper :: toTitleCaseFrom lower true cs
    else c :: toTitleCaseFrom lower false cs

/-- The function `toTitleCase(str)` of `departmentService.mjs`; `lower` is the lower-case
mapping of one character. -/
def toTitleCase (lower : Char → List Char) (str : String) : String :=
  String.mk (toTitleCaseFrom lower false str.data)

/-- The lower-case mapping of one character, exact on ASCII. -/
def lowerCaseMapping (c : Char) : List Char := [c.toLower]

/-- The method `trim()`. -/
def trim (str : String) : String :=
  String.mk (((str.data.dropWhile isSpaceChar).reverse.dropWhile isSpaceChar).reverse)

/-- The assignments of lines 94-96 of `departmentService.mjs`. -/
def withDepartmentName (department : Department) (formattedName modifiedBy : String)
    (now : Nat) : Department :=
  { department with
    Department := if formattedName != "" then formattedName else department.Department
    ModifiedBy := some modifiedBy
    ModifiedOn := some now }

/-- The assignments of lines 121-123 of `departmentService.mjs`. -/
def withDepartmentDeletion (department : Department) (deletedBy : String) (now : Nat) :
    Department :=
  { department with
    IsDelete := true
    DeletedBy := some deletedBy
    DeletedOn := some now }

/-- The function `editDepartment(id, {Department: newName, ModifiedBy})`.  The source reads
`department.IsDelete` before it tests `!department`, which throws a `TypeError` when there is
no department with this id; `newName` is `none` when the body carries no name. -/
def editDepartment (regex : String → Option (String → Bool)) (lower : Char → List Char)
    (s : Db) (now : Nat) (id : ObjectId) (newName : Option String) (modifiedBy : String) :
    Outcome Department :=
  match findDepartmentById s id with
  | none => (.error ⟨"TypeError: Cannot read properties of null", 500⟩, s)
  | some department =>
    if department.IsDelete then (.error ⟨"Department not found.", 404⟩, s)
    else if (findActivePRByDepartment s id).isSome then
      (.error ⟨"Cannot update department. They are assigned to active People Requisitions.",
        409⟩, s)
    else if (findActiveUserByDepartment s id).isSome then
      (.error ⟨"Cannot update department. They are assigned to active User.", 409⟩, s)
    else
      match newName with
      | none => (.error ⟨"TypeError: Cannot read properties of undefined", 500⟩, s)
      | some newName =>
        let formattedName := trim (toTitleCase lower newName)
        match findAllDepartmentByName regex s formattedName with
        | none => (.error ⟨"MongoServerError: Regular expression is invalid", 500⟩, s)
        | some departmentsExists =>
          if (departmentsExists.find? (fun d => d.IsDelete == false)).isSome then
            (.error ⟨"Department name already exists.", 409⟩, s)
          else
            let updatedDepartment := withDepartmentName department formattedName modifiedBy now
            (.ok updatedDepartment, saveDepartment s updatedDepartment)

/-- The function `removeDepartment(id, deletedBy)`, with the same read of
`department.IsDelete` before the test `!department`. -/
def removeDepartment (s : Db) (now : Nat) (id : ObjectId) (deletedBy : String) :
    Outcome Department :=
  match findDepartmentById s id with
  | none => (.error ⟨"TypeError: Cannot read properties of null", 500⟩, s)
  | some department =>
    if department.IsDelete then (.error ⟨"Department not found.", 404⟩, s)
    else if (findActivePRByDepartment s id).isSome then
      (.error ⟨"Cannot delete department. They are assigned to active People Requisitions.",
        409⟩, s)
    else if (findActiveUserByDepartment s id).isSome then
      (.error ⟨"Cannot delete department. They are assigned to active User.", 409⟩, s)
    else
      let deleted := withDepartmentDeletion department deletedBy now
      (.ok deleted, saveDepartment s deleted)

/-- Some non-deleted requisition or some non-deleted user references the department. -/
def departmentInUse (s : Db) (id : ObjectId) : Prop :=
  (∃ p ∈ s.prs, p.DepartmentId = id ∧ p.IsDelete = false) ∨
  (∃ u ∈ s.users, u.DepartmentId = some id ∧ u.IsDelete = false)

/-- A store with the department 22 that only a soft-deleted requisition and a soft-deleted
user reference, next to the department 20 of the completed requisition 5 and of the users. -/
def departmentStore : Db :=
  { emptyStore with
    departments := emptyStore.departments ++
      [{ id := 22, Department := "Finance", IsDelete := false }]
    users := emptyStore.users ++
      [⟨5, "RHUB-005", "Dev", "dev@gmail.com", "Recruiter", some 22, none, true⟩]
    prs := [{ openPR with id := 4, DepartmentId := 22, IsDelete := true },
      { openPR with id := 5, Status := "completed" }] }

/-! ## Passwords and accounts (`passwordValidator`, `userService`, `authService`) -/

/-- The property `length` of a JavaScript string: the number of UTF-16 code units, two for
a character outside the basic plane. -/
def jsLength (text : String) : Nat :=
  (text.data.map (fun c => if c.toNat < 0x10000 then 1 else 2)).sum

/-- The function `isPasswordComplex(password)`; `none` is a missing password.  The empty
string is falsy. -/
def isPasswordComplex (password : Option String) : Bool :=
  match password with
  | none => false
  | some password =>
    if password == "" || jsLength password < 8 then false
    else
      let hasUpperCase := password.data.any (fun c => 'A' ≤ c && c ≤ 'Z')
      let hasLowerCase := password.data.any (fun c => 'a' ≤ c && c ≤ 'z')
      let hasNumber := password.data.any (fun c => '0' ≤ c && c ≤ '9')
      let hasSpecialChar := password.data.any (fun c => ['@', '#', '$', '%', '&', '*'].contains c)
      hasUpperCase && hasLowerCase && hasNumber && hasSpecialChar

/-- The fields of `userSchema` that the password services read and write; `Password` is the
stored hash. -/
structure Account where
  id : ObjectId
  Email : String
  Password : String
  IsDelete : Bool
  resetPasswordToken : Option String
  resetPasswordExpires : Option Nat
deriving DecidableEq, Repr

/-- The collection of users as the password services see it, the mails sent, and `queries`,
the number of calls of `userQueries` made so far: a call that reaches the collection can be
told from one that does not. -/
structure AuthDb where
  accounts : List Account
  outbox : List Mail
  queries : Nat
deriving DecidableEq, Repr

/-- The result of a password service and the database after it. -/
abbrev AuthOutcome := Except AppError Unit × AuthDb

/-- One call of `userQueries` is counted. -/
def queried (s : AuthDb) : AuthDb :=
  { s with queries := s.queries + 1 }

/-- The function `userQueries.save(user)`, with the pre-save hook of `userSchema`: the
password is hashed by `hash` when it was modified. -/
def saveAccount (hash : String → String) (s : AuthDb) (old user : Account) : AuthDb :=
  let stored : Account :=
    if user.Password == old.Password then user else { user with Password := hash user.Password }
  { queried s with accounts := s.accounts.map (fun a => if a.id = stored.id then stored else a) }

/-- The error that `changePassword` and `resetPassword` throw for a password that is not
complex. -/
def passwordPolicyError : AppError :=
  ⟨"Password must be at least 8 characters long and contain an uppercase letter, " ++
    "a lowercase letter, a number, and a special character (@#$%&*).", 400⟩

/-- The function `changePassword(userId, currentPassword, newPassword)`; `compare` is
`bcrypt.compare`, which throws without a password to compare.  The source reads
`user.IsDelete` before it tests `!user`. -/
def changePassword (hash : String → String) (compare : String → String → Bool) (s : AuthDb)
    (userId : ObjectId) (currentPassword newPassword : Option String) : AuthOutcome :=
  if !isPasswordComplex newPassword then (.error passwordPolicyError, s)
  else
    let s1 := queried s
    match s.accounts.find? (fun a => a.id == userId) with
    | none => (.error ⟨"TypeError: Cannot read properties of null", 500⟩, s1)
    | some user =>
      if user.IsDelete then (.error ⟨"User not found.", 404⟩, s1)
      else
        match currentPassword, newPassword with
        | some currentPassword, some newPassword =>
          if !compare currentPassword user.Password then
            (.error ⟨"Incorrect current password.", 401⟩, s1)
          else (.ok (), saveAccount hash s1 user { user with Password := newPassword })
        | _, _ => (.error ⟨"Error: data and hash arguments required", 500⟩, s1)

/-- The query of `userQueries.findByResetToken` at the time `now`. -/
def hasValidToken (now : Nat) (token : String) (a : Account) : Bool :=
  a.resetPasswordToken == some token &&
    (match a.resetPasswordExpires with
      | some expires => now < expires
      | none => false)

/-- The assignments of `resetPassword`. -/
def withNewPassword (user : Account) (password : String) : Account :=
  { user with
    Password := password
    resetPasswordToken := none
    resetPasswordExpires := none }

/-- The function `resetPassword(token, password)` at the time `now`. -/
def resetPassword (hash : String → String) (s : AuthDb) (now : Nat) (token : String)
    (password : Option String) : AuthOutcome :=
  if !isPasswordComplex password then (.error passwordPolicyError, s)
  else
    let s1 := queried s
    match s.accounts.find? (hasValidToken now token), password with
    | some user, some password =>
      (.ok (), saveAccount hash s1 user (withNewPassword user password))
    | _, _ => (.error ⟨"Password reset token is invalid or has expired.", 400⟩, s1)

/-- The assignments of `forgotPassword`: the token and its expiry ten minutes later. -/
def withResetToken (user : Account) (resetToken : String) (now : Nat) : Account :=
  { user with
    resetPasswordToken := some resetToken
    resetPasswordExpires := some (now + 10 * 60 * 1000) }

/-- The function `forgotPassword(email)` at the time `now`; `resetToken` is the outcome of
`crypto.randomBytes(20).toString('hex')`.  `findByEmail` is `findOne({Email: email})`, which
gives `null` when no user has this email, and the source reads `user.IsDelete` before it
tests `!user`: the read throws a `TypeError`. -/
def forgotPassword (hash : String → String) (s : AuthDb) (now : Nat) (resetToken : String)
    (email : String) : AuthOutcome :=
  let s1 := queried s
  match s.accounts.find? (fun a => a.Email == email) with
  | none => (.error ⟨"Cannot read properties of null (reading 'IsDelete')", 500⟩, s1)
  | some user =>
    if user.IsDelete then (.ok (), s1)
    else
      let s2 := saveAccount hash s1 user (withResetToken user resetToken now)
      (.ok (), { s2 with
        outbox := s2.outbox ++
          [⟨user.Email, "RHub Password Reset Request", "passwordResetEmail"⟩] })

/-- What a controller answers: the status and the message of the body. -/
structure Response where
  status : Nat
  message : String
deriving DecidableEq, Repr

/-- The controller `forgotPassword` of `authController.mjs`: 200 and a fixed message when the
service returns, and `error.statusCode || 500` with `error.message || 'Server error'` when it
throws. -/
def forgotPasswordController (hash : String → String) (s : AuthDb) (now : Nat)
    (resetToken : String) (email : String) : Response × AuthDb :=
  match forgotPassword hash s now resetToken email with
  | (.ok _, s1) =>
    (⟨200, "If a user with that email exists, a password reset link has been sent."⟩, s1)
  | (.error e, s1) =>
    (⟨if e.statusCode != 0 then e.statusCode else 500,
      if e.message != "" then e.message else "Server error"⟩, s1)

/-- The six special characters of the validator. -/
def validatorSpecialChars : List Char := ['@', '#', '$', '%', '&', '*']

/-- The condition of claim C25 on a password: at least 8 code units, an upper-case letter, a
lower-case letter, a digit and one of the six special characters. -/
def meetsPolicy (text : String) : Prop :=
  8 ≤ jsLength text ∧
  (∃ c ∈ text.data, 65 ≤ c.toNat ∧ c.toNat ≤ 90) ∧
  (∃ c ∈ text.data, 97 ≤ c.toNat ∧ c.toNat ≤ 122) ∧
  (∃ c ∈ text.data, 48 ≤ c.toNat ∧ c.toNat ≤ 57) ∧
  (∃ c ∈ text.data, c ∈ validatorSpecialChars)

/-- A registered account, and a soft-deleted one. -/
def authStore : AuthDb :=
  { accounts := [⟨1, "hrbp@gmail.com", "hash(Password@123)", false, none, none⟩,
      ⟨6, "gone@gmail.com", "hash(Password@123)", true, none, none⟩]
    outbox := []
    queries := 0 }

/-- A hash function for the examples. -/
def sampleHash (password : String) : String := "hash(" ++ password ++ ")"

/-- The comparison that belongs to `sampleHash`. -/
def sampleCompare (password hashed : String) : Bool := sampleHash password == hashed

/-! ## Upload filter (`uploadMiddleware`) -/

/-- The file that multer hands to `fileFilter`. -/
structure MulterFile where
  originalname : String
  mimetype : String
deriving DecidableEq, Repr

/-- The text `pattern` occurs somewhere in `text`. -/
def occursIn (pattern : List Char) : List Char → Bool
  | [] => pattern.isEmpty
  | c :: cs => pattern.isPrefixOf (c :: cs) || occursIn pattern cs

/-- The test `/pdf|doc|docx/.test(text)`: the expression is not anchored, so it accepts a
text that contains one of the three words anywhere. -/
def allowedTypes (text : String) : Bool :=
  occursIn "pdf".data text.data || occursIn "doc".data text.data ||
    occursIn "docx".data text.data

/-- The function `path.extname` of Node (POSIX): trailing slashes are ignored, and the
extension of the last component runs from its last dot to its end; it is empty when the
component has no dot, starts with its only dot, or is `..`. -/
def extname (path : String) : String :=
  let reversedBase := (path.data.reverse.dropWhile (fun c => c == '/')).takeWhile
    (fun c => c != '/')
  if !reversedBase.contains '.' then ""
  else
    let reversedExt := reversedBase.takeWhile (fun c => c != '.')
    let beforeDot := (reversedBase.drop (reversedExt.length + 1)).reverse
    if beforeDot.isEmpty then ""
    else if beforeDot == ['.'] && reversedExt.isEmpty then ""
    else String.mk ('.' :: reversedExt.reverse)

/-- The method `toLowerCase()`, character by character with the mapping `lower`. -/
def toLowerCase (lower : Char → List Char) (text : String) : String :=
  String.mk (text.data.map lower).flatten

/-- The function `fileFilter(req, file, cb)`: `ok true` is `cb(null, true)`, the error is the
one handed to `cb`. -/
def fileFilter (lower : Char → List Char) (file : MulterFile) : Except AppError Bool :=
  let mimetype := allowedTypes file.mimetype
  let extension := allowedTypes (toLowerCase lower (extname file.originalname))
  if mimetype && extension then .ok true
  else .error ⟨"Only .pdf, .doc, and .docx files are allowed.", 400⟩

/-! ## Temporary passwords (`generatePassword`) -/

/-- The constant `upperCaseChars`. -/
def upperCaseChars : List Char := "ABCDEFGHIJKLMNOPQRSTUVWXYZ".data

/-- The constant `lowerCaseChars`. -/
def lowerCaseChars : List Char := "abcdefghijklmnopqrstuvwxyz".data

/-- The constant `numericChars`. -/
def numericChars : List Char := "0123456789".data

/-- The constant `specialChars`. -/
def specialChars : List Char := "!@#$%^&*()_+-=[]{}|;:,.<>?".data

/-- The constant `allChars`. -/
def allChars : List Char := upperCaseChars ++ lowerCaseChars ++ numericChars ++ specialChars

/-- The expression `chars[crypto.randomInt(chars.length)]` appended to a string, for the
random draw `r`: `randomInt(n)` is a number below `n`, here the remainder of `r`; an index
outside the string would give `undefined`. -/
def randomChar (chars : List Char) (r : Nat) : List Char :=
  match chars.get? (r % chars.length) with
  | some c => [c]
  | none => "undefined".data

/-- The function `generateRandomPassword(length)`.  The random choices are parameters:
`rand k` is the draw of the k-th call of `crypto.randomInt`, and `shuffle` is the
rearrangement that `sort` with the random comparator makes. -/
def generateRandomPassword (rand : Nat → Nat) (shuffle : List Char → List Char)
    (length : Nat) : String :=
  let password := randomChar upperCaseChars (rand 0) ++ randomChar lowerCaseChars (rand 1) ++
    randomChar numericChars (rand 2) ++ randomChar specialChars (rand 3)
  let password := password ++
    ((List.range (length - 4)).map (fun i => randomChar allChars (rand (i + 4)))).flatten
  String.mk (shuffle password)

/-- A standard Word document, as browsers send it. -/
def wordDocument : MulterFile := ⟨"resume.doc", "application/msword"⟩

/-- A macro-enabled Word document. -/
def macroDocument : MulterFile :=
  ⟨"offer.docm", "application/vnd.ms-word.document.macroEnabled.12"⟩

/-- A recruiter whose id, 10, is spelled with a letter: "00000000000000000000000a". -/
def hexRecruiter : User :=
  ⟨10, "RHUB-010", "Asha", "asha@gmail.com", "Recruiter", some 20, none, false⟩

/-- The requisition of `storeOne`, assigned to the recruiter 10. -/
def hexPR : PeopleRequisition := { openPR with RecruiterId := 10 }

/-- The store `storeOne` with the recruiter 10 and the requisition assigned to that user. -/
def storeHex : Db :=
  { storeOne with users := storeOne.users ++ [hexRecruiter], prs := [hexPR] }

/-- A payload that resubmits the recruiter 10 with the hexadecimal digit in upper case. -/
def upperCasePayload : UpdateData :=
  [("RecruiterId", .oidText 10 "00000000000000000000000A")]

/-! ## Basic facts about the repository functions -/

theorem findById_id {s : Db} {id : ObjectId} {pr : PeopleRequisition}
    (h : findById s id = some pr) : pr.id = id := by
  have := List.find?_some h
  simpa using this


theorem find_map_replace (l : List PeopleRequisition) (id : ObjectId)
    (pr q : PeopleRequisition) (hq : q.id = id)
    (h : l.find? (fun p => p.id == id) = some pr) :
    (l.map (fun p => if p.id = q.id then q else p)).find? (fun p => p.id == id) = some q := by
  induction l with
  | nil => simp at h
  | cons a t ih =>
    rw [List.map_cons, List.find?_cons]
    rw [List.find?_cons] at h
    by_cases ha : a.id = id
    · simp [hq, ha]
    · have hc : (a.id == id) = false := by simpa using ha
      rw [hc] at h
      have hb : ((if a.id = q.id then q else a).id == id) = false := by
        simp [hq, ha]
      rw [hb]
      exact ih h

theorem findById_save {s : Db} {id : ObjectId} {pr q : PeopleRequisition}
    (h : findById s id = some pr) (hq : q.id = id) : findById (save s q) id = some q := by
  unfold findById save
  exact find_map_replace s.prs id pr q hq h

theorem isValidTransition_iff (r c n : String) :
    isValidTransition r c n = true ↔ (r, c, n) ∈ transitionTable := by
  unfold isValidTransition transitionTable
  simp only [Bool.or_eq_true, Bool.and_eq_true,
    beq_iff_eq, List.contains_cons, List.mem_cons, Prod.mk.injEq, List.mem_singleton,
    List.contains_nil, Bool.or_false, List.not_mem_nil, or_false]
  constructor
  · rintro (⟨h, ((⟨h1, h2⟩ | ⟨h1, h2⟩) | ⟨h1, h2⟩) | ⟨h1, h2 | h2⟩⟩ | ⟨h, ⟨h1, h2⟩ | ⟨h1, h2⟩⟩) <;>
      subst h h1 h2 <;> simp
  · rintro (⟨h, h1, h2⟩ | ⟨h, h1, h2⟩ | ⟨h, h1, h2⟩ | ⟨h, h1, h2⟩ | ⟨h, h1, h2⟩ | ⟨h, h1, h2⟩ |
      ⟨h, h1, h2⟩) <;> subst h h1 h2 <;> simp
theorem notifyCompleted_ok (s1 : Db) (prId : ObjectId) (r n : String) (q : PeopleRequisition)
    (hfind : findById s1 prId = some q) (hrefs : refsResolve s1 q = true) :
    ∃ s2, notifyCompleted s1 prId r n = .ok s2 ∧ s2.prs = s1.prs := by
  unfold notifyCompleted
  split
  · simp only [findByIdAndPopulateDetails, hfind, Option.map_some', populateDetails]
    simp only [refsResolve, Bool.and_eq_true, Option.isSome_iff_exists] at hrefs
    obtain ⟨⟨⟨⟨u1, h1⟩, ⟨u2, h2⟩⟩, ⟨j, h3⟩⟩, _⟩ := hrefs
    simp only [h1, h2, h3]
    exact ⟨_, rfl, rfl⟩
  · exact ⟨s1, rfl, rfl⟩

theorem updateStatus_invalid (s : Db) (now : Nat) (prId : ObjectId) (newStatus : String)
    (u : User) (pr : PeopleRequisition)
    (hfind : findById s prId = some pr) (hlive : pr.IsDelete = false)
    (hassigned : pr.HRBPId = u.id ∨ pr.RecruiterId = u.id)
    (hv : isValidTransition u.Role pr.Status newStatus = false) :
    updatePeopleRequisitionStatus s now prId newStatus u =
      (.error ⟨"As a " ++ u.Role ++ ", you cannot change the status from " ++
          pr.Status ++ " to " ++ newStatus ++ ".", 400⟩, s) := by
  have ha : (!(pr.HRBPId == u.id) && !(pr.RecruiterId == u.id)) = false := by
    rcases hassigned with h | h <;> simp [h]
  simp [updatePeopleRequisitionStatus, hfind, hlive, ha, hv]

theorem updateStatus_valid (s : Db) (now : Nat) (prId : ObjectId) (newStatus : String)
    (u : User) (pr : PeopleRequisition)
    (hfind : findById s prId = some pr) (hlive : pr.IsDelete = false)
    (hassigned : pr.HRBPId = u.id ∨ pr.RecruiterId = u.id)
    (hrefs : refsResolve s pr = true)
    (hv : isValidTransition u.Role pr.Status newStatus = true) :
    ∃ s2, updatePeopleRequisitionStatus s now prId newStatus u =
        (.ok (withStatus pr newStatus u now), s2) ∧
      findById s2 prId = some (withStatus pr newStatus u now) ∧
      s2.prs = (save s (withStatus pr newStatus u now)).prs := by
  have ha : (!(pr.HRBPId == u.id) && !(pr.RecruiterId == u.id)) = false := by
    rcases hassigned with h | h <;> simp [h]
  have he : statusEnum.contains newStatus = true := by
    have := (isValidTransition_iff _ _ _).1 hv
    simp only [transitionTable, List.mem_cons, Prod.mk.injEq, List.mem_singleton,
      List.not_mem_nil, or_false] at this
    rcases this with ⟨-, -, h⟩ | ⟨-, -, h⟩ | ⟨-, -, h⟩ | ⟨-, -, h⟩ | ⟨-, -, h⟩ | ⟨-, -, h⟩ |
      ⟨-, -, h⟩ <;> subst h <;> decide
  have hid : pr.id = prId := findById_id hfind
  have hid : (withStatus pr newStatus u now).id = prId := hid
  have hf1 := findById_save (q := withStatus pr newStatus u now) hfind hid
  obtain ⟨s2, h2, h3⟩ := notifyCompleted_ok _ prId u.Role newStatus _ hf1 hrefs
  have he1 : newStatus ∈ statusEnum := by simpa using he
  refine ⟨s2, ?_, ?_, h3⟩
  · simp [updatePeopleRequisitionStatus, hfind, hlive, ha, hv, he1, h2]
  · unfold findById at hf1 ⊢
    rw [h3]; exact hf1

/-! ## Facts about creation -/

theorem create_conflict (s : Db) (now : Nat) (prData : PrData) (u : User)
    (x : PeopleRequisition)
    (h : findActiveByDetails s prData.jobId prData.departmentId prData.natureOfEmploymentId =
      some x) :
    createPeopleRequisition s now prData u =
      (.error ⟨"An active People Requisition for this job and department already exists.",
        409⟩, s) := by
  simp [createPeopleRequisition, h]

theorem create_invalid (s : Db) (now : Nat) (prData : PrData) (u : User)
    (h : findActiveByDetails s prData.jobId prData.departmentId prData.natureOfEmploymentId =
      none)
    (hinv : referencesInvalid s prData = true) :
    createPeopleRequisition s now prData u = (.error invalidFields, s) := by
  unfold createPeopleRequisition
  rw [h]
  unfold referencesInvalid at hinv
  cases hj : findJobPositionById s prData.jobId <;>
  cases hd : findDepartmentById s prData.departmentId <;>
  cases hu : findUserById s prData.recruiterId <;>
  cases hn : findNatureOfEmploymentById s prData.natureOfEmploymentId <;>
  simp_all [missingOrDeleted]
  intro h1 h2 h3 h4 h5
  simp [h1, h2, h3, h4, h5] at hinv

theorem create_valid (s : Db) (now : Nat) (prData : PrData) (u : User)
    (h : findActiveByDetails s prData.jobId prData.departmentId prData.natureOfEmploymentId =
      none)
    (hval : referencesInvalid s prData = false) :
    ∃ jp, findJobPositionById s prData.jobId = some jp ∧
      createPeopleRequisition s now prData u = generateCodeAndPersist s now jp prData u := by
  unfold createPeopleRequisition
  rw [h]
  unfold referencesInvalid at hval
  cases hj : findJobPositionById s prData.jobId <;>
  cases hd : findDepartmentById s prData.departmentId <;>
  cases hu : findUserById s prData.recruiterId <;>
  cases hn : findNatureOfEmploymentById s prData.natureOfEmploymentId <;>
  simp_all [missingOrDeleted]

theorem generate_eq (s : Db) (now : Nat) (jp : JobPosition) (prData : PrData) (u : User) :
    generateCodeAndPersist s now jp prData u =
      if s.prs.any (fun p => p.JobCode ==
          jobCode (codePrefix jp.JobPosition)
            (findAndIncrement s.counters (codePrefix jp.JobPosition)).1.count) then
        (.error ⟨"E11000 duplicate key error: JobCode", 500⟩,
          { s with counters := (findAndIncrement s.counters (codePrefix jp.JobPosition)).2 })
      else
        (.ok (newDocument s now (jobCode (codePrefix jp.JobPosition)
            (findAndIncrement s.counters (codePrefix jp.JobPosition)).1.count) prData u),
          { s with
            counters := (findAndIncrement s.counters (codePrefix jp.JobPosition)).2
            prs := s.prs ++ [newDocument s now (jobCode (codePrefix jp.JobPosition)
              (findAndIncrement s.counters (codePrefix jp.JobPosition)).1.count) prData u] }) :=
  rfl

theorem foldr_max_ge (l : List Nat) (x : Nat) (h : x ∈ l) : x ≤ l.foldr max 0 := by
  induction l with
  | nil => simp at h
  | cons a t ih =>
    rw [List.foldr_cons]
    rcases List.mem_cons.1 h with h1 | h1
    · subst h1; exact le_max_left _ _
    · exact le_trans (ih h1) (le_max_right _ _)

theorem lt_freshId (s : Db) (p : PeopleRequisition) (h : p ∈ s.prs) : p.id < freshId s := by
  have : p.id ∈ s.prs.map (fun p => p.id) := List.mem_map.2 ⟨p, h, rfl⟩
  exact Nat.lt_succ_of_le (foldr_max_ge _ _ this)

/-- What a successful creation did: the references were valid, no stored requisition had the
generated code, and the new document was appended. -/
theorem create_ok (s s' : Db) (now : Nat) (prData : PrData) (u : User)
    (pr : PeopleRequisition)
    (h : createPeopleRequisition s now prData u = (.ok pr, s')) :
    ∃ jp, findJobPositionById s prData.jobId = some jp ∧
      pr = newDocument s now (jobCode (codePrefix jp.JobPosition)
        (findAndIncrement s.counters (codePrefix jp.JobPosition)).1.count) prData u ∧
      s' = { s with
        counters := (findAndIncrement s.counters (codePrefix jp.JobPosition)).2
        prs := s.prs ++ [pr] } ∧
      (∀ p ∈ s.prs, p.JobCode ≠ pr.JobCode) ∧
      findActiveByDetails s prData.jobId prData.departmentId prData.natureOfEmploymentId =
        none ∧
      referencesInvalid s prData = false := by
  cases hfa : findActiveByDetails s prData.jobId prData.departmentId
      prData.natureOfEmploymentId with
  | some x => rw [create_conflict s now prData u x hfa] at h; simp at h
  | none =>
    cases hri : referencesInvalid s prData with
    | true => rw [create_invalid s now prData u hfa hri] at h; simp at h
    | false =>
      obtain ⟨jp, hjp, hc⟩ := create_valid s now prData u hfa hri
      rw [hc, generate_eq] at h
      split at h
      · simp at h
      · rename_i hdup
        simp only [Prod.mk.injEq, Except.ok.injEq] at h
        obtain ⟨h1, h2⟩ := h
        refine ⟨jp, hjp, h1.symm, ?_, ?_, rfl, rfl⟩
        · rw [← h2, ← h1]
        · intro p hp heq
          apply hdup
          rw [List.any_eq_true]
          refine ⟨p, hp, ?_⟩
          rw [heq, ← h1]
          simp [newDocument]

theorem create_counted (s : Db) (now : Nat) (prData : PrData) (u : User) (jp : JobPosition)
    (h : findActiveByDetails s prData.jobId prData.departmentId prData.natureOfEmploymentId =
      none)
    (hval : referencesInvalid s prData = false)
    (hjp : findJobPositionById s prData.jobId = some jp) :
    createPeopleRequisition s now prData u = generateCodeAndPersist s now jp prData u := by
  obtain ⟨jp1, h1, h2⟩ := create_valid s now prData u h hval
  rw [hjp] at h1
  cases h1
  exact h2

theorem create_error_prs (s : Db) (now : Nat) (prData : PrData) (u : User) (e : AppError)
    (h : (createPeopleRequisition s now prData u).1 = .error e) :
    (createPeopleRequisition s now prData u).2.prs = s.prs := by
  cases hfa : findActiveByDetails s prData.jobId prData.departmentId
      prData.natureOfEmploymentId with
  | some x => rw [create_conflict s now prData u x hfa]
  | none =>
    cases hri : referencesInvalid s prData with
    | true => rw [create_invalid s now prData u hfa hri]
    | false =>
      obtain ⟨jp, -, hc⟩ := create_valid s now prData u hfa hri
      rw [hc, generate_eq] at h ⊢
      split
      · rfl
      · rename_i hdup
        rw [if_neg hdup] at h
        simp at h

theorem create_keeps_codes_distinct (s : Db) (now : Nat) (prData : PrData) (u : User)
    (h : (s.prs.map (fun p => p.JobCode)).Nodup) :
    ((createPeopleRequisition s now prData u).2.prs.map (fun p => p.JobCode)).Nodup := by
  cases hres : (createPeopleRequisition s now prData u).1 with
  | error e => rw [create_error_prs s now prData u e hres]; exact h
  | ok pr =>
    have hout : createPeopleRequisition s now prData u =
        (.ok pr, (createPeopleRequisition s now prData u).2) := by
      rw [← hres]
    obtain ⟨jp, -, -, hs, hnew, -, -⟩ := create_ok s _ now prData u pr hout
    rw [hs]
    simp only [List.map_append, List.map_cons, List.map_nil]
    refine List.Nodup.append h (List.nodup_singleton _) ?_
    intro c hc1 hc2
    rw [List.mem_singleton] at hc2
    obtain ⟨p, hp, hpc⟩ := List.mem_map.1 hc1
    exact hnew p hp (hpc.trans hc2)

theorem runCreations_keeps_codes_distinct (reqs : List CreateRequest) (s : Db)
    (h : (s.prs.map (fun p => p.JobCode)).Nodup) :
    ((runCreations s reqs).prs.map (fun p => p.JobCode)).Nodup := by
  induction reqs generalizing s with
  | nil => exact h
  | cons r rs ih =>
    exact ih _ (create_keeps_codes_distinct s r.now r.prData r.creatingUser h)

/-! ## Status transitions -/

/-- C1. For an existing, non-deleted requisition whose references resolve and a requester
assigned to it as HRBP or as recruiter, `updatePeopleRequisitionStatus` succeeds exactly when
(role, current status, new status) is one of the seven entries of the transition table: on a
table entry it returns the requisition with `Status` set to the new status and stores it; on
every other triple it fails with status code 400 and leaves the database unchanged. -/
theorem updatePeopleRequisitionStatus_transition_table (s : Db) (now : Nat) (prId : ObjectId)
    (newStatus : String) (requester : User) (pr : PeopleRequisition)
    (hfind : findById s prId = some pr) (hlive : pr.IsDelete = false)
    (hassigned : pr.HRBPId = requester.id ∨ pr.RecruiterId = requester.id)
    (hrefs : refsResolve s pr = true) :
    ((requester.Role, pr.Status, newStatus) ∈ transitionTable →
      (updatePeopleRequisitionStatus s now prId newStatus requester).1 =
        .ok (withStatus pr newStatus requester now) ∧
      findById (updatePeopleRequisitionStatus s now prId newStatus requester).2 prId =
        some (withStatus pr newStatus requester now) ∧
      (withStatus pr newStatus requester now).Status = newStatus) ∧
    ((requester.Role, pr.Status, newStatus) ∉ transitionTable →
      (∃ e, (updatePeopleRequisitionStatus s now prId newStatus requester).1 = .error e ∧
        e.statusCode = 400) ∧
      (updatePeopleRequisitionStatus s now prId newStatus requester).2 = s) := by
  constructor
  · intro hin
    obtain ⟨s2, h1, h2, -⟩ := updateStatus_valid s now prId newStatus requester pr hfind hlive
      hassigned hrefs ((isValidTransition_iff _ _ _).2 hin)
    rw [h1]
    exact ⟨rfl, h2, rfl⟩
  · intro hout
    have hv : isValidTransition requester.Role pr.Status newStatus = false := by
      cases h : isValidTransition requester.Role pr.Status newStatus
      · rfl
      · exact absurd ((isValidTransition_iff _ _ _).1 h) hout
    rw [updateStatus_invalid s now prId newStatus requester pr hfind hlive hassigned hv]
    exact ⟨⟨_, rfl, rfl⟩, rfl⟩

/-- C1, exercised: in `storeOne` the assigned HRBP puts the open requisition on hold, and the
same HRBP is refused the recruiter transition open to inprogress with 400. -/
theorem updatePeopleRequisitionStatus_transition_table_witness :
    (findById storeOne 1 = some openPR ∧ openPR.IsDelete = false ∧
      refsResolve storeOne openPR = true) ∧
    ((updatePeopleRequisitionStatus storeOne 200 1 "onhold" hrbpUser).1 =
        .ok (withStatus openPR "onhold" hrbpUser 200)) ∧
    ((∃ e, (updatePeopleRequisitionStatus storeOne 200 1 "inprogress" hrbpUser).1 = .error e ∧
        e.statusCode = 400) ∧
      (updatePeopleRequisitionStatus storeOne 200 1 "inprogress" hrbpUser).2 = storeOne) :=
  ⟨⟨by decide, by decide, by decide⟩,
    ((updatePeopleRequisitionStatus_transition_table storeOne 200 1 "onhold" hrbpUser openPR
      (by decide) (by decide) (Or.inl (by decide)) (by decide)).1 (by decide)).1,
    (updatePeopleRequisitionStatus_transition_table storeOne 200 1 "inprogress" hrbpUser openPR
      (by decide) (by decide) (Or.inl (by decide)) (by decide)).2 (by decide)⟩

/-- C2. `updatePeopleRequisitionStatus` fails with 404 when the requisition does not exist or
is soft-deleted, and otherwise with 403 when the requester is neither its HRBP nor its
recruiter, whatever the requester's role and the requested status are; in both cases the
database is unchanged. -/
theorem updatePeopleRequisitionStatus_not_found_then_forbidden (s : Db) (now : Nat)
    (prId : ObjectId) (newStatus : String) (requester : User) :
    ((findById s prId = none ∨ ∃ pr, findById s prId = some pr ∧ pr.IsDelete = true) →
      updatePeopleRequisitionStatus s now prId newStatus requester =
        (.error ⟨"People Requisition not found.", 404⟩, s)) ∧
    (∀ pr, findById s prId = some pr → pr.IsDelete = false →
      pr.HRBPId ≠ requester.id → pr.RecruiterId ≠ requester.id →
      updatePeopleRequisitionStatus s now prId newStatus requester =
        (.error ⟨"You do not have permission to update this People Requisition.", 403⟩,
          s)) := by
  constructor
  · rintro (h | ⟨pr, h, hd⟩)
    · simp [updatePeopleRequisitionStatus, h]
    · simp [updatePeopleRequisitionStatus, h, hd]
  · intro pr h hd h1 h2
    simp [updatePeopleRequisitionStatus, h, hd, h1, h2]

/-- C2, exercised: the HRBP asks for the listed transition open to onhold on a deleted
requisition (404) and an unassigned recruiter asks for open to inprogress (403). -/
theorem updatePeopleRequisitionStatus_not_found_then_forbidden_witness :
    updatePeopleRequisitionStatus storeDeleted 200 1 "onhold" hrbpUser =
      (.error ⟨"People Requisition not found.", 404⟩, storeDeleted) ∧
    updatePeopleRequisitionStatus storeOne 200 1 "inprogress" otherRecruiter =
      (.error ⟨"You do not have permission to update this People Requisition.", 403⟩,
        storeOne) :=
  ⟨(updatePeopleRequisitionStatus_not_found_then_forbidden storeDeleted 200 1 "onhold"
      hrbpUser).1 (Or.inr ⟨_, by rfl, by decide⟩),
    (updatePeopleRequisitionStatus_not_found_then_forbidden storeOne 200 1 "inprogress"
      otherRecruiter).2 openPR (by decide) (by decide) (by decide) (by decide)⟩

/-! ## Creation -/

/-- C3, the code at the failing input: from an empty requisition store, create, then
open to onhold, then create for the same triple, then onhold to open all succeed, and
afterwards the requisitions 1 and 2 are both non-deleted with status open and share their
(JobId, DepartmentId, NatureOfEmploymentId). -/
theorem reopen_gives_two_active_for_one_triple :
    emptyStore.prs = [] ∧
    (∃ r, (createPeopleRequisition emptyStore 100 sseRequest hrbpUser).1 = .ok r) ∧
    (∃ r, (updatePeopleRequisitionStatus
      (createPeopleRequisition emptyStore 100 sseRequest hrbpUser).2
      200 1 "onhold" hrbpUser).1 = .ok r) ∧
    (∃ r, (createPeopleRequisition
      (updatePeopleRequisitionStatus
        (createPeopleRequisition emptyStore 100 sseRequest hrbpUser).2
        200 1 "onhold" hrbpUser).2 300 sseRequest hrbpUser).1 = .ok r) ∧
    (∃ r, (updatePeopleRequisitionStatus
      (createPeopleRequisition
        (updatePeopleRequisitionStatus
          (createPeopleRequisition emptyStore 100 sseRequest hrbpUser).2
          200 1 "onhold" hrbpUser).2 300 sseRequest hrbpUser).2
      400 1 "open" hrbpUser).1 = .ok r) ∧
    ∃ p ∈ reopenRun.prs, ∃ q ∈ reopenRun.prs,
      p.id ≠ q.id ∧ isActivePR p = true ∧ isActivePR q = true ∧ sameTriple p q = true := by
  refine ⟨rfl, ⟨_, rfl⟩, ⟨_, rfl⟩, ⟨_, rfl⟩, ⟨_, rfl⟩, ?_⟩
  decide

/-- C4. Whenever the store holds a non-deleted requisition with status open or inprogress for
the submitted (jobId, departmentId, natureOfEmploymentId), `createPeopleRequisition` fails
with 409 and returns the database unchanged (nothing persisted, no counter incremented),
whatever the other fields of the request are and whether or not its references are valid. -/
theorem createPeopleRequisition_duplicate_conflict (s : Db) (now : Nat) (prData : PrData)
    (creatingUser : User) (p : PeopleRequisition) (hp : p ∈ s.prs)
    (hjob : p.JobId = prData.jobId) (hdep : p.DepartmentId = prData.departmentId)
    (hnat : p.NatureOfEmploymentId = prData.natureOfEmploymentId)
    (hlive : p.IsDelete = false) (hstatus : p.Status = "open" ∨ p.Status = "inprogress") :
    createPeopleRequisition s now prData creatingUser =
      (.error ⟨"An active People Requisition for this job and department already exists.",
        409⟩, s) := by
  have hact : activeWithDetails prData.jobId prData.departmentId prData.natureOfEmploymentId
      p = true := by
    rcases hstatus with h | h <;>
      simp [activeWithDetails, hjob, hdep, hnat, hlive, h]
  cases hfa : findActiveByDetails s prData.jobId prData.departmentId
      prData.natureOfEmploymentId with
  | some x => exact create_conflict s now prData creatingUser x hfa
  | none =>
    have := List.find?_eq_none.1 hfa p hp
    exact absurd hact this

/-- C4, exercised: with the open requisition of `storeOne` in place, a request for the same
triple that names the interviewer 4 as recruiter (an invalid reference) and differs in the
other fields is refused with 409, not 400. -/
theorem createPeopleRequisition_duplicate_conflict_witness :
    openPR ∈ storeOne.prs ∧ referencesInvalid storeOne ⟨10, 20, 4, 30, none, some "PRF-9",
      none, some 5⟩ = true ∧
    createPeopleRequisition storeOne 300 ⟨10, 20, 4, 30, none, some "PRF-9", none, some 5⟩
        hrbpUser =
      (.error ⟨"An active People Requisition for this job and department already exists.",
        409⟩, storeOne) :=
  ⟨by decide, by decide,
    createPeopleRequisition_duplicate_conflict storeOne 300
      ⟨10, 20, 4, 30, none, some "PRF-9", none, some 5⟩ hrbpUser openPR (by decide) (by decide)
      (by decide) (by decide) (by decide) (Or.inl (by decide))⟩

/-- C5. When no active requisition exists for the submitted triple, `createPeopleRequisition`
fails with status code 400 if and only if a reference is invalid (job position, department,
recruiter or nature of employment missing or soft-deleted, or the recruiter's role name not
'Recruiter'); in that case the outcome is the one error `invalidFields` (400, 'One or more
provided fields are invalid.') whichever references are invalid, and the database is
returned unchanged. -/
theorem createPeopleRequisition_invalid_references (s : Db) (now : Nat) (prData : PrData)
    (creatingUser : User)
    (hnodup : findActiveByDetails s prData.jobId prData.departmentId
      prData.natureOfEmploymentId = none) :
    (failsWith (createPeopleRequisition s now prData creatingUser) 400 ↔
      referencesInvalid s prData = true) ∧
    (referencesInvalid s prData = true →
      createPeopleRequisition s now prData creatingUser = (.error invalidFields, s)) ∧
    invalidFields = ⟨"One or more provided fields are invalid.", 400⟩ := by
  refine ⟨⟨?_, ?_⟩, create_invalid s now prData creatingUser hnodup, rfl⟩
  · rintro ⟨e, he, hcode⟩
    cases hri : referencesInvalid s prData with
    | true => rfl
    | false =>
      obtain ⟨jp, -, hc⟩ := create_valid s now prData creatingUser hnodup hri
      rw [hc, generate_eq] at he
      split at he
      · simp only [Except.error.injEq] at he
        subst he
        simp at hcode
      · simp at he
  · intro hri
    rw [create_invalid s now prData creatingUser hnodup hri]
    exact ⟨invalidFields, rfl, rfl⟩

/-- C5, exercised: in `emptyStore` a request naming the deleted job position 12 and a request
naming the interviewer 4 as recruiter get the same outcome. -/
theorem createPeopleRequisition_invalid_references_witness :
    createPeopleRequisition emptyStore 100 ⟨12, 20, 2, 30, none, none, none, none⟩ hrbpUser =
      (.error invalidFields, emptyStore) ∧
    createPeopleRequisition emptyStore 100 ⟨10, 20, 4, 30, none, none, none, none⟩ hrbpUser =
      (.error invalidFields, emptyStore) :=
  ⟨(createPeopleRequisition_invalid_references emptyStore 100
      ⟨12, 20, 2, 30, none, none, none, none⟩ hrbpUser (by decide)).2.1 (by decide),
    (createPeopleRequisition_invalid_references emptyStore 100
      ⟨10, 20, 4, 30, none, none, none, none⟩ hrbpUser (by decide)).2.1 (by decide)⟩

/-- C6. Every successful `createPeopleRequisition` appends exactly one requisition to the
store, with a new id, `Status` open, `IsApprovedByHRBP` false, `IsDelete` false, `HRBPId` the
creating user's id and the submitted job, department, recruiter and nature of employment ids;
the requisitions already stored are unchanged and no notification is dispatched. -/
theorem createPeopleRequisition_success (s s' : Db) (now : Nat) (prData : PrData)
    (creatingUser : User) (pr : PeopleRequisition)
    (h : createPeopleRequisition s now prData creatingUser = (.ok pr, s')) :
    s'.prs = s.prs ++ [pr] ∧ (∀ p ∈ s.prs, p.id ≠ pr.id) ∧
    pr.Status = "open" ∧ pr.IsApprovedByHRBP = false ∧ pr.IsDelete = false ∧
    pr.HRBPId = creatingUser.id ∧ pr.JobId = prData.jobId ∧
    pr.DepartmentId = prData.departmentId ∧ pr.RecruiterId = prData.recruiterId ∧
    pr.NatureOfEmploymentId = prData.natureOfEmploymentId ∧
    s'.outbox = s.outbox := by
  obtain ⟨jp, -, hpr, hs, -, -, -⟩ := create_ok s s' now prData creatingUser pr h
  refine ⟨by rw [hs], ?_, ?_, ?_, ?_, ?_, ?_, ?_, ?_, ?_, by rw [hs]⟩
  · intro p hp
    have h1 := lt_freshId s p hp
    have h2 : pr.id = freshId s := by rw [hpr]; rfl
    intro heq
    rw [heq, h2] at h1
    exact lt_irrefl _ h1
  all_goals rw [hpr]; rfl

/-- C6, exercised: the creation of `openPR` in `emptyStore`. -/
theorem createPeopleRequisition_success_witness :
    createPeopleRequisition emptyStore 100 sseRequest hrbpUser = (.ok openPR, storeOne) ∧
    storeOne.prs = emptyStore.prs ++ [openPR] ∧ openPR.Status = "open" ∧
    storeOne.outbox = emptyStore.outbox :=
  have h := createPeopleRequisition_success emptyStore storeOne 100 sseRequest hrbpUser openPR
    (by decide)
  ⟨by decide, h.1, h.2.2.1, h.2.2.2.2.2.2.2.2.2.2⟩

/-! ## Facts about counters and numerals -/

theorem findAndIncrement_fst (cs : List PrefixCounter) (P : String) :
    (findAndIncrement cs P).1 = ⟨P, countOf cs P + 1⟩ := by
  induction cs with
  | nil => simp [findAndIncrement, countOf]
  | cons c t ih =>
    by_cases h : c.pfx = P
    · simp [findAndIncrement, countOf, h]
    · have hb : (c.pfx == P) = false := by simpa using h
      simp only [findAndIncrement, h, if_false, ih]
      simp [countOf, List.find?_cons, hb]

theorem countOf_findAndIncrement (cs : List PrefixCounter) (P Q : String) :
    countOf (findAndIncrement cs P).2 Q = if Q = P then countOf cs P + 1 else countOf cs Q := by
  induction cs with
  | nil =>
    by_cases h : Q = P
    · simp [findAndIncrement, countOf, h]
    · have h1 : ¬ P = Q := fun e => h e.symm
      simp [findAndIncrement, countOf, h, h1]
  | cons c t ih =>
    by_cases hc : c.pfx = P
    · by_cases h : Q = P
      · simp [findAndIncrement, countOf, hc, h]
      · have h1 : ¬ P = Q := fun e => h e.symm
        simp [findAndIncrement, countOf, hc, h, h1, List.find?_cons]
    · simp only [findAndIncrement, hc, if_false]
      by_cases hq : c.pfx = Q
      · have h : ¬ Q = P := fun e => hc (hq.trans e)
        simp [countOf, List.find?_cons, hq, h]
      · have hb : (c.pfx == Q) = false := by simpa using hq
        have hb1 : (c.pfx == P) = false := by simpa using hc
        have e1 : countOf (c :: (findAndIncrement t P).2) Q =
            countOf (findAndIncrement t P).2 Q := by
          simp [countOf, List.find?_cons, hb]
        have e2 : countOf (c :: t) Q = countOf t Q := by
          simp [countOf, List.find?_cons, hb]
        have e3 : countOf (c :: t) P = countOf t P := by
          simp [countOf, List.find?_cons, hb1]
        rw [e1, e2, e3, ih]

theorem findAndIncrement_others (cs : List PrefixCounter) (P : String) :
    (findAndIncrement cs P).2.filter (fun c => c.pfx != P) =
      cs.filter (fun c => c.pfx != P) := by
  induction cs with
  | nil => simp [findAndIncrement]
  | cons c t ih =>
    by_cases hc : c.pfx = P
    · simp [findAndIncrement, hc]
    · simp only [findAndIncrement, hc, if_false]
      simp [List.filter_cons, hc, ih]

theorem countOf_of_absent (cs : List PrefixCounter) (P : String)
    (h : cs.find? (fun c => c.pfx == P) = none) : countOf cs P = 0 := by
  simp [countOf, h]

theorem countOf_incrementAll (ps : List String) (cs : List PrefixCounter) (P : String) :
    countOf (incrementAll cs ps) P = countOf cs P + ps.count P := by
  induction ps generalizing cs with
  | nil => simp [incrementAll]
  | cons q t ih =>
    have hstep : incrementAll cs (q :: t) = incrementAll (findAndIncrement cs q).2 t := rfl
    rw [hstep, ih, countOf_findAndIncrement, List.count_cons]
    by_cases h : P = q
    · subst h; simp; omega
    · have h1 : ¬ q = P := fun e => h e.symm
      simp [h, h1]

theorem digitChar_value (d : Nat) (h : d < 10) : (Nat.digitChar d).toNat - 48 = d := by
  interval_cases d <;> rfl

theorem toDigitsCore_append (f : Nat) : ∀ (n : Nat) (ds : List Char),
    Nat.toDigitsCore 10 f n ds = Nat.toDigitsCore 10 f n [] ++ ds := by
  induction f with
  | zero => intro n ds; simp [Nat.toDigitsCore]
  | succ f ih =>
    intro n ds
    simp only [Nat.toDigitsCore]
    split
    · simp
    · rw [ih (n / 10) (Nat.digitChar (n % 10) :: ds), ih (n / 10) [Nat.digitChar (n % 10)]]
      simp

theorem parseDecimal_append_one (l : List Char) (c : Char) :
    parseDecimal (l ++ [c]) = 10 * parseDecimal l + (c.toNat - 48) := by
  simp [parseDecimal, List.foldl_append]

theorem parseDecimal_toDigitsCore (f : Nat) : ∀ n : Nat, n < f →
    parseDecimal (Nat.toDigitsCore 10 f n []) = n := by
  induction f with
  | zero => intro n h; omega
  | succ f ih =>
    intro n h
    simp only [Nat.toDigitsCore]
    split
    · rename_i h0
      have hm : n % 10 = n := by omega
      have hd := digitChar_value (n % 10) (Nat.mod_lt _ (by decide))
      rw [hm] at hd
      simpa [parseDecimal, hm] using hd
    · rename_i h0
      rw [toDigitsCore_append, parseDecimal_append_one, ih (n / 10) (by omega),
        digitChar_value (n % 10) (Nat.mod_lt _ (by decide))]
      omega

theorem parseDecimal_toDigits (n : Nat) : parseDecimal (Nat.toDigits 10 n) = n :=
  parseDecimal_toDigitsCore (n + 1) n (Nat.lt_succ_self n)

theorem parseDecimal_zeros (k : Nat) (l : List Char) :
    parseDecimal (List.replicate k '0' ++ l) = parseDecimal l := by
  induction k with
  | zero => simp
  | succ k ih =>
    have : parseDecimal (List.replicate (k + 1) '0' ++ l) =
        parseDecimal (List.replicate k '0' ++ l) := by
      simp only [parseDecimal, List.replicate_succ, List.cons_append, List.foldl_cons]
      rfl
    rw [this, ih]

theorem parseDecimal_formattedCount (c : Nat) : parseDecimal (formattedCount c) = c := by
  rw [formattedCount, padStart, parseDecimal_zeros, parseDecimal_toDigits]

theorem formattedCount_length (c : Nat) (h : c < 1000) : (formattedCount c).length = 3 := by
  have h1 : (Nat.toDigits 10 c).length ≤ 3 :=
    Nat.toDigitsCore_length 10 (by decide) (c + 1) c 3 (by simpa using h) (by decide)
  simp only [formattedCount, padStart, List.length_append, List.length_replicate]
  omega

theorem jobCode_injective_below_1000 (p1 p2 : String) (c1 c2 : Nat) (h1 : c1 < 1000)
    (h2 : c2 < 1000) (h : jobCode p1 c1 = jobCode p2 c2) : p1 = p2 ∧ c1 = c2 := by
  have h := congrArg String.data h
  simp only [jobCode] at h
  have hl : (formattedCount c1).length = (formattedCount c2).length := by
    rw [formattedCount_length c1 h1, formattedCount_length c2 h2]
  obtain ⟨ha, hb⟩ := List.append_inj' h hl
  refine ⟨String.ext ha, ?_⟩
  have := congrArg parseDecimal hb
  rwa [parseDecimal_formattedCount, parseDecimal_formattedCount] at this

theorem jobCode_injective_same_prefix (p : String) (c1 c2 : Nat)
    (h : jobCode p c1 = jobCode p c2) : c1 = c2 := by
  have h := congrArg String.data h
  simp only [jobCode] at h
  have := congrArg parseDecimal (List.append_cancel_left h)
  rwa [parseDecimal_formattedCount, parseDecimal_formattedCount] at this

/-! ## Job codes -/

theorem splitOn_ne_nil (sep : Char) (l : List Char) : splitOn sep l ≠ [] := by
  induction l with
  | nil => simp [splitOn]
  | cons c cs ih =>
    simp only [splitOn]
    split
    · simp
    · split <;> simp

/-- The pieces of `splitOn`, joined with the separator, give back the string. -/
theorem splitOn_intercalate (sep : Char) (l : List Char) :
    List.intercalate [sep] (splitOn sep l) = l := by
  induction l with
  | nil => simp [splitOn, List.intercalate]
  | cons c cs ih =>
    simp only [splitOn]
    split
    · rename_i h
      cases hs : splitOn sep cs with
      | nil => exact absurd hs (splitOn_ne_nil sep cs)
      | cons w ws =>
        rw [hs] at ih
        simp only [List.intercalate, List.intersperse, List.flatten_cons, List.nil_append,
          List.singleton_append] at ih ⊢
        rw [ih, h]
    · cases hs : splitOn sep cs with
      | nil => exact absurd hs (splitOn_ne_nil sep cs)
      | cons w ws =>
        rw [hs] at ih
        cases ws with
        | nil =>
          simp only [List.intercalate, List.intersperse, List.flatten_cons, List.flatten_nil,
            List.append_nil] at ih ⊢
          rw [ih]
        | cons w2 ws2 =>
          simp only [List.intercalate, List.intersperse, List.flatten_cons,
            List.cons_append] at ih ⊢
          rw [ih]

/-- No piece of `splitOn` contains the separator. -/
theorem splitOn_no_separator (sep : Char) (l : List Char) :
    ∀ w ∈ splitOn sep l, sep ∉ w := by
  induction l with
  | nil => simp [splitOn]
  | cons c cs ih =>
    simp only [splitOn]
    split
    · intro w hw
      rcases List.mem_cons.1 hw with h | h
      · subst h; simp
      · exact ih w h
    · rename_i hne
      cases hs : splitOn sep cs with
      | nil => exact absurd hs (splitOn_ne_nil sep cs)
      | cons w ws =>
        rw [hs] at ih
        intro x hx
        rcases List.mem_cons.1 hx with h | h
        · subst h
          intro hmem
          rcases List.mem_cons.1 hmem with h1 | h1
          · exact hne h1.symm
          · exact ih w (List.mem_cons_self _ _) h1
        · exact ih x (List.mem_cons_of_mem _ h)

theorem toUpperCase_append (up : Char → List Char) (a b : List Char) :
    toUpperCase up (a ++ b) = toUpperCase up a ++ toUpperCase up b := by
  simp [toUpperCase]

theorem upper_join_heads (up : Char → List Char) (ws : List (List Char)) :
    toUpperCase up (joinChars (ws.map (fun word => word.head?))) =
      ((ws.filter (fun word => !word.isEmpty)).map (fun word =>
        match word with
        | [] => []
        | c :: _ => up c)).flatten := by
  induction ws with
  | nil => simp [toUpperCase, joinChars]
  | cons w t ih =>
    have hstep : joinChars ((w :: t).map (fun word => word.head?)) =
        (match w.head? with
          | none => []
          | some c => [c]) ++ joinChars (t.map (fun word => word.head?)) := by
      simp [joinChars]
    rw [hstep, toUpperCase_append, ih]
    cases w with
    | nil => simp [toUpperCase]
    | cons c cs => simp [toUpperCase]

/-- C7. For every job-position name (and every upper-case mapping of characters) the prefix
computed by line 49 is the concatenation, in order, of the upper-cased first characters of
the non-empty space-separated words of the name, empty words contributing nothing; with the
ASCII mapping "Senior Software Engineer" gives "SSE", also with leading, repeated and
trailing spaces. -/
theorem codePrefix_is_initials_of_words :
    (∀ (up : Char → List Char) (name : List Char),
      codePrefixWith up name = initialsOfWords up name) ∧
    (∀ name : String,
      (codePrefix name).data = initialsOfWords upperCaseMapping name.data) ∧
    codePrefix "Senior Software Engineer" = "SSE" ∧
    codePrefix "  senior  software engineer " = "SSE" := by
  refine ⟨fun up name => ?_, fun name => ?_, by decide, by decide⟩
  · exact upper_join_heads up (splitOn ' ' name)
  · exact upper_join_heads upperCaseMapping (splitOn ' ' name.data)

/-- C8 as stated fails: `reseededStore` has no counter for the prefix "SSE" and still holds
the requisition "SSE001".  The first creation for the prefix is given the code "SSE001" and
is rejected by the unique index after its count was consumed; the next creation, the first
successful one for the prefix, receives "SSE002" and not "SSE" followed by 001. -/
theorem first_successful_creation_gets_second_code :
    reseededStore.counters.find? (fun c => c.pfx == "SSE") = none ∧
    codePrefix "Senior Software Engineer" = "SSE" ∧
    (createPeopleRequisition reseededStore 300 sseContractRequest hrbpUser).1 =
      .error ⟨"E11000 duplicate key error: JobCode", 500⟩ ∧
    ∃ pr, (createPeopleRequisition
        (createPeopleRequisition reseededStore 300 sseContractRequest hrbpUser).2
        400 sseContractRequest hrbpUser).1 = .ok pr ∧
      pr.JobCode = "SSE002" ∧ pr.JobCode ≠ jobCode "SSE" 1 := by
  refine ⟨by decide, by decide, by decide, _, rfl, by decide, by decide⟩

/-- C8, amended. `findAndIncrement` returns count 1 for an absent prefix and the previous
count plus 1 otherwise, and leaves the counters of all other prefixes unchanged; hence,
starting from a collection with no counter for `P`, the call for `P` that follows any calls
among which `P` occurred `k - 1` times returns `k`.  A creation that passes the duplicate
and reference checks consumes the next count `k` of its prefix `P` and is given the code `P`
followed by the decimal numeral of `k` left-padded with '0' to width 3; it succeeds with that
code when no stored requisition has it, and otherwise fails with 500, nothing being stored. -/
theorem findAndIncrement_numbers_counted_creations :
    (∀ (cs : List PrefixCounter) (P : String),
      (cs.find? (fun c => c.pfx == P) = none → (findAndIncrement cs P).1 = ⟨P, 1⟩) ∧
      (findAndIncrement cs P).1 = ⟨P, countOf cs P + 1⟩ ∧
      countOf (findAndIncrement cs P).2 P = countOf cs P + 1 ∧
      (findAndIncrement cs P).2.filter (fun c => c.pfx != P) =
        cs.filter (fun c => c.pfx != P)) ∧
    (∀ (cs : List PrefixCounter) (P : String) (ps : List String),
      cs.find? (fun c => c.pfx == P) = none →
      (findAndIncrement (incrementAll cs ps) P).1 = ⟨P, ps.count P + 1⟩) ∧
    (∀ (s : Db) (now : Nat) (prData : PrData) (u : User) (jp : JobPosition),
      findActiveByDetails s prData.jobId prData.departmentId prData.natureOfEmploymentId =
        none →
      referencesInvalid s prData = false →
      findJobPositionById s prData.jobId = some jp →
      countOf (createPeopleRequisition s now prData u).2.counters (codePrefix jp.JobPosition) =
        countOf s.counters (codePrefix jp.JobPosition) + 1 ∧
      ((∀ p ∈ s.prs, p.JobCode ≠ jobCode (codePrefix jp.JobPosition)
          (countOf s.counters (codePrefix jp.JobPosition) + 1)) →
        ∃ pr, (createPeopleRequisition s now prData u).1 = .ok pr ∧
          pr.JobCode = jobCode (codePrefix jp.JobPosition)
            (countOf s.counters (codePrefix jp.JobPosition) + 1)) ∧
      ((∃ p ∈ s.prs, p.JobCode = jobCode (codePrefix jp.JobPosition)
          (countOf s.counters (codePrefix jp.JobPosition) + 1)) →
        failsWith (createPeopleRequisition s now prData u) 500 ∧
        (createPeopleRequisition s now prData u).2.prs = s.prs)) ∧
    (∀ (P : String) (k : Nat),
      (jobCode P k).data =
        P.data ++ (List.replicate (3 - (Nat.repr k).length) '0' ++ (Nat.repr k).data)) ∧
    jobCode "SSE" 1 = "SSE001" ∧ jobCode "SSE" 2 = "SSE002" := by
  refine ⟨fun cs P => ⟨fun h => ?_, findAndIncrement_fst cs P, ?_,
    findAndIncrement_others cs P⟩, fun cs P ps h => ?_, ?_, fun P k => rfl, by decide,
    by decide⟩
  · rw [findAndIncrement_fst, countOf_of_absent cs P h]
  · rw [countOf_findAndIncrement, if_pos rfl]
  · rw [findAndIncrement_fst, countOf_incrementAll, countOf_of_absent cs P h, Nat.zero_add]
  · intro s now prData u jp hfa hval hjp
    rw [create_counted s now prData u jp hfa hval hjp, generate_eq, findAndIncrement_fst]
    refine ⟨?_, ?_, ?_⟩
    · split <;> simp only [countOf_findAndIncrement, if_pos]
    · intro hfree
      rw [if_neg]
      · exact ⟨_, rfl, rfl⟩
      · intro hany
        obtain ⟨p, hp, hpc⟩ := List.any_eq_true.1 hany
        exact hfree p hp (by simpa using hpc)
    · rintro ⟨p, hp, hpc⟩
      rw [if_pos]
      · exact ⟨⟨_, rfl, rfl⟩, rfl⟩
      · exact List.any_eq_true.2 ⟨p, hp, by simpa using hpc⟩

/-- C8 amended, exercised: after calls for "SSE", "A", "SSE" on an empty collection the next
call for "SSE" returns 3, and the creation of `sseRequest` in `emptyStore` gets "SSE001". -/
theorem findAndIncrement_numbers_counted_creations_witness :
    (findAndIncrement (incrementAll [] ["SSE", "A", "SSE"]) "SSE").1 = ⟨"SSE", 3⟩ ∧
    ∃ pr, (createPeopleRequisition emptyStore 100 sseRequest hrbpUser).1 = .ok pr ∧
      pr.JobCode = "SSE001" :=
  ⟨findAndIncrement_numbers_counted_creations.2.1 [] "SSE" ["SSE", "A", "SSE"] (by decide),
    (findAndIncrement_numbers_counted_creations.2.2.1 emptyStore 100 sseRequest hrbpUser
      ⟨10, "Senior Software Engineer", false⟩ (by decide) (by decide) (by decide)).2.1
      (by decide)⟩

/-- C9 as stated fails: the distinct pairs ("A1", 1) and ("A", 1001) format to the same job
code "A1001"; in `collisionStore`, where "A1001" is stored, the creation for the job position
"A 1" generates that code again (and only the unique index stops it). -/
theorem jobCode_collision :
    jobCode "A1" 1 = jobCode "A" 1001 ∧ (("A1", 1) : String × Nat) ≠ ("A", 1001) ∧
    codePrefix "A 1" = "A1" ∧ countOf collisionStore.counters "A1" + 1 = 1 ∧
    (∃ p ∈ collisionStore.prs, p.JobCode = jobCode "A1" 1) ∧
    (createPeopleRequisition collisionStore 100 a1Request hrbpUser).1 =
      .error ⟨"E11000 duplicate key error: JobCode", 500⟩ := by
  decide

/-- C9, amended. Stored job codes never collide: a creation succeeds only with a code that
no stored requisition has, so every sequence of creations keeps the stored codes pairwise
distinct.  The format itself sends distinct (prefix, count) pairs to distinct codes when
both counts are below 1000, and for one prefix at all counts. -/
theorem stored_job_codes_distinct :
    (∀ (s s' : Db) (now : Nat) (prData : PrData) (u : User) (pr : PeopleRequisition),
      createPeopleRequisition s now prData u = (.ok pr, s') →
      ∀ p ∈ s.prs, p.JobCode ≠ pr.JobCode) ∧
    (∀ (s : Db) (reqs : List CreateRequest),
      (s.prs.map (fun p => p.JobCode)).Nodup →
      ((runCreations s reqs).prs.map (fun p => p.JobCode)).Nodup) ∧
    (∀ (p1 p2 : String) (c1 c2 : Nat), c1 < 1000 → c2 < 1000 →
      jobCode p1 c1 = jobCode p2 c2 → p1 = p2 ∧ c1 = c2) ∧
    (∀ (P : String) (c1 c2 : Nat), jobCode P c1 = jobCode P c2 → c1 = c2) := by
  refine ⟨fun s s' now prData u pr h => ?_, fun s reqs h => ?_,
    jobCode_injective_below_1000, jobCode_injective_same_prefix⟩
  · obtain ⟨jp, -, -, -, hnew, -, -⟩ := create_ok s s' now prData u pr h
    exact hnew
  · exact runCreations_keeps_codes_distinct reqs s h

/-- C9 amended, exercised: two creations for different positions from `emptyStore`, and the
codes of the pairs ("SSE", 1) and ("SSE", 2). -/
theorem stored_job_codes_distinct_witness :
    ((runCreations emptyStore [⟨100, sseRequest, hrbpUser⟩, ⟨200, a1Request, hrbpUser⟩]).prs.map
      (fun p => p.JobCode)).Nodup ∧
    (jobCode "SSE" 1 = jobCode "SSE" 2 → 1 = 2) :=
  ⟨stored_job_codes_distinct.2.1 emptyStore
      [⟨100, sseRequest, hrbpUser⟩, ⟨200, a1Request, hrbpUser⟩] (by decide),
    stored_job_codes_distinct.2.2.2 "SSE" 1 2⟩

/-! ## Approval -/

theorem approve_missing (s : Db) (now : Nat) (prId : ObjectId) (u : User)
    (h : findById s prId = none) :
    approvePeopleRequisition s now prId u =
      (.error ⟨"People Requisition not found.", 404⟩, s) := by
  simp [approvePeopleRequisition, findByIdAndPopulateDetails, h]

theorem approve_deleted (s : Db) (now : Nat) (prId : ObjectId) (u : User)
    (pr : PeopleRequisition) (h : findById s prId = some pr) (hd : pr.IsDelete = true) :
    approvePeopleRequisition s now prId u =
      (.error ⟨"This People Requisition has been deleted and cannot be approved.", 409⟩,
        s) := by
  simp [approvePeopleRequisition, findByIdAndPopulateDetails, h, populateDetails, hd]

theorem approve_already (s : Db) (now : Nat) (prId : ObjectId) (u : User)
    (pr : PeopleRequisition) (h : findById s prId = some pr) (hd : pr.IsDelete = false)
    (ha : pr.IsApprovedByHRBP = true) :
    approvePeopleRequisition s now prId u =
      (.error ⟨"This People Requisition has already been approved.", 409⟩, s) := by
  simp [approvePeopleRequisition, findByIdAndPopulateDetails, h, populateDetails, hd, ha]

theorem approve_fresh (s : Db) (now : Nat) (prId : ObjectId) (u : User)
    (pr : PeopleRequisition) (h : findById s prId = some pr) (hd : pr.IsDelete = false)
    (ha : pr.IsApprovedByHRBP = false) :
    findById (approvePeopleRequisition s now prId u).2 prId = some (withApproval pr u now) ∧
    (refsResolve s pr = true →
      (approvePeopleRequisition s now prId u).1 = .ok (withApproval pr u now)) := by
  have hid0 : pr.id = prId := findById_id h
  have hid : (withApproval pr u now).id = prId := hid0
  have hsave := findById_save (q := withApproval pr u now) h hid
  simp only [approvePeopleRequisition, findByIdAndPopulateDetails, h, Option.map_some',
    populateDetails, hd, ha, Bool.false_eq_true, if_false]
  constructor
  · split <;> exact hsave
  · intro hrefs
    simp only [refsResolve, Bool.and_eq_true, Option.isSome_iff_exists] at hrefs
    obtain ⟨⟨⟨⟨u1, h1⟩, -⟩, ⟨j, h3⟩⟩, ⟨d, h4⟩⟩ := hrefs
    simp only [h1, h3, h4]

/-- C10. `approvePeopleRequisition` fails with 404 if the requisition does not exist, with
409 if it is soft-deleted and with 409 if it is already approved, the database being
unchanged in each case; otherwise it stores the requisition with `IsApprovedByHRBP` true and,
the references of the requisition resolving, succeeds.  A further approval of a requisition
that was approved, by anyone at any time, fails with 409. -/
theorem approvePeopleRequisition_contract (s : Db) (now : Nat) (prId : ObjectId)
    (approvingUser : User) :
    (findById s prId = none →
      approvePeopleRequisition s now prId approvingUser =
        (.error ⟨"People Requisition not found.", 404⟩, s)) ∧
    (∀ pr, findById s prId = some pr → pr.IsDelete = true →
      approvePeopleRequisition s now prId approvingUser =
        (.error ⟨"This People Requisition has been deleted and cannot be approved.", 409⟩,
          s)) ∧
    (∀ pr, findById s prId = some pr → pr.IsDelete = false → pr.IsApprovedByHRBP = true →
      approvePeopleRequisition s now prId approvingUser =
        (.error ⟨"This People Requisition has already been approved.", 409⟩, s)) ∧
    (∀ pr, findById s prId = some pr → pr.IsDelete = false → pr.IsApprovedByHRBP = false →
      findById (approvePeopleRequisition s now prId approvingUser).2 prId =
        some (withApproval pr approvingUser now) ∧
      (withApproval pr approvingUser now).IsApprovedByHRBP = true ∧
      (refsResolve s pr = true →
        (approvePeopleRequisition s now prId approvingUser).1 =
          .ok (withApproval pr approvingUser now)) ∧
      ∀ (later : Nat) (secondUser : User),
        failsWith (approvePeopleRequisition
          (approvePeopleRequisition s now prId approvingUser).2 later prId secondUser) 409 ∧
        (approvePeopleRequisition
          (approvePeopleRequisition s now prId approvingUser).2 later prId secondUser).2 =
          (approvePeopleRequisition s now prId approvingUser).2) := by
  refine ⟨approve_missing s now prId approvingUser,
    fun pr h hd => approve_deleted s now prId approvingUser pr h hd,
    fun pr h hd ha => approve_already s now prId approvingUser pr h hd ha,
    fun pr h hd ha => ?_⟩
  obtain ⟨h1, h2⟩ := approve_fresh s now prId approvingUser pr h hd ha
  refine ⟨h1, rfl, h2, fun later secondUser => ?_⟩
  rw [approve_already _ later prId secondUser (withApproval pr approvingUser now) h1 hd rfl]
  exact ⟨⟨_, rfl, rfl⟩, rfl⟩

/-- C10, exercised: the approval of the requisition of `storeOne` succeeds and gives
`storeApproved`; approving again fails with 409; approving the deleted requisition fails with
409 and a missing one with 404. -/
theorem approvePeopleRequisition_contract_witness :
    approvePeopleRequisition storeOne 150 1 hrbpUser =
      (.ok (withApproval openPR hrbpUser 150), storeApproved) ∧
    failsWith (approvePeopleRequisition
      (approvePeopleRequisition storeOne 150 1 hrbpUser).2 160 1 hrbpUser) 409 ∧
    approvePeopleRequisition storeDeleted 150 1 hrbpUser =
      (.error ⟨"This People Requisition has been deleted and cannot be approved.", 409⟩,
        storeDeleted) ∧
    approvePeopleRequisition storeOne 150 7 hrbpUser =
      (.error ⟨"People Requisition not found.", 404⟩, storeOne) :=
  ⟨by decide,
    (((approvePeopleRequisition_contract storeOne 150 1 hrbpUser).2.2.2 openPR (by decide)
      (by decide) (by decide)).2.2.2 160 hrbpUser).1,
    (approvePeopleRequisition_contract storeDeleted 150 1 hrbpUser).2.1 _ (by rfl) (by decide),
    (approvePeopleRequisition_contract storeOne 150 7 hrbpUser).1 (by decide)⟩

/-! ## Field-level edit -/

theorem update_missing (s : Db) (now : Nat) (prId : ObjectId) (d : UpdateData) (u : User)
    (h : findById s prId = none) :
    updatePeopleRequisition s now prId d u =
      (.error ⟨"People Requisition not found.", 404⟩, s) := by
  simp [updatePeopleRequisition, h]

theorem update_deleted (s : Db) (now : Nat) (prId : ObjectId) (d : UpdateData) (u : User)
    (pr : PeopleRequisition) (h : findById s prId = some pr) (hd : pr.IsDelete = true) :
    updatePeopleRequisition s now prId d u =
      (.error ⟨"This People Requisition has been deleted and cannot be edited.", 409⟩,
        s) := by
  simp [updatePeopleRequisition, h, hd]

theorem update_unassigned (s : Db) (now : Nat) (prId : ObjectId) (d : UpdateData) (u : User)
    (pr : PeopleRequisition) (h : findById s prId = some pr) (hd : pr.IsDelete = false)
    (h1 : pr.HRBPId ≠ u.id) (h2 : pr.RecruiterId ≠ u.id) :
    updatePeopleRequisition s now prId d u =
      (.error ⟨"You do not have permission to edit this People Requisition.", 403⟩, s) := by
  simp [updatePeopleRequisition, h, hd, h1, h2]

theorem update_locked (s : Db) (now : Nat) (prId : ObjectId) (d : UpdateData) (u : User)
    (pr : PeopleRequisition) (h : findById s prId = some pr) (hd : pr.IsDelete = false)
    (ha : pr.HRBPId = u.id ∨ pr.RecruiterId = u.id)
    (h1 : pr.Status ≠ "open") (h2 : pr.Status ≠ "onhold") :
    updatePeopleRequisition s now prId d u =
      (.error ⟨"Cannot edit details of a requisition with status \"" ++ pr.Status ++
        "\".", 409⟩, s) := by
  have hassigned : (!(pr.HRBPId == u.id) && !(pr.RecruiterId == u.id)) = false := by
    rcases ha with h | h <;> simp [h]
  simp [updatePeopleRequisition, h, hd, hassigned, h1, h2]

/-- The body of `updatePeopleRequisition` once the four preconditions hold. -/
theorem update_editable (s : Db) (now : Nat) (prId : ObjectId) (d : UpdateData) (u : User)
    (pr : PeopleRequisition) (h : findById s prId = some pr) (hd : pr.IsDelete = false)
    (ha : pr.HRBPId = u.id ∨ pr.RecruiterId = u.id)
    (hst : pr.Status = "open" ∨ pr.Status = "onhold") :
    updatePeopleRequisition s now prId d u =
      match (d.map (fun e => e.1)).find? (fun key => !(allowedFieldsFor u.Role).contains key)
        with
      | some key =>
        (.error ⟨"You do not have permission to edit the " ++ key ++ " field.", 403⟩, s)
      | none =>
        match checkRecruiterId s d with
        | .error e => (.error e, s)
        | .ok _ =>
          match checkDepartmentId s d with
          | .error e => (.error e, s)
          | .ok _ =>
            match checkNatureOfEmploymentId s d with
            | .error e => (.error e, s)
            | .ok _ => applyUpdate s now prId pr d u := by
  have hassigned : (!(pr.HRBPId == u.id) && !(pr.RecruiterId == u.id)) = false := by
    rcases ha with h | h <;> simp [h]
  have hstatus : (!(["open", "onhold"].contains pr.Status)) = false := by
    rcases hst with h | h <;> simp [h]
  simp only [updatePeopleRequisition, h, hd, hassigned, hstatus, Bool.false_eq_true, if_false]

theorem update_forbidden_key (s : Db) (now : Nat) (prId : ObjectId) (d : UpdateData)
    (u : User) (pr : PeopleRequisition) (h : findById s prId = some pr)
    (hd : pr.IsDelete = false) (ha : pr.HRBPId = u.id ∨ pr.RecruiterId = u.id)
    (hst : pr.Status = "open" ∨ pr.Status = "onhold")
    (key : String) (hkey : key ∈ d.map (fun e => e.1))
    (hnot : key ∉ allowedFieldsFor u.Role) :
    ∃ k, k ∈ d.map (fun e => e.1) ∧ k ∉ allowedFieldsFor u.Role ∧
      updatePeopleRequisition s now prId d u =
        (.error ⟨"You do not have permission to edit the " ++ k ++ " field.", 403⟩, s) := by
  rw [update_editable s now prId d u pr h hd ha hst]
  cases hf : (d.map (fun e => e.1)).find?
      (fun key => !(allowedFieldsFor u.Role).contains key) with
  | none =>
    have := List.find?_eq_none.1 hf key hkey
    simp [hnot] at this
  | some k =>
    have hk1 := List.mem_of_find?_eq_some hf
    have hk2 := List.find?_some hf
    refine ⟨k, hk1, ?_, rfl⟩
    simpa using hk2

/-- C13. For a non-deleted requisition with status open or onhold and a requester assigned to
it, a payload that contains a key outside the requester role's allowed set (HRBP: the six
editable fields; any other role: the same without `RecruiterId`) makes
`updatePeopleRequisition` fail with 403 and leave the database unchanged, whatever the
submitted values and the other keys are. -/
theorem updatePeopleRequisition_forbidden_field (s : Db) (now : Nat) (prId : ObjectId)
    (updateData : UpdateData) (requester : User) (pr : PeopleRequisition)
    (hfind : findById s prId = some pr) (hlive : pr.IsDelete = false)
    (hstatus : pr.Status = "open" ∨ pr.Status = "onhold")
    (hassigned : pr.HRBPId = requester.id ∨ pr.RecruiterId = requester.id)
    (key : String) (hkey : key ∈ updateData.map (fun e => e.1))
    (hnot : key ∉ allowedFieldsFor requester.Role) :
    failsWith (updatePeopleRequisition s now prId updateData requester) 403 ∧
    (updatePeopleRequisition s now prId updateData requester).2 = s ∧
    allowedFieldsFor "HRBP" = ["PRFNumber", "PRFLink", "RecruiterId", "DepartmentId",
      "NatureOfEmploymentId", "JobDescription"] ∧
    (∀ role, role ≠ "HRBP" → allowedFieldsFor role = ["PRFNumber", "PRFLink", "DepartmentId",
      "NatureOfEmploymentId", "JobDescription"]) := by
  obtain ⟨k, -, -, hk⟩ := update_forbidden_key s now prId updateData requester pr hfind hlive
    hassigned hstatus key hkey hnot
  refine ⟨?_, ?_, by decide, ?_⟩
  · rw [hk]; exact ⟨_, rfl, rfl⟩
  · rw [hk]
  · intro role hrole
    simp [allowedFieldsFor, hrole, RECRUITER_EDITABLE_FIELDS]

/-- C13, exercised: the HRBP of `storeOne` submits an allowed field together with `Status`
set to its current value, and the assigned recruiter resubmits the current `RecruiterId`. -/
theorem updatePeopleRequisition_forbidden_field_witness :
    (failsWith (updatePeopleRequisition storeOne 200 1
        [("PRFNumber", .str "P-1"), ("Status", .str "open")] hrbpUser) 403 ∧
      (updatePeopleRequisition storeOne 200 1
        [("PRFNumber", .str "P-1"), ("Status", .str "open")] hrbpUser).2 = storeOne) ∧
    failsWith (updatePeopleRequisition storeOne 200 1 [("RecruiterId", .oid 2)]
      recruiterUser) 403 :=
  ⟨⟨(updatePeopleRequisition_forbidden_field storeOne 200 1
        [("PRFNumber", .str "P-1"), ("Status", .str "open")] hrbpUser openPR (by decide)
        (by decide) (Or.inl (by decide)) (Or.inl (by decide)) "Status" (by decide)
        (by decide)).1,
      (updatePeopleRequisition_forbidden_field storeOne 200 1
        [("PRFNumber", .str "P-1"), ("Status", .str "open")] hrbpUser openPR (by decide)
        (by decide) (Or.inl (by decide)) (Or.inl (by decide)) "Status" (by decide)
        (by decide)).2.1⟩,
    (updatePeopleRequisition_forbidden_field storeOne 200 1 [("RecruiterId", .oid 2)]
      recruiterUser openPR (by decide) (by decide) (Or.inl (by decide)) (Or.inr (by decide))
      "RecruiterId" (by decide) (by decide)).1⟩

/-- C14. `updatePeopleRequisition` checks its preconditions in this order and fails at the
first one violated, the database unchanged: requisition missing, 404; soft-deleted, 409;
requester neither its HRBP nor its recruiter, 403 (whatever the status and the payload);
status other than open and onhold, 409 (whatever the payload). -/
theorem updatePeopleRequisition_precondition_order (s : Db) (now : Nat) (prId : ObjectId)
    (updateData : UpdateData) (requester : User) :
    (findById s prId = none →
      updatePeopleRequisition s now prId updateData requester =
        (.error ⟨"People Requisition not found.", 404⟩, s)) ∧
    (∀ pr, findById s prId = some pr → pr.IsDelete = true →
      updatePeopleRequisition s now prId updateData requester =
        (.error ⟨"This People Requisition has been deleted and cannot be edited.", 409⟩,
          s)) ∧
    (∀ pr, findById s prId = some pr → pr.IsDelete = false →
      pr.HRBPId ≠ requester.id → pr.RecruiterId ≠ requester.id →
      updatePeopleRequisition s now prId updateData requester =
        (.error ⟨"You do not have permission to edit this People Requisition.", 403⟩, s)) ∧
    (∀ pr, findById s prId = some pr → pr.IsDelete = false →
      (pr.HRBPId = requester.id ∨ pr.RecruiterId = requester.id) →
      pr.Status ≠ "open" → pr.Status ≠ "onhold" →
      failsWith (updatePeopleRequisition s now prId updateData requester) 409 ∧
      (updatePeopleRequisition s now prId updateData requester).2 = s) := by
  refine ⟨update_missing s now prId updateData requester,
    fun pr h hd => update_deleted s now prId updateData requester pr h hd,
    fun pr h hd h1 h2 => update_unassigned s now prId updateData requester pr h hd h1 h2,
    fun pr h hd ha h1 h2 => ?_⟩
  rw [update_locked s now prId updateData requester pr h hd ha h1 h2]
  exact ⟨⟨_, rfl, rfl⟩, rfl⟩

/-- C14, exercised: an unassigned recruiter is refused with 403 on the open requisition, the
deleted requisition gives 409 to its own HRBP, a missing one 404, and the assigned recruiter
gets 409 on the inprogress requisition. -/
theorem updatePeopleRequisition_precondition_order_witness :
    updatePeopleRequisition storeOne 200 1 [("PRFNumber", .str "P-1")] otherRecruiter =
      (.error ⟨"You do not have permission to edit this People Requisition.", 403⟩,
        storeOne) ∧
    updatePeopleRequisition storeDeleted 200 1 [("PRFNumber", .str "P-1")] hrbpUser =
      (.error ⟨"This People Requisition has been deleted and cannot be edited.", 409⟩,
        storeDeleted) ∧
    updatePeopleRequisition storeOne 200 9 [] hrbpUser =
      (.error ⟨"People Requisition not found.", 404⟩, storeOne) ∧
    failsWith (updatePeopleRequisition storeInProgress 200 1 [("PRFNumber", .str "P-1")]
      recruiterUser) 409 :=
  ⟨(updatePeopleRequisition_precondition_order storeOne 200 1 [("PRFNumber", .str "P-1")]
      otherRecruiter).2.2.1 openPR (by decide) (by decide) (by decide) (by decide),
    (updatePeopleRequisition_precondition_order storeDeleted 200 1
      [("PRFNumber", .str "P-1")] hrbpUser).2.1 _ (by rfl) (by decide),
    (updatePeopleRequisition_precondition_order storeOne 200 9 [] hrbpUser).1 (by decide),
    ((updatePeopleRequisition_precondition_order storeInProgress 200 1
      [("PRFNumber", .str "P-1")] recruiterUser).2.2.2 _ (by rfl) (by decide)
      (Or.inr (by decide)) (by decide) (by decide)).1⟩

theorem checkRecruiterId_invalid (s : Db) (d : UpdateData) (id : ObjectId)
    (hget : getField d "RecruiterId" = some (.oid id))
    (hinv : missingOrDeleted (findUserById s id) (fun r => r.IsDelete) = true ∨
      ∃ r, findUserById s id = some r ∧ r.Role ≠ "Recruiter") :
    checkRecruiterId s d = .error ⟨"The provided Recruiter ID is invalid.", 400⟩ := by
  simp only [checkRecruiterId, hget, Value.truthy, if_true, castToObjectId]
  cases hu : findUserById s id with
  | none => rfl
  | some r =>
    rcases hinv with h | ⟨r1, h1, h2⟩
    · simp [missingOrDeleted, hu] at h
      simp [h]
    · rw [hu] at h1
      cases h1
      simp [h2]

theorem checkDepartmentId_invalid (s : Db) (d : UpdateData) (id : ObjectId)
    (hget : getField d "DepartmentId" = some (.oid id))
    (hinv : missingOrDeleted (findDepartmentById s id) (fun r => r.IsDelete) = true) :
    checkDepartmentId s d = .error ⟨"The provided Department ID is invalid.", 400⟩ := by
  simp only [checkDepartmentId, hget, Value.truthy, if_true, castToObjectId]
  cases hu : findDepartmentById s id with
  | none => rfl
  | some r =>
    simp [missingOrDeleted, hu] at hinv
    simp [hinv]

theorem checkNatureOfEmploymentId_invalid (s : Db) (d : UpdateData) (id : ObjectId)
    (hget : getField d "NatureOfEmploymentId" = some (.oid id))
    (hinv : missingOrDeleted (findNatureOfEmploymentById s id) (fun r => r.IsDelete) = true) :
    checkNatureOfEmploymentId s d =
      .error ⟨"The provided Nature of Employment ID is invalid.", 400⟩ := by
  simp only [checkNatureOfEmploymentId, hget, Value.truthy, if_true, castToObjectId]
  cases hu : findNatureOfEmploymentById s id with
  | none => rfl
  | some r =>
    simp [missingOrDeleted, hu] at hinv
    simp [hinv]

theorem find_disallowed_none (d : UpdateData) (allowed : List String)
    (hkeys : ∀ key ∈ d.map (fun e => e.1), key ∈ allowed) :
    (d.map (fun e => e.1)).find? (fun key => !allowed.contains key) = none := by
  rw [List.find?_eq_none]
  intro k hk
  simpa using hkeys k hk

/-- C16 as stated fails: on the requisition of `storeOne` the assigned HRBP submits the
interviewer 4 as recruiter, and then the deleted department 21; both updates fail the
reference validation with status code 400, but with different messages. -/
theorem update_validation_messages_differ :
    (updatePeopleRequisition storeOne 200 1 [("RecruiterId", .oid 4)] hrbpUser).1 =
      .error ⟨"The provided Recruiter ID is invalid.", 400⟩ ∧
    (updatePeopleRequisition storeOne 200 1 [("DepartmentId", .oid 21)] hrbpUser).1 =
      .error ⟨"The provided Department ID is invalid.", 400⟩ ∧
    (updatePeopleRequisition storeOne 200 1 [("RecruiterId", .oid 4)] hrbpUser).1 ≠
      (updatePeopleRequisition storeOne 200 1 [("DepartmentId", .oid 21)] hrbpUser).1 := by
  decide

/-- C16, amended. For an authorized requester, an editable requisition and a payload of
allowed keys, a failure of the reference validation has status code 400 and a message that
names the kind of the first invalid reference, in the order recruiter, department, nature of
employment, and nothing more: the message is the same whether that id is unknown,
soft-deleted or, for a recruiter, the id of a user with another role.  The database is
unchanged. -/
theorem updatePeopleRequisition_validation_errors (s : Db) (now : Nat) (prId : ObjectId)
    (updateData : UpdateData) (requester : User) (pr : PeopleRequisition)
    (hfind : findById s prId = some pr) (hlive : pr.IsDelete = false)
    (hassigned : pr.HRBPId = requester.id ∨ pr.RecruiterId = requester.id)
    (hstatus : pr.Status = "open" ∨ pr.Status = "onhold")
    (hkeys : ∀ key ∈ updateData.map (fun e => e.1), key ∈ allowedFieldsFor requester.Role) :
    (∀ id, getField updateData "RecruiterId" = some (.oid id) →
      (missingOrDeleted (findUserById s id) (fun r => r.IsDelete) = true ∨
        ∃ r, findUserById s id = some r ∧ r.Role ≠ "Recruiter") →
      updatePeopleRequisition s now prId updateData requester =
        (.error ⟨"The provided Recruiter ID is invalid.", 400⟩, s)) ∧
    (∀ id, checkRecruiterId s updateData = .ok () →
      getField updateData "DepartmentId" = some (.oid id) →
      missingOrDeleted (findDepartmentById s id) (fun r => r.IsDelete) = true →
      updatePeopleRequisition s now prId updateData requester =
        (.error ⟨"The provided Department ID is invalid.", 400⟩, s)) ∧
    (∀ id, checkRecruiterId s updateData = .ok () →
      checkDepartmentId s updateData = .ok () →
      getField updateData "NatureOfEmploymentId" = some (.oid id) →
      missingOrDeleted (findNatureOfEmploymentById s id) (fun r => r.IsDelete) = true →
      updatePeopleRequisition s now prId updateData requester =
        (.error ⟨"The provided Nature of Employment ID is invalid.", 400⟩, s)) := by
  have hbody := update_editable s now prId updateData requester pr hfind hlive hassigned
    hstatus
  rw [find_disallowed_none updateData _ hkeys] at hbody
  refine ⟨fun id hget hinv => ?_, fun id hrec hget hinv => ?_,
    fun id hrec hdep hget hinv => ?_⟩
  · rw [hbody, checkRecruiterId_invalid s updateData id hget hinv]
  · rw [hbody, hrec, checkDepartmentId_invalid s updateData id hget hinv]
  · rw [hbody, hrec, hdep, checkNatureOfEmploymentId_invalid s updateData id hget hinv]

/-- C16 amended, exercised: an unknown recruiter id and the id of a user who is not a
recruiter get the same answer. -/
theorem updatePeopleRequisition_validation_errors_witness :
    updatePeopleRequisition storeOne 200 1 [("RecruiterId", .oid 99)] hrbpUser =
      (.error ⟨"The provided Recruiter ID is invalid.", 400⟩, storeOne) ∧
    updatePeopleRequisition storeOne 200 1 [("RecruiterId", .oid 4)] hrbpUser =
      (.error ⟨"The provided Recruiter ID is invalid.", 400⟩, storeOne) :=
  ⟨(updatePeopleRequisition_validation_errors storeOne 200 1 [("RecruiterId", .oid 99)]
      hrbpUser openPR (by decide) (by decide) (Or.inl (by decide)) (Or.inl (by decide))
      (by decide)).1 99 (by decide) (Or.inl (by decide)),
    (updatePeopleRequisition_validation_errors storeOne 200 1 [("RecruiterId", .oid 4)]
      hrbpUser openPR (by decide) (by decide) (Or.inl (by decide)) (Or.inl (by decide))
      (by decide)).1 4 (by decide) (Or.inr ⟨panelUser, by decide, by decide⟩)⟩

/-! ## Soft deletion -/

theorem find_map_keep (l : List PeopleRequisition) (id : ObjectId) (q : PeopleRequisition)
    (hq : q.id ≠ id) :
    (l.map (fun p => if p.id = q.id then q else p)).find? (fun p => p.id == id) =
      l.find? (fun p => p.id == id) := by
  induction l with
  | nil => rfl
  | cons a t ih =>
    rw [List.map_cons, List.find?_cons, List.find?_cons, ih]
    by_cases ha : a.id = q.id
    · have h1 : (a.id == id) = false := by
        rw [ha]; simpa using hq
      have h2 : (q.id == id) = false := by simpa using hq
      simp [ha, h2]
    · simp [ha]

theorem findById_save_other {s : Db} {id : ObjectId} {q : PeopleRequisition}
    (hq : q.id ≠ id) : findById (save s q) id = findById s id := by
  unfold findById save
  exact find_map_keep s.prs id q hq

/-- C18. `deletePeopleRequisition` fails with 404 if the requisition does not exist, with
409 if it is already soft-deleted and with 409 if its status is not open, the database
unchanged; otherwise it succeeds and stores the requisition with `IsDelete` true, `DeletedBy`
the deleting user's code and `DeletedOn` the time of the call, every other field as before.
The requisition stays in the store, and no other requisition, master entity, user, counter,
notification or file changes. -/
theorem deletePeopleRequisition_contract (s : Db) (now : Nat) (prId : ObjectId)
    (deletingUser : User) :
    (findById s prId = none →
      deletePeopleRequisition s now prId deletingUser =
        (.error ⟨"People Requisition not found.", 404⟩, s)) ∧
    (∀ pr, findById s prId = some pr → pr.IsDelete = true →
      deletePeopleRequisition s now prId deletingUser =
        (.error ⟨"This People Requisition has already been deleted.", 409⟩, s)) ∧
    (∀ pr, findById s prId = some pr → pr.IsDelete = false → pr.Status ≠ "open" →
      failsWith (deletePeopleRequisition s now prId deletingUser) 409 ∧
      (deletePeopleRequisition s now prId deletingUser).2 = s) ∧
    (∀ pr, findById s prId = some pr → pr.IsDelete = false → pr.Status = "open" →
      (deletePeopleRequisition s now prId deletingUser).1 = .ok () ∧
      findById (deletePeopleRequisition s now prId deletingUser).2 prId =
        some { pr with
          IsDelete := true
          DeletedBy := some deletingUser.RHubUserId
          DeletedOn := some now } ∧
      (∀ other, other ≠ prId →
        findById (deletePeopleRequisition s now prId deletingUser).2 other =
          findById s other) ∧
      (deletePeopleRequisition s now prId deletingUser).2.prs.length = s.prs.length ∧
      (deletePeopleRequisition s now prId deletingUser).2 =
        { s with prs := (deletePeopleRequisition s now prId deletingUser).2.prs }) := by
  refine ⟨fun h => ?_, fun pr h hd => ?_, fun pr h hd hst => ?_, fun pr h hd hst => ?_⟩
  · simp [deletePeopleRequisition, h]
  · simp [deletePeopleRequisition, h, hd]
  · have : deletePeopleRequisition s now prId deletingUser =
        (.error ⟨"Cannot delete a requisition with status " ++ pr.Status ++
          ". Only open requisitions can be deleted.", 409⟩, s) := by
      simp [deletePeopleRequisition, h, hd, hst]
    rw [this]
    exact ⟨⟨_, rfl, rfl⟩, rfl⟩
  · have hid0 : pr.id = prId := findById_id h
    have hid : (withDeletion pr deletingUser now).id = prId := hid0
    have : deletePeopleRequisition s now prId deletingUser =
        (.ok (), save s (withDeletion pr deletingUser now)) := by
      simp [deletePeopleRequisition, h, hd, hst]
    rw [this]
    refine ⟨rfl, findById_save h hid, fun other ho => ?_, ?_, rfl⟩
    · exact findById_save_other (by rw [hid]; exact fun e => ho e.symm)
    · simp [save]

/-- C18, exercised: the open requisition of `storeOne` is deleted by the HRBP; deleting it
again gives 409, and the inprogress requisition cannot be deleted. -/
theorem deletePeopleRequisition_contract_witness :
    (deletePeopleRequisition storeOne 200 1 hrbpUser).1 = .ok () ∧
    deletePeopleRequisition storeDeleted 200 1 hrbpUser =
      (.error ⟨"This People Requisition has already been deleted.", 409⟩, storeDeleted) ∧
    failsWith (deletePeopleRequisition storeInProgress 200 1 hrbpUser) 409 :=
  ⟨((deletePeopleRequisition_contract storeOne 200 1 hrbpUser).2.2.2 openPR (by decide)
      (by decide) (by decide)).1,
    (deletePeopleRequisition_contract storeDeleted 200 1 hrbpUser).2.1 _ (by rfl) (by decide),
    ((deletePeopleRequisition_contract storeInProgress 200 1 hrbpUser).2.2.1 _ (by rfl)
      (by decide) (by decide)).1⟩

/-! ## Authorized retrieval -/

theorem findUserById_id {s : Db} {id : ObjectId} {u : User}
    (h : findUserById s id = some u) : u.id = id := by
  have := List.find?_some h
  simpa using this

/-- The body of `getPeopleRequisitionById` for a stored, non-deleted requisition whose HRBP
and recruiter exist. -/
theorem getById_live (s : Db) (prId : ObjectId) (u : User) (pr : PeopleRequisition)
    (h : findById s prId = some pr) (hd : pr.IsDelete = false)
    (hh : (findUserById s pr.HRBPId).isSome = true)
    (hr : (findUserById s pr.RecruiterId).isSome = true) :
    getPeopleRequisitionById s prId u =
      if u.Role = "Recruiter" ∧ pr.IsApprovedByHRBP = false then
        (.error ⟨"People Requisition not found.", 404⟩, s)
      else if pr.HRBPId ≠ u.id ∧ pr.RecruiterId ≠ u.id then
        (.error ⟨"You do not have permission to view this People Requisition.", 403⟩, s)
      else (.ok (populateDetails s pr), s) := by
  obtain ⟨hrbp, hhrbp⟩ := Option.isSome_iff_exists.1 hh
  obtain ⟨rec, hrec⟩ := Option.isSome_iff_exists.1 hr
  have e1 := findUserById_id hhrbp
  have e2 := findUserById_id hrec
  simp only [getPeopleRequisitionById, findByIdAndPopulateDetails, h, Option.map_some',
    populateDetails, hd, hhrbp, hrec, e1, e2, Bool.false_eq_true, if_false]
  by_cases c1 : u.Role = "Recruiter" <;> by_cases c2 : pr.IsApprovedByHRBP = true <;>
    by_cases c3 : pr.HRBPId = u.id <;> by_cases c4 : pr.RecruiterId = u.id <;>
    simp [c1, c2, c3, c4]

/-- C19. `getPeopleRequisitionById` gives 404 for a missing or soft-deleted requisition.
For a stored, non-deleted requisition whose HRBP and recruiter exist: a requester with role
Recruiter asking for an unapproved requisition gets 404, assigned or not; any other
requester who is neither its HRBP nor its recruiter gets 403; and the requisition is
returned exactly when the requester is its HRBP or its recruiter and has another role than
Recruiter or the requisition is approved.  The call never changes the database. -/
theorem getPeopleRequisitionById_contract (s : Db) (prId : ObjectId) (requester : User) :
    (getPeopleRequisitionById s prId requester).2 = s ∧
    ((findById s prId = none ∨ ∃ pr, findById s prId = some pr ∧ pr.IsDelete = true) →
      (getPeopleRequisitionById s prId requester).1 =
        .error ⟨"People Requisition not found.", 404⟩) ∧
    (∀ pr, findById s prId = some pr → pr.IsDelete = false →
      (findUserById s pr.HRBPId).isSome = true →
      (findUserById s pr.RecruiterId).isSome = true →
      (requester.Role = "Recruiter" ∧ pr.IsApprovedByHRBP = false →
        (getPeopleRequisitionById s prId requester).1 =
          .error ⟨"People Requisition not found.", 404⟩) ∧
      (¬ (requester.Role = "Recruiter" ∧ pr.IsApprovedByHRBP = false) →
        pr.HRBPId ≠ requester.id ∧ pr.RecruiterId ≠ requester.id →
        (getPeopleRequisitionById s prId requester).1 =
          .error ⟨"You do not have permission to view this People Requisition.", 403⟩) ∧
      ((∃ r, (getPeopleRequisitionById s prId requester).1 = .ok r) ↔
        (pr.HRBPId = requester.id ∨ pr.RecruiterId = requester.id) ∧
        (requester.Role ≠ "Recruiter" ∨ pr.IsApprovedByHRBP = true)) ∧
      (∀ r, (getPeopleRequisitionById s prId requester).1 = .ok r → r.pr = pr)) := by
  refine ⟨?_, ?_, fun pr h hd hh hr => ?_⟩
  · unfold getPeopleRequisitionById
    split
    · rfl
    · split
      · rfl
      · split
        · simp only []
          split
          · rfl
          · split <;> rfl
        · rfl
  · rintro (h | ⟨pr, h, hd⟩)
    · simp [getPeopleRequisitionById, findByIdAndPopulateDetails, h]
    · simp [getPeopleRequisitionById, findByIdAndPopulateDetails, h, populateDetails, hd]
  · rw [getById_live s prId requester pr h hd hh hr]
    refine ⟨fun c => by rw [if_pos c], fun c1 c2 => by rw [if_neg c1, if_pos c2], ?_, ?_⟩
    · by_cases c1 : requester.Role = "Recruiter" ∧ pr.IsApprovedByHRBP = false
      · rw [if_pos c1]
        constructor
        · rintro ⟨r, hr⟩; simp at hr
        · rintro ⟨-, h2⟩
          rcases h2 with h2 | h2
          · exact absurd c1.1 h2
          · rw [c1.2] at h2; simp at h2
      · rw [if_neg c1]
        by_cases c2 : pr.HRBPId ≠ requester.id ∧ pr.RecruiterId ≠ requester.id
        · rw [if_pos c2]
          constructor
          · rintro ⟨r, hr⟩; simp at hr
          · rintro ⟨h1, -⟩
            rcases h1 with h1 | h1
            · exact absurd h1 c2.1
            · exact absurd h1 c2.2
        · rw [if_neg c2]
          constructor
          · intro _
            constructor
            · by_contra hcon
              exact c2 ⟨fun e => hcon (Or.inl e), fun e => hcon (Or.inr e)⟩
            · by_cases hrole : requester.Role = "Recruiter"
              · right
                cases ha : pr.IsApprovedByHRBP with
                | true => rfl
                | false => exact absurd ⟨hrole, ha⟩ c1
              · exact Or.inl hrole
          · intro _; exact ⟨_, rfl⟩
    · intro r hr
      split at hr
      · simp at hr
      · split at hr
        · simp at hr
        · simp only [Except.ok.injEq] at hr
          rw [← hr]; rfl

/-- C19, exercised on `storeOne` (unapproved) and `storeApproved`: the assigned recruiter and
an unassigned recruiter both get 404 before approval, the interviewer gets 403, the HRBP
gets the requisition, and after approval so does the assigned recruiter. -/
theorem getPeopleRequisitionById_contract_witness :
    (getPeopleRequisitionById storeOne 1 recruiterUser).1 =
      .error ⟨"People Requisition not found.", 404⟩ ∧
    (getPeopleRequisitionById storeOne 1 otherRecruiter).1 =
      .error ⟨"People Requisition not found.", 404⟩ ∧
    (getPeopleRequisitionById storeOne 1 panelUser).1 =
      .error ⟨"You do not have permission to view this People Requisition.", 403⟩ ∧
    (∃ r, (getPeopleRequisitionById storeOne 1 hrbpUser).1 = .ok r) ∧
    (∃ r, (getPeopleRequisitionById storeApproved 1 recruiterUser).1 = .ok r) :=
  ⟨((getPeopleRequisitionById_contract storeOne 1 recruiterUser).2.2 openPR (by decide)
      (by decide) (by decide) (by decide)).1 ⟨by decide, by decide⟩,
    ((getPeopleRequisitionById_contract storeOne 1 otherRecruiter).2.2 openPR (by decide)
      (by decide) (by decide) (by decide)).1 ⟨by decide, by decide⟩,
    ((getPeopleRequisitionById_contract storeOne 1 panelUser).2.2 openPR (by decide)
      (by decide) (by decide) (by decide)).2.1 (by decide) ⟨by decide, by decide⟩,
    ((getPeopleRequisitionById_contract storeOne 1 hrbpUser).2.2 openPR (by decide)
      (by decide) (by decide) (by decide)).2.2.1.2 ⟨Or.inl (by decide), Or.inl (by decide)⟩,
    ((getPeopleRequisitionById_contract storeApproved 1 recruiterUser).2.2
      (withApproval openPR hrbpUser 150) (by decide) (by decide) (by decide)
      (by decide)).2.2.1.2 ⟨Or.inr (by decide), Or.inr (by decide)⟩⟩

theorem buildFilters_recruiter (q : QueryParams) (u : User) (h : u.Role = "Recruiter") :
    (buildFilters q u).IsDelete = false ∧ (buildFilters q u).RecruiterId = some u.id ∧
    (buildFilters q u).IsApprovedByHRBP = some true := by
  simp only [buildFilters, h, beq_self_eq_true, if_true]
  refine ⟨?_, ?_, ?_⟩ <;> (repeat' split) <;> rfl

theorem buildFilters_hrbp (q : QueryParams) (u : User) (h : u.Role = "HRBP") :
    (buildFilters q u).IsDelete = false ∧ (buildFilters q u).RecruiterId = none ∧
    (buildFilters q u).IsApprovedByHRBP = none := by
  have hne : (u.Role == "Recruiter") = false := by rw [h]; decide
  simp only [buildFilters, hne, Bool.false_eq_true, if_false]
  refine ⟨?_, ?_, ?_⟩ <;> (repeat' split) <;> rfl

theorem buildFilters_optional (q : QueryParams) (u : User) :
    (buildFilters q u).Status = q.status.filter (fun st => st != "") ∧
    (buildFilters q u).DepartmentId = q.departmentId.filter (fun v => v.truthy) ∧
    (buildFilters q u).JobCode =
      (q.search.filter (fun t => t != "")).map (fun t => t.trim) := by
  unfold buildFilters
  cases hs : q.status <;> cases hd : q.departmentId <;> cases ht : q.search <;>
    simp only [Option.filter, Option.map] <;>
    refine ⟨?_, ?_, ?_⟩ <;> (repeat' split) <;> simp_all

theorem findAll_ok (regex : String → Option (String → Bool))
    (le : String → Int → PeopleRequisition → PeopleRequisition → Bool)
    (s : Db) (f : Filters) (sortBy : String) (orderBy page limit : Int)
    (results : List PopulatedPR) (total : Nat)
    (h : findAllPeopleRequisition regex le s f sortBy orderBy page limit =
      .ok (results, total)) :
    ∃ department codeMatches,
      total = (s.prs.filter (matchesFilters f department codeMatches)).length ∧
      ∀ x ∈ results, x.pr ∈ s.prs.filter (matchesFilters f department codeMatches) := by
  unfold findAllPeopleRequisition at h
  simp only [] at h
  split at h
  · simp at h
  · rename_i department _
    split at h
    · simp at h
    · rename_i codeMatches _
      split at h
      · simp at h
      · simp only [Except.ok.injEq, Prod.mk.injEq] at h
        obtain ⟨h1, h2⟩ := h
        refine ⟨department, codeMatches, h2.symm, ?_⟩
        intro x hx
        rw [← h1] at hx
        obtain ⟨p, hp, hxp⟩ := List.mem_map.1 hx
        have hp1 := List.mem_of_mem_drop (List.mem_of_mem_take hp)
        rw [List.mem_mergeSort] at hp1
        rw [← hxp]
        exact hp1

theorem matchesFilters_scope (f : Filters) (department : Option ObjectId)
    (codeMatches : Option (String → Bool)) (p : PeopleRequisition) (id : ObjectId)
    (h1 : f.IsDelete = false) (h2 : f.RecruiterId = some id)
    (h3 : f.IsApprovedByHRBP = some true)
    (h : matchesFilters f department codeMatches p = true) :
    p.IsDelete = false ∧ p.RecruiterId = id ∧ p.IsApprovedByHRBP = true := by
  simp only [matchesFilters, h1, h2, h3, Bool.and_eq_true, beq_iff_eq] at h
  exact ⟨h.1.1.1.1.1, h.1.1.1.1.2, h.1.1.1.2⟩

/-- C20. `getAllPeopleRequisitions` fails with 403 for a requester whose role is neither
HRBP nor Recruiter.  For a Recruiter and every choice of query parameters the filter handed
to the repository has `IsDelete` false, `RecruiterId` the requester's id and
`IsApprovedByHRBP` true, so every requisition it matches, and every requisition returned, is
non-deleted, assigned to the requester and approved.  For an HRBP the filter has `IsDelete`
false and no recruiter or approval condition.  For both, the status, department and code
conditions are the non-empty query parameters, and total and data come from the stored
requisitions that satisfy the filter. -/
theorem getAllPeopleRequisitions_scope (regex : String → Option (String → Bool))
    (le : String → Int → PeopleRequisition → PeopleRequisition → Bool)
    (s : Db) (queryParams : QueryParams) (requester : User) :
    (requester.Role ≠ "Recruiter" → requester.Role ≠ "HRBP" →
      getAllPeopleRequisitions regex le s queryParams requester =
        (.error ⟨"You do not have permission to view this People Requisition.", 403⟩, s)) ∧
    (requester.Role = "Recruiter" →
      (buildFilters queryParams requester).IsDelete = false ∧
      (buildFilters queryParams requester).RecruiterId = some requester.id ∧
      (buildFilters queryParams requester).IsApprovedByHRBP = some true ∧
      (∀ department codeMatches p,
        matchesFilters (buildFilters queryParams requester) department codeMatches p = true →
        p.IsDelete = false ∧ p.RecruiterId = requester.id ∧ p.IsApprovedByHRBP = true) ∧
      (∀ res s', getAllPeopleRequisitions regex le s queryParams requester = (.ok res, s') →
        ∀ x ∈ res.data, x.pr ∈ s.prs ∧ x.pr.IsDelete = false ∧
          x.pr.RecruiterId = requester.id ∧ x.pr.IsApprovedByHRBP = true)) ∧
    (requester.Role = "HRBP" →
      (buildFilters queryParams requester).IsDelete = false ∧
      (buildFilters queryParams requester).RecruiterId = none ∧
      (buildFilters queryParams requester).IsApprovedByHRBP = none) ∧
    ((buildFilters queryParams requester).Status =
        queryParams.status.filter (fun st => st != "") ∧
      (buildFilters queryParams requester).DepartmentId =
        queryParams.departmentId.filter (fun v => v.truthy) ∧
      (buildFilters queryParams requester).JobCode =
        (queryParams.search.filter (fun t => t != "")).map (fun t => t.trim)) ∧
    (∀ res s', getAllPeopleRequisitions regex le s queryParams requester = (.ok res, s') →
      s' = s ∧
      ∃ department codeMatches,
        res.pagination.total = (s.prs.filter
          (matchesFilters (buildFilters queryParams requester) department
            codeMatches)).length ∧
        ∀ x ∈ res.data, x.pr ∈ s.prs.filter
          (matchesFilters (buildFilters queryParams requester) department codeMatches)) := by
  have hout : ∀ res s', getAllPeopleRequisitions regex le s queryParams requester =
      (.ok res, s') →
      s' = s ∧
      ∃ department codeMatches,
        res.pagination.total = (s.prs.filter
          (matchesFilters (buildFilters queryParams requester) department
            codeMatches)).length ∧
        ∀ x ∈ res.data, x.pr ∈ s.prs.filter
          (matchesFilters (buildFilters queryParams requester) department codeMatches) := by
    intro res s' h
    unfold getAllPeopleRequisitions at h
    simp only [] at h
    split at h
    · simp at h
    · split at h
      · simp at h
      · rename_i results total hfa
        simp only [Prod.mk.injEq, Except.ok.injEq] at h
        obtain ⟨h1, h2⟩ := h
        obtain ⟨department, codeMatches, ht, hx⟩ := findAll_ok regex le s _ _ _ _ _ _ _ hfa
        refine ⟨h2.symm, department, codeMatches, ?_, ?_⟩
        · rw [← h1]; exact ht
        · rw [← h1]; exact hx
  refine ⟨fun h1 h2 => ?_, fun hr => ?_, buildFilters_hrbp queryParams requester,
    buildFilters_optional queryParams requester, hout⟩
  · simp [getAllPeopleRequisitions, h1, h2]
  · obtain ⟨f1, f2, f3⟩ := buildFilters_recruiter queryParams requester hr
    refine ⟨f1, f2, f3, fun department codeMatches p hm =>
      matchesFilters_scope _ department codeMatches p requester.id f1 f2 f3 hm, ?_⟩
    intro res s' h x hx
    obtain ⟨-, department, codeMatches, -, hmem⟩ := hout res s' h
    have hm := List.mem_filter.1 (hmem x hx)
    exact ⟨hm.1, matchesFilters_scope _ department codeMatches x.pr requester.id f1 f2 f3
      hm.2⟩

/-- C20, exercised with a regular expression that accepts everything and a trivial order:
the interviewer is refused with 403, and for the recruiter 2 a query with status, department,
search, page, limit and sort parameters still gives a filter with `RecruiterId` 2 and
`IsApprovedByHRBP` true. -/
theorem getAllPeopleRequisitions_scope_witness :
    getAllPeopleRequisitions (fun _ => some (fun _ => true)) (fun _ _ _ _ => true) storeOne
        ⟨none, none, none, none, none, none, none⟩ panelUser =
      (.error ⟨"You do not have permission to view this People Requisition.", 403⟩,
        storeOne) ∧
    (buildFilters ⟨some "closed", some (.oid 21), some "a", some "2", some "50",
        some "RecruiterId", some "asc"⟩ recruiterUser).RecruiterId = some 2 ∧
    (buildFilters ⟨some "closed", some (.oid 21), some "a", some "2", some "50",
        some "RecruiterId", some "asc"⟩ recruiterUser).IsApprovedByHRBP = some true :=
  ⟨(getAllPeopleRequisitions_scope (fun _ => some (fun _ => true)) (fun _ _ _ _ => true)
      storeOne ⟨none, none, none, none, none, none, none⟩ panelUser).1 (by decide)
      (by decide),
    ((getAllPeopleRequisitions_scope (fun _ => some (fun _ => true)) (fun _ _ _ _ => true)
      storeOne ⟨some "closed", some (.oid 21), some "a", some "2", some "50",
        some "RecruiterId", some "asc"⟩ recruiterUser).2.1 (by decide)).2.1,
    ((getAllPeopleRequisitions_scope (fun _ => some (fun _ => true)) (fun _ _ _ _ => true)
      storeOne ⟨some "closed", some (.oid 21), some "a", some "2", some "50",
        some "RecruiterId", some "asc"⟩ recruiterUser).2.1 (by decide)).2.2.1⟩

/-! ## Facts about the assignment loop of `updatePeopleRequisition` -/

theorem EditFrame.refl (pr : PeopleRequisition) : EditFrame pr pr := by
  cases pr; rfl

theorem EditFrame.trans {a b c : PeopleRequisition} (h1 : EditFrame a b)
    (h2 : EditFrame b c) : EditFrame a c := by
  unfold EditFrame at *
  cases a; cases b; cases c
  simp only [PeopleRequisition.mk.injEq] at h1 h2 ⊢
  simp_all

theorem assignField_frame (pr q : PeopleRequisition) (key : String) (v : Value)
    (h : assignField pr key v = some q) : EditFrame pr q := by
  unfold assignField at h
  split at h
  · obtain ⟨x, -, hx⟩ := Option.map_eq_some'.1 h; subst hx; cases pr; rfl
  · split at h
    · obtain ⟨x, -, hx⟩ := Option.map_eq_some'.1 h; subst hx; cases pr; rfl
    · split at h
      · obtain ⟨x, -, hx⟩ := Option.map_eq_some'.1 h; subst hx; cases pr; rfl
      · split at h
        · obtain ⟨x, -, hx⟩ := Option.map_eq_some'.1 h; subst hx; cases pr; rfl
        · split at h
          · obtain ⟨x, -, hx⟩ := Option.map_eq_some'.1 h; subst hx; cases pr; rfl
          · split at h
            · obtain ⟨x, -, hx⟩ := Option.map_eq_some'.1 h; subst hx; cases pr; rfl
            · simp only [Option.some.injEq] at h; subst h; exact EditFrame.refl pr

theorem assignFields_frame (allowed : List String) (d : UpdateData) (keys : List String) :
    ∀ pr q, assignFields allowed d keys pr = some q → EditFrame pr q := by
  induction keys with
  | nil =>
    intro pr q h
    simp only [assignFields, Option.some.injEq] at h
    subst h; exact EditFrame.refl pr
  | cons key rest ih =>
    intro pr q h
    simp only [assignFields] at h
    split at h
    · split at h
      · exact ih pr q h
      · split at h
        · simp at h
        · rename_i pr1 h1
          exact EditFrame.trans (assignField_frame _ _ _ _ h1) (ih pr1 q h)
    · exact ih pr q h

theorem assignFields_idField (k : String) (proj : PeopleRequisition → ObjectId)
    (hset : ∀ pr v q, assignField pr k v = some q → castToObjectId v = some (proj q))
    (hkeep : ∀ pr key v q, key ≠ k → assignField pr key v = some q → proj q = proj pr)
    (allowed : List String) (d : UpdateData) (keys : List String) :
    ∀ pr q, assignFields allowed d keys pr = some q →
      ((k ∉ keys ∨ k ∉ allowed ∨ getField d k = none) → proj q = proj pr) ∧
      (k ∈ keys → k ∈ allowed → ∀ v, getField d k = some v → castToObjectId v = some (proj q)) := by
  induction keys with
  | nil =>
    intro pr q h
    simp only [assignFields, Option.some.injEq] at h
    subst h
    exact ⟨fun _ => rfl, fun hk => absurd hk (List.not_mem_nil _)⟩
  | cons key rest ih =>
    intro pr q h
    simp only [assignFields] at h
    have hskip : assignFields allowed d rest pr = some q →
        (key = k → k ∉ allowed ∨ getField d k = none) →
        ((k ∉ key :: rest ∨ k ∉ allowed ∨ getField d k = none) → proj q = proj pr) ∧
        (k ∈ key :: rest → k ∈ allowed → ∀ v, getField d k = some v →
          castToObjectId v = some (proj q)) := by
      intro hrest hk
      obtain ⟨i1, i2⟩ := ih pr q hrest
      refine ⟨fun hc => i1 ?_, fun hmem hal v hv => ?_⟩
      · rcases hc with hc | hc | hc
        · exact Or.inl (fun hm => hc (List.mem_cons_of_mem _ hm))
        · exact Or.inr (Or.inl hc)
        · exact Or.inr (Or.inr hc)
      · rcases List.mem_cons.1 hmem with hm | hm
        · rcases hk hm.symm with hc | hc
          · exact absurd hal hc
          · rw [hc] at hv; simp at hv
        · exact i2 hm hal v hv
    split at h
    · rename_i hal
      split at h
      · rename_i hnone
        exact hskip h (fun e => Or.inr (e ▸ hnone))
      · rename_i value hval
        split at h
        · simp at h
        · rename_i pr1 h1
          obtain ⟨i1, i2⟩ := ih pr1 q h
          by_cases hk : key = k
          · subst hk
            have hv1 := hset pr value pr1 h1
            refine ⟨fun hc => ?_, fun _ _ v hv => ?_⟩
            · rcases hc with hc | hc | hc
              · exact absurd (List.mem_cons_self _ _) hc
              · exact absurd (by simpa using hal) hc
              · rw [hc] at hval; simp at hval
            · rw [hval] at hv
              simp only [Option.some.injEq] at hv
              subst hv
              by_cases hin : key ∈ rest
              · exact i2 hin (by simpa using hal) value hval
              · rw [hv1, i1 (Or.inl hin)]
          · refine ⟨fun hc => ?_, fun hmem hal2 v hv => ?_⟩
            · rw [i1 ?_, hkeep pr key value pr1 hk h1]
              rcases hc with hc | hc | hc
              · exact Or.inl (fun hm => hc (List.mem_cons_of_mem _ hm))
              · exact Or.inr (Or.inl hc)
              · exact Or.inr (Or.inr hc)
            · rcases List.mem_cons.1 hmem with hm | hm
              · exact absurd hm.symm hk
              · exact i2 hm hal2 v hv
    · rename_i hal
      exact hskip h (fun e => Or.inl (e ▸ (by simpa using hal)))

theorem assignField_recruiter_set (pr : PeopleRequisition) (v : Value) (q : PeopleRequisition)
    (h : assignField pr "RecruiterId" v = some q) :
    castToObjectId v = some q.RecruiterId := by
  have h1 : (castToObjectId v).map (fun x => { pr with RecruiterId := x }) = some q := by
    simpa [assignField] using h
  obtain ⟨x, hx, hq⟩ := Option.map_eq_some'.1 h1
  subst hq
  exact hx

theorem assignField_department_set (pr : PeopleRequisition) (v : Value)
    (q : PeopleRequisition) (h : assignField pr "DepartmentId" v = some q) :
    castToObjectId v = some q.DepartmentId := by
  have h1 : (castToObjectId v).map (fun x => { pr with DepartmentId := x }) = some q := by
    simpa [assignField] using h
  obtain ⟨x, hx, hq⟩ := Option.map_eq_some'.1 h1
  subst hq
  exact hx

theorem assignField_nature_set (pr : PeopleRequisition) (v : Value) (q : PeopleRequisition)
    (h : assignField pr "NatureOfEmploymentId" v = some q) :
    castToObjectId v = some q.NatureOfEmploymentId := by
  have h1 : (castToObjectId v).map (fun x => { pr with NatureOfEmploymentId := x }) =
      some q := by
    simpa [assignField] using h
  obtain ⟨x, hx, hq⟩ := Option.map_eq_some'.1 h1
  subst hq
  exact hx

theorem assignField_recruiter_keep (pr : PeopleRequisition) (key : String) (v : Value)
    (q : PeopleRequisition) (hk : key ≠ "RecruiterId")
    (h : assignField pr key v = some q) : q.RecruiterId = pr.RecruiterId := by
  unfold assignField at h
  split at h
  · obtain ⟨x, -, hx⟩ := Option.map_eq_some'.1 h; subst hx; rfl
  · split at h
    · obtain ⟨x, -, hx⟩ := Option.map_eq_some'.1 h; subst hx; rfl
    · split at h
      · obtain ⟨x, -, hx⟩ := Option.map_eq_some'.1 h; subst hx; rfl
      · split at h
        · rename_i hc; exact absurd (by simpa using hc) hk
        · split at h
          · obtain ⟨x, -, hx⟩ := Option.map_eq_some'.1 h; subst hx; rfl
          · split at h
            · obtain ⟨x, -, hx⟩ := Option.map_eq_some'.1 h; subst hx; rfl
            · simp only [Option.some.injEq] at h; subst h; rfl

theorem assignField_department_keep (pr : PeopleRequisition) (key : String) (v : Value)
    (q : PeopleRequisition) (hk : key ≠ "DepartmentId")
    (h : assignField pr key v = some q) : q.DepartmentId = pr.DepartmentId := by
  unfold assignField at h
  split at h
  · obtain ⟨x, -, hx⟩ := Option.map_eq_some'.1 h; subst hx; rfl
  · split at h
    · obtain ⟨x, -, hx⟩ := Option.map_eq_some'.1 h; subst hx; rfl
    · split at h
      · obtain ⟨x, -, hx⟩ := Option.map_eq_some'.1 h; subst hx; rfl
      · split at h
        · obtain ⟨x, -, hx⟩ := Option.map_eq_some'.1 h; subst hx; rfl
        · split at h
          · rename_i hc; exact absurd (by simpa using hc) hk
          · split at h
            · obtain ⟨x, -, hx⟩ := Option.map_eq_some'.1 h; subst hx; rfl
            · simp only [Option.some.injEq] at h; subst h; rfl

theorem assignField_nature_keep (pr : PeopleRequisition) (key : String) (v : Value)
    (q : PeopleRequisition) (hk : key ≠ "NatureOfEmploymentId")
    (h : assignField pr key v = some q) :
    q.NatureOfEmploymentId = pr.NatureOfEmploymentId := by
  unfold assignField at h
  split at h
  · obtain ⟨x, -, hx⟩ := Option.map_eq_some'.1 h; subst hx; rfl
  · split at h
    · obtain ⟨x, -, hx⟩ := Option.map_eq_some'.1 h; subst hx; rfl
    · split at h
      · obtain ⟨x, -, hx⟩ := Option.map_eq_some'.1 h; subst hx; rfl
      · split at h
        · obtain ⟨x, -, hx⟩ := Option.map_eq_some'.1 h; subst hx; rfl
        · split at h
          · obtain ⟨x, -, hx⟩ := Option.map_eq_some'.1 h; subst hx; rfl
          · split at h
            · rename_i hc; exact absurd (by simpa using hc) hk
            · simp only [Option.some.injEq] at h; subst h; rfl

theorem getField_mem (d : UpdateData) (k : String) (v : Value)
    (h : getField d k = some v) : k ∈ d.map (fun e => e.1) := by
  induction d with
  | nil => simp [getField] at h
  | cons e t ih =>
    obtain ⟨k1, v1⟩ := e
    by_cases hk : k = k1
    · subst hk; simp
    · have hb : (k == k1) = false := by simpa using hk
      have : getField t k = some v := by
        simpa [getField, List.lookup, hb] using h
      exact List.mem_cons_of_mem _ (ih this)

theorem notifyReassignment_ok (s s2 : Db) (prId : ObjectId) (d : UpdateData)
    (old : ObjectId) (q : PeopleRequisition) (hfind : findById s prId = some q)
    (h : notifyReassignment s prId d old = .ok s2) :
    (recruiterChanged d old = false ∧ s2 = s) ∨
    (recruiterChanged d old = true ∧ ∃ (rec : User) (job : JobPosition),
      findUserById s q.RecruiterId = some rec ∧
      s2 = sendEmail s ⟨rec.Email,
        "Reassignment: New Requirement Assigned - " ++ job.JobPosition,
        "prReassignmentEmail"⟩) := by
  unfold notifyReassignment at h
  cases hc : recruiterChanged d old with
  | false =>
    left
    simp only [hc, Bool.false_eq_true, if_false, Except.ok.injEq] at h
    exact ⟨rfl, h.symm⟩
  | true =>
    right
    refine ⟨rfl, ?_⟩
    simp only [hc, if_true, findByIdAndPopulateDetails, hfind, Option.map_some',
      populateDetails] at h
    cases hrec : findUserById s q.RecruiterId with
    | none => simp [hrec] at h
    | some rec =>
      cases hdep : findDepartmentById s q.DepartmentId with
      | none => simp [hrec, hdep] at h
      | some dep =>
        cases hjob : findJobPositionById s q.JobId with
        | none => simp [hrec, hdep, hjob] at h
        | some job =>
          simp only [hrec, hdep, hjob, Except.ok.injEq] at h
          exact ⟨rec, job, rfl, h.symm⟩

/-- What a successful run of lines 168-198 did. -/
theorem applyUpdate_ok (s s' : Db) (now : Nat) (prId : ObjectId) (pr : PeopleRequisition)
    (d : UpdateData) (u : User) (r : PopulatedPR) (hfind : findById s prId = some pr)
    (h : applyUpdate s now prId pr d u = (.ok r, s')) :
    ∃ a, assignFields (allowedFieldsFor u.Role) d (d.map (fun e => e.1)) pr = some a ∧
      findById s' prId = some (withModifier a u now) ∧ r.pr = withModifier a u now ∧
      s'.prs = (save s (withModifier a u now)).prs ∧
      s'.users = s.users ∧ s'.departments = s.departments ∧ s'.natures = s.natures ∧
      s'.jobPositions = s.jobPositions ∧
      (recruiterChanged d pr.RecruiterId = false → s'.outbox = s.outbox) ∧
      (recruiterChanged d pr.RecruiterId = true → ∃ (rec : User) (job : JobPosition),
        findUserById s a.RecruiterId = some rec ∧
        s'.outbox = s.outbox ++ [⟨rec.Email,
          "Reassignment: New Requirement Assigned - " ++ job.JobPosition,
          "prReassignmentEmail"⟩]) := by
  unfold applyUpdate at h
  simp only [] at h
  cases ha : assignFields (allowedFieldsFor u.Role) d (d.map (fun e => e.1)) pr with
  | none => simp [ha] at h
  | some a =>
    simp only [ha] at h
    have hid0 : pr.id = prId := findById_id hfind
    have hfr := assignFields_frame _ _ _ _ _ ha
    have hid : (withModifier a u now).id = prId := by
      have : a.id = pr.id := by rw [hfr]
      exact this.trans hid0
    have hsaved := findById_save (q := withModifier a u now) hfind hid
    cases hn : notifyReassignment (save s (withModifier a u now)) prId d pr.RecruiterId with
    | error e => simp [hn] at h
    | ok s2 =>
      simp only [hn] at h
      have hcases := notifyReassignment_ok _ s2 prId d pr.RecruiterId _ hsaved hn
      have hprs : s2.prs = (save s (withModifier a u now)).prs := by
        rcases hcases with ⟨-, rfl⟩ | ⟨-, rec, job, -, rfl⟩ <;> rfl
      have hf2 : findById s2 prId = some (withModifier a u now) := by
        unfold findById at hsaved ⊢
        rw [hprs]; exact hsaved
      simp only [findByIdAndPopulateDetails, hf2, Option.map_some', Prod.mk.injEq,
        Except.ok.injEq] at h
      obtain ⟨h1, h2⟩ := h
      subst h2
      refine ⟨a, rfl, hf2, by rw [← h1]; rfl, hprs, ?_, ?_, ?_, ?_, ?_, ?_⟩
      · rcases hcases with ⟨-, rfl⟩ | ⟨-, rec, job, -, rfl⟩ <;> rfl
      · rcases hcases with ⟨-, rfl⟩ | ⟨-, rec, job, -, rfl⟩ <;> rfl
      · rcases hcases with ⟨-, rfl⟩ | ⟨-, rec, job, -, rfl⟩ <;> rfl
      · rcases hcases with ⟨-, rfl⟩ | ⟨-, rec, job, -, rfl⟩ <;> rfl
      · intro hc
        rcases hcases with ⟨-, e⟩ | ⟨hc2, -⟩
        · rw [e]; rfl
        · rw [hc] at hc2; simp at hc2
      · intro hc
        rcases hcases with ⟨hc2, -⟩ | ⟨-, rec, job, hrec, e⟩
        · rw [hc] at hc2; simp at hc2
        · exact ⟨rec, job, hrec, by rw [e]; rfl⟩

/-- What a successful `updatePeopleRequisition` passed through. -/
theorem update_ok (s s' : Db) (now : Nat) (prId : ObjectId) (d : UpdateData) (u : User)
    (r : PopulatedPR) (h : updatePeopleRequisition s now prId d u = (.ok r, s')) :
    ∃ pr, findById s prId = some pr ∧ pr.IsDelete = false ∧
      (pr.HRBPId = u.id ∨ pr.RecruiterId = u.id) ∧
      (pr.Status = "open" ∨ pr.Status = "onhold") ∧
      (∀ key ∈ d.map (fun e => e.1), key ∈ allowedFieldsFor u.Role) ∧
      checkRecruiterId s d = .ok () ∧ checkDepartmentId s d = .ok () ∧
      checkNatureOfEmploymentId s d = .ok () ∧
      applyUpdate s now prId pr d u = (.ok r, s') := by
  cases hfind : findById s prId with
  | none => rw [update_missing s now prId d u hfind] at h; simp at h
  | some pr =>
    cases hd : pr.IsDelete with
    | true => rw [update_deleted s now prId d u pr hfind hd] at h; simp at h
    | false =>
      by_cases ha : pr.HRBPId = u.id ∨ pr.RecruiterId = u.id
      · by_cases hst : pr.Status = "open" ∨ pr.Status = "onhold"
        · rw [update_editable s now prId d u pr hfind hd ha hst] at h
          cases hk : (d.map (fun e => e.1)).find?
              (fun key => !(allowedFieldsFor u.Role).contains key) with
          | some k => rw [hk] at h; simp at h
          | none =>
            rw [hk] at h
            simp only [] at h
            cases hc1 : checkRecruiterId s d with
            | error e => simp [hc1] at h
            | ok _ =>
              simp only [hc1] at h
              cases hc2 : checkDepartmentId s d with
              | error e => simp [hc2] at h
              | ok _ =>
                simp only [hc2] at h
                cases hc3 : checkNatureOfEmploymentId s d with
                | error e => simp [hc3] at h
                | ok _ =>
                  simp only [hc3] at h
                  refine ⟨pr, rfl, hd, ha, hst, ?_, rfl, rfl, rfl, h⟩
                  intro key hkey
                  have := List.find?_eq_none.1 hk key hkey
                  simpa using this
        · have h1 : pr.Status ≠ "open" := fun e => hst (Or.inl e)
          have h2 : pr.Status ≠ "onhold" := fun e => hst (Or.inr e)
          rw [update_locked s now prId d u pr hfind hd ha h1 h2] at h
          simp at h
      · have h1 : pr.HRBPId ≠ u.id := fun e => ha (Or.inl e)
        have h2 : pr.RecruiterId ≠ u.id := fun e => ha (Or.inr e)
        rw [update_unassigned s now prId d u pr hfind hd h1 h2] at h
        simp at h

theorem truthy_of_cast (v : Value) (id : ObjectId) (h : castToObjectId v = some id) :
    v.truthy = true := by
  cases v <;> simp [castToObjectId] at h <;> rfl

theorem checkRecruiterId_ok_oid (s : Db) (d : UpdateData) (v : Value) (id : ObjectId)
    (hc : checkRecruiterId s d = .ok ()) (hget : getField d "RecruiterId" = some v)
    (hcast : castToObjectId v = some id) :
    ∃ rec, findUserById s id = some rec ∧ rec.IsDelete = false ∧ rec.Role = "Recruiter" := by
  simp only [checkRecruiterId, hget, truthy_of_cast v id hcast, if_true, hcast] at hc
  cases hu : findUserById s id with
  | none => simp [hu] at hc
  | some rec =>
    simp only [hu] at hc
    split at hc
    · simp at hc
    · rename_i hcond
      simp only [Bool.or_eq_true, bne_iff_ne, ne_eq, not_or, Bool.not_eq_true,
        Decidable.not_not] at hcond
      exact ⟨rec, rfl, hcond.1, hcond.2⟩

theorem checkDepartmentId_ok_oid (s : Db) (d : UpdateData) (v : Value) (id : ObjectId)
    (hc : checkDepartmentId s d = .ok ())
    (hget : getField d "DepartmentId" = some v) (hcast : castToObjectId v = some id) :
    ∃ dep, findDepartmentById s id = some dep ∧ dep.IsDelete = false := by
  simp only [checkDepartmentId, hget, truthy_of_cast v id hcast, if_true, hcast] at hc
  cases hu : findDepartmentById s id with
  | none => simp [hu] at hc
  | some dep =>
    simp only [hu] at hc
    split at hc
    · simp at hc
    · rename_i hcond
      exact ⟨dep, rfl, by simpa using hcond⟩

theorem checkNatureOfEmploymentId_ok_oid (s : Db) (d : UpdateData) (v : Value)
    (id : ObjectId) (hc : checkNatureOfEmploymentId s d = .ok ())
    (hget : getField d "NatureOfEmploymentId" = some v)
    (hcast : castToObjectId v = some id) :
    ∃ n, findNatureOfEmploymentById s id = some n ∧ n.IsDelete = false := by
  simp only [checkNatureOfEmploymentId, hget, truthy_of_cast v id hcast, if_true,
    hcast] at hc
  cases hu : findNatureOfEmploymentById s id with
  | none => simp [hu] at hc
  | some n =>
    simp only [hu] at hc
    split at hc
    · simp at hc
    · rename_i hcond
      exact ⟨n, rfl, by simpa using hcond⟩

/-- On a successful update every submitted reference key carries the ObjectId that was
stored, and a reference key that was not submitted keeps its value. -/
theorem update_ok_references (s s' : Db) (now : Nat) (prId : ObjectId) (d : UpdateData)
    (u : User) (r : PopulatedPR) (pr : PeopleRequisition)
    (hfind : findById s prId = some pr)
    (h : updatePeopleRequisition s now prId d u = (.ok r, s')) :
    (∀ v, getField d "RecruiterId" = some v →
      castToObjectId v = some r.pr.RecruiterId) ∧
    (getField d "RecruiterId" = none → r.pr.RecruiterId = pr.RecruiterId) ∧
    (∀ v, getField d "DepartmentId" = some v →
      castToObjectId v = some r.pr.DepartmentId) ∧
    (getField d "DepartmentId" = none → r.pr.DepartmentId = pr.DepartmentId) ∧
    (∀ v, getField d "NatureOfEmploymentId" = some v →
      castToObjectId v = some r.pr.NatureOfEmploymentId) ∧
    (getField d "NatureOfEmploymentId" = none →
      r.pr.NatureOfEmploymentId = pr.NatureOfEmploymentId) := by
  obtain ⟨pr1, hf1, -, -, -, hkeys, -, -, -, happ⟩ := update_ok s s' now prId d u r h
  rw [hfind] at hf1
  cases hf1
  obtain ⟨a, ha, -, hr, -⟩ := applyUpdate_ok s s' now prId pr d u r hfind happ
  have e1 : r.pr.RecruiterId = a.RecruiterId := by rw [hr]; rfl
  have e2 : r.pr.DepartmentId = a.DepartmentId := by rw [hr]; rfl
  have e3 : r.pr.NatureOfEmploymentId = a.NatureOfEmploymentId := by rw [hr]; rfl
  obtain ⟨r1, r2⟩ := assignFields_idField "RecruiterId" (fun p => p.RecruiterId)
    assignField_recruiter_set assignField_recruiter_keep _ d _ pr a ha
  obtain ⟨d1, d2⟩ := assignFields_idField "DepartmentId" (fun p => p.DepartmentId)
    assignField_department_set assignField_department_keep _ d _ pr a ha
  obtain ⟨n1, n2⟩ := assignFields_idField "NatureOfEmploymentId"
    (fun p => p.NatureOfEmploymentId)
    assignField_nature_set assignField_nature_keep _ d _ pr a ha
  rw [e1, e2, e3]
  refine ⟨fun v hv => ?_, fun hn => r1 (Or.inr (Or.inr hn)), fun v hv => ?_,
    fun hn => d1 (Or.inr (Or.inr hn)), fun v hv => ?_, fun hn => n1 (Or.inr (Or.inr hn))⟩
  · exact r2 (getField_mem d _ v hv) (hkeys _ (getField_mem d _ v hv)) v hv
  · exact d2 (getField_mem d _ v hv) (hkeys _ (getField_mem d _ v hv)) v hv
  · exact n2 (getField_mem d _ v hv) (hkeys _ (getField_mem d _ v hv)) v hv

theorem referencesLive_congr (s s' : Db) (pr : PeopleRequisition)
    (h1 : s'.users = s.users) (h2 : s'.departments = s.departments)
    (h3 : s'.natures = s.natures) : referencesLive s' pr = referencesLive s pr := by
  simp only [referencesLive, findUserById, findDepartmentById, findNatureOfEmploymentById,
    h1, h2, h3]

/-- C15. A successful `updatePeopleRequisition` has validated every reference it was given:
each of the keys `RecruiterId`, `DepartmentId` and `NatureOfEmploymentId` that the payload
contains, with whatever value, carries the id of an existing, non-soft-deleted entity (a
value that cannot be cast to an ObjectId, the empty string included, makes the update fail),
the recruiter
has role name 'Recruiter', and that id is what is stored.  Hence a requisition whose
recruiter, department and nature of employment existed and were not deleted before a
successful update still has such references after it. -/
theorem updatePeopleRequisition_references_validated (s s' : Db) (now : Nat)
    (prId : ObjectId) (updateData : UpdateData) (requester : User) (r : PopulatedPR)
    (hok : updatePeopleRequisition s now prId updateData requester = (.ok r, s')) :
    (∀ v, getField updateData "RecruiterId" = some v →
      ∃ id rec, castToObjectId v = some id ∧ findUserById s id = some rec ∧
        rec.IsDelete = false ∧ rec.Role = "Recruiter" ∧ r.pr.RecruiterId = id) ∧
    (∀ v, getField updateData "DepartmentId" = some v →
      ∃ id dep, castToObjectId v = some id ∧ findDepartmentById s id = some dep ∧
        dep.IsDelete = false ∧ r.pr.DepartmentId = id) ∧
    (∀ v, getField updateData "NatureOfEmploymentId" = some v →
      ∃ id n, castToObjectId v = some id ∧ findNatureOfEmploymentById s id = some n ∧
        n.IsDelete = false ∧ r.pr.NatureOfEmploymentId = id) ∧
    (∀ pr, findById s prId = some pr → referencesLive s pr = true →
      findById s' prId = some r.pr ∧ referencesLive s' r.pr = true) := by
  obtain ⟨pr, hfind, -, -, -, -, hc1, hc2, hc3, happ⟩ :=
    update_ok s s' now prId updateData requester r hok
  obtain ⟨hr1, hr2, hd1, hd2, hn1, hn2⟩ :=
    update_ok_references s s' now prId updateData requester r pr hfind hok
  obtain ⟨a, -, hstored, hr, -, hu, hdp, hnt, -, -, -⟩ :=
    applyUpdate_ok s s' now prId pr updateData requester r hfind happ
  have p1 : ∀ v, getField updateData "RecruiterId" = some v →
      ∃ id rec, castToObjectId v = some id ∧ findUserById s id = some rec ∧
        rec.IsDelete = false ∧ rec.Role = "Recruiter" ∧ r.pr.RecruiterId = id := by
    intro v hv
    have e := hr1 v hv
    obtain ⟨rec, h1, h2, h3⟩ := checkRecruiterId_ok_oid s updateData v _ hc1 hv e
    exact ⟨_, rec, e, h1, h2, h3, rfl⟩
  have p2 : ∀ v, getField updateData "DepartmentId" = some v →
      ∃ id dep, castToObjectId v = some id ∧ findDepartmentById s id = some dep ∧
        dep.IsDelete = false ∧ r.pr.DepartmentId = id := by
    intro v hv
    have e := hd1 v hv
    obtain ⟨dep, h1, h2⟩ := checkDepartmentId_ok_oid s updateData v _ hc2 hv e
    exact ⟨_, dep, e, h1, h2, rfl⟩
  have p3 : ∀ v, getField updateData "NatureOfEmploymentId" = some v →
      ∃ id n, castToObjectId v = some id ∧ findNatureOfEmploymentById s id = some n ∧
        n.IsDelete = false ∧ r.pr.NatureOfEmploymentId = id := by
    intro v hv
    have e := hn1 v hv
    obtain ⟨n, h1, h2⟩ := checkNatureOfEmploymentId_ok_oid s updateData v _ hc3 hv e
    exact ⟨_, n, e, h1, h2, rfl⟩
  refine ⟨p1, p2, p3, fun pr0 hf0 hlive => ?_⟩
  rw [hfind] at hf0
  cases hf0
  refine ⟨by rw [hstored, hr], ?_⟩
  rw [referencesLive_congr s s' r.pr hu hdp hnt]
  simp only [referencesLive, Bool.and_eq_true, Bool.not_eq_true'] at hlive ⊢
  obtain ⟨⟨l1, l2⟩, l3⟩ := hlive
  refine ⟨⟨?_, ?_⟩, ?_⟩
  · cases hg : getField updateData "RecruiterId" with
    | none => rw [hr2 hg]; exact l1
    | some v =>
      obtain ⟨id, rec, -, h1, h2, -, h4⟩ := p1 v hg
      rw [h4, h1]; simp [missingOrDeleted, h2]
  · cases hg : getField updateData "DepartmentId" with
    | none => rw [hd2 hg]; exact l2
    | some v =>
      obtain ⟨id, dep, -, h1, h2, h4⟩ := p2 v hg
      rw [h4, h1]; simp [missingOrDeleted, h2]
  · cases hg : getField updateData "NatureOfEmploymentId" with
    | none => rw [hn2 hg]; exact l3
    | some v =>
      obtain ⟨id, n, -, h1, h2, h4⟩ := p3 v hg
      rw [h4, h1]; simp [missingOrDeleted, h2]

/-- C15, exercised: the reassignment of `storeOne` to the recruiter 3 succeeds and stores a
requisition with live references; an empty string as `RecruiterId` and an empty string as
`DepartmentId` do not succeed. -/
theorem updatePeopleRequisition_references_validated_witness :
    updatePeopleRequisition storeOne 200 1 reassignPayload hrbpUser =
      (.ok (populateDetails storeReassigned reassignedPR), storeReassigned) ∧
    (findById storeReassigned 1 = some reassignedPR ∧
      referencesLive storeReassigned reassignedPR = true) ∧
    failsWith (updatePeopleRequisition storeOne 200 1 [("RecruiterId", .str "")] hrbpUser)
      500 ∧
    failsWith (updatePeopleRequisition storeOne 200 1 [("DepartmentId", .str "")] hrbpUser)
      500 :=
  ⟨by decide,
    (updatePeopleRequisition_references_validated storeOne storeReassigned 200 1
      reassignPayload hrbpUser (populateDetails storeReassigned reassignedPR)
      (by decide)).2.2.2 openPR (by decide) (by decide),
    ⟨_, rfl, rfl⟩, ⟨_, rfl, rfl⟩⟩

theorem recruiterChanged_oid (d : UpdateData) (old id : ObjectId)
    (h : getField d "RecruiterId" = some (.oid id)) :
    recruiterChanged d old = decide (id ≠ old) := by
  by_cases e : id = old
  · subst e
    simp [recruiterChanged, h, Value.truthy, differsFromSpelling]
  · simp [recruiterChanged, h, Value.truthy, differsFromSpelling, e]

theorem recruiterChanged_none (d : UpdateData) (old : ObjectId)
    (h : getField d "RecruiterId" = none) : recruiterChanged d old = false := by
  simp [recruiterChanged, h]

theorem recruiterChanged_text (d : UpdateData) (old id : ObjectId) (text : String)
    (h : getField d "RecruiterId" = some (.oidText id text)) :
    recruiterChanged d old = (text != hexString old) := by
  simp [recruiterChanged, h, Value.truthy, differsFromSpelling]

/-- The mail of a successful `updatePeopleRequisition`: exactly one, with template
'prReassignmentEmail' and addressed to the recruiter stored by the update, when the
condition of line 178 holds, and none otherwise.  For an id in the spelling of `toString`
the condition is that the id differs from the recruiter before the update; for an id in
another spelling it is that the text differs from the spelling of the old id. -/
theorem update_reassignment_mail (s s' : Db) (now : Nat) (prId : ObjectId)
    (updateData : UpdateData) (requester : User) (r : PopulatedPR) (pr : PeopleRequisition)
    (hfind : findById s prId = some pr)
    (hok : updatePeopleRequisition s now prId updateData requester = (.ok r, s')) :
    (recruiterChanged updateData pr.RecruiterId = true →
      ∃ (newRecruiter : User) (subject : String),
        findUserById s r.pr.RecruiterId = some newRecruiter ∧
        findById s' prId = some r.pr ∧
        s'.outbox = s.outbox ++ [⟨newRecruiter.Email, subject, "prReassignmentEmail"⟩]) ∧
    (recruiterChanged updateData pr.RecruiterId = false → s'.outbox = s.outbox) ∧
    (∀ id, getField updateData "RecruiterId" = some (.oid id) →
      (recruiterChanged updateData pr.RecruiterId = true ↔ id ≠ pr.RecruiterId)) ∧
    (∀ id text, getField updateData "RecruiterId" = some (.oidText id text) →
      (recruiterChanged updateData pr.RecruiterId = true ↔
        text ≠ hexString pr.RecruiterId)) ∧
    (getField updateData "RecruiterId" = none →
      recruiterChanged updateData pr.RecruiterId = false) := by
  obtain ⟨pr1, hf1, -, -, -, -, -, -, -, happ⟩ :=
    update_ok s s' now prId updateData requester r hok
  rw [hfind] at hf1
  cases hf1
  obtain ⟨a, -, hstored, hr, -, -, -, -, -, hsame, hchanged⟩ :=
    applyUpdate_ok s s' now prId pr updateData requester r hfind happ
  refine ⟨fun hch => ?_, hsame, fun id hg => ?_, fun id text hg => ?_,
    recruiterChanged_none updateData _⟩
  · obtain ⟨rec, job, hrec, hout⟩ := hchanged hch
    have e : r.pr.RecruiterId = a.RecruiterId := by rw [hr]; rfl
    exact ⟨rec, _, by rw [e]; exact hrec, by rw [hstored, hr], hout⟩
  · rw [recruiterChanged_oid updateData _ id hg]
    simp
  · rw [recruiterChanged_text updateData _ id text hg]
    simp

/-- C17 fails for a resubmission in another spelling.  In `storeOne` the reassignment of
requisition 1 from recruiter 2 to recruiter 3 succeeds and mails recruiter 3 once, and the
resubmission of recruiter 2 in the spelling of `toString` mails nobody.  In `storeHex` the
recruiter of requisition 1 is the user 10, spelled "00000000000000000000000a"; the payload
that resubmits this id as "00000000000000000000000A" succeeds, leaves the recruiter 10 in
place, and mails that recruiter a reassignment notification. -/
theorem resubmission_in_upper_case_mails_recruiter :
    updatePeopleRequisition storeOne 200 1 reassignPayload hrbpUser =
      (.ok (populateDetails storeReassigned reassignedPR), storeReassigned) ∧
    storeReassigned.outbox = storeOne.outbox ++ [⟨"omar@gmail.com",
      "Reassignment: New Requirement Assigned - Senior Software Engineer",
      "prReassignmentEmail"⟩] ∧
    (updatePeopleRequisition storeOne 200 1
      [("RecruiterId", .oid 2), ("PRFNumber", .str "P-2")] hrbpUser).1.toOption.isSome =
      true ∧
    (updatePeopleRequisition storeOne 200 1
      [("RecruiterId", .oid 2), ("PRFNumber", .str "P-2")] hrbpUser).2.outbox =
      storeOne.outbox ∧
    findById storeHex 1 = some hexPR ∧ hexPR.RecruiterId = 10 ∧
    hexString 10 = "00000000000000000000000a" ∧
    (updatePeopleRequisition storeHex 200 1 upperCasePayload hrbpUser).1.toOption.map
      (fun r => r.pr.RecruiterId) = some 10 ∧
    (updatePeopleRequisition storeHex 200 1 upperCasePayload hrbpUser).2.outbox =
      storeHex.outbox ++ [⟨"asha@gmail.com",
        "Reassignment: New Requirement Assigned - Senior Software Engineer",
        "prReassignmentEmail"⟩] := by
  decide

/-! ## The effect of one operation on the stored requisitions -/

theorem notifyCompleted_prs (s1 s2 : Db) (prId : ObjectId) (r n : String)
    (h : notifyCompleted s1 prId r n = .ok s2) : s2.prs = s1.prs := by
  unfold notifyCompleted at h
  split at h
  · cases hf : findByIdAndPopulateDetails s1 prId with
    | none => simp only [hf, Except.ok.injEq] at h; rw [← h]
    | some pp =>
      simp only [hf] at h
      cases h1 : pp.HRBP <;> cases h2 : pp.Recruiter <;> cases h3 : pp.Job <;>
        simp only [h1, h2, h3, Except.ok.injEq] at h <;> first | (rw [← h]; rfl) | cases h
  · simp only [Except.ok.injEq] at h; rw [← h]

theorem notifyReassignment_prs (s1 s2 : Db) (prId : ObjectId) (d : UpdateData)
    (old : ObjectId) (h : notifyReassignment s1 prId d old = .ok s2) : s2.prs = s1.prs := by
  unfold notifyReassignment at h
  split at h
  · cases hf : findByIdAndPopulateDetails s1 prId with
    | none => simp only [hf, Except.ok.injEq] at h; rw [← h]
    | some pp =>
      simp only [hf] at h
      cases h1 : pp.Recruiter <;> cases h2 : pp.DepartmentDoc <;> cases h3 : pp.Job <;>
        simp only [h1, h2, h3, Except.ok.injEq] at h <;> first | (rw [← h]; rfl) | cases h
  · simp only [Except.ok.injEq] at h; rw [← h]

theorem notifyUpload_prs (s1 s2 : Db) (prId : ObjectId)
    (h : notifyUpload s1 prId = .ok s2) : s2.prs = s1.prs := by
  unfold notifyUpload at h
  cases hf : findByIdAndPopulateDetails s1 prId with
  | none => simp only [hf, Except.ok.injEq] at h; rw [← h]
  | some pp =>
    simp only [hf] at h
    cases h1 : pp.HRBP <;> cases h2 : pp.Job <;>
      simp only [h1, h2, Except.ok.injEq] at h <;> first | (rw [← h]; rfl) | cases h

theorem isValidTransition_enum (r c n : String) (h : isValidTransition r c n = true) :
    n ∈ statusEnum := by
  have := (isValidTransition_iff _ _ _).1 h
  simp only [transitionTable, List.mem_cons, Prod.mk.injEq, List.mem_singleton,
    List.not_mem_nil, or_false] at this
  rcases this with ⟨-, -, h⟩ | ⟨-, -, h⟩ | ⟨-, -, h⟩ | ⟨-, -, h⟩ | ⟨-, -, h⟩ | ⟨-, -, h⟩ |
    ⟨-, -, h⟩ <;> subst h <;> decide

theorem create_effect (s : Db) (now : Nat) (prData : PrData) (u : User) :
    StepEffect s (.create now prData u) := by
  unfold StepEffect
  cases hres : (createPeopleRequisition s now prData u).1 with
  | error e => exact Or.inl (create_error_prs s now prData u e hres)
  | ok pr =>
    right; left
    have hout : createPeopleRequisition s now prData u =
        (.ok pr, (createPeopleRequisition s now prData u).2) := by
      rw [← hres]
    obtain ⟨jp, -, hpr, hs, -, -, -⟩ := create_ok s _ now prData u pr hout
    refine ⟨pr, ⟨now, prData, u, rfl⟩, ?_, ?_, ?_, ?_, ?_⟩
    · show (createPeopleRequisition s now prData u).2.prs = s.prs ++ [pr]
      rw [hs]
    · rw [hpr]; rfl
    · rw [hpr]; rfl
    · rw [hpr]; rfl
    · intro p hp heq
      have h1 := lt_freshId s p hp
      have h2 : pr.id = freshId s := by rw [hpr]; rfl
      rw [heq, h2] at h1
      exact lt_irrefl _ h1

theorem approve_effect (s : Db) (now : Nat) (prId : ObjectId) (u : User) :
    StepEffect s (.approve now prId u) := by
  unfold StepEffect
  show (approvePeopleRequisition s now prId u).2.prs = s.prs ∨ _ ∨ _
  cases hfind : findById s prId with
  | none => left; rw [approve_missing s now prId u hfind]
  | some pr =>
    cases hd : pr.IsDelete with
    | true => left; rw [approve_deleted s now prId u pr hfind hd]
    | false =>
      cases ha : pr.IsApprovedByHRBP with
      | true => left; rw [approve_already s now prId u pr hfind hd ha]
      | false =>
        right; right
        have hid : pr.id = prId := findById_id hfind
        refine ⟨pr, withApproval pr u now, by rw [hid]; exact hfind,
          ⟨hid, hd, ha, rfl⟩, ?_⟩
        show (approvePeopleRequisition s now prId u).2.prs = _
        simp only [approvePeopleRequisition, findByIdAndPopulateDetails, hfind,
          Option.map_some', populateDetails, hd, ha, Bool.false_eq_true, if_false]
        split <;> rfl

theorem updateStatus_effect (s : Db) (now : Nat) (prId : ObjectId) (newStatus : String)
    (u : User) : StepEffect s (.updateStatus now prId newStatus u) := by
  unfold StepEffect
  show (updatePeopleRequisitionStatus s now prId newStatus u).2.prs = s.prs ∨ _ ∨ _
  cases hfind : findById s prId with
  | none => left; simp [updatePeopleRequisitionStatus, hfind]
  | some pr =>
    cases hd : pr.IsDelete with
    | true => left; simp [updatePeopleRequisitionStatus, hfind, hd]
    | false =>
      by_cases ha : pr.HRBPId = u.id ∨ pr.RecruiterId = u.id
      · cases hv : isValidTransition u.Role pr.Status newStatus with
        | false => left; rw [updateStatus_invalid s now prId newStatus u pr hfind hd ha hv]
        | true =>
          right; right
          have hid : pr.id = prId := findById_id hfind
          have hassigned : (!(pr.HRBPId == u.id) && !(pr.RecruiterId == u.id)) = false := by
            rcases ha with h | h <;> simp [h]
          have he : newStatus ∈ statusEnum := isValidTransition_enum _ _ _ hv
          have hc : statusEnum.contains newStatus = true := by simpa using he
          refine ⟨pr, withStatus pr newStatus u now, by rw [hid]; exact hfind,
            ⟨hid, hd, ha, hv, rfl⟩, ?_⟩
          show (updatePeopleRequisitionStatus s now prId newStatus u).2.prs = _
          simp only [updatePeopleRequisitionStatus, hfind, hd, hassigned, hv,
            Bool.false_eq_true, if_false, Bool.not_true, hc]
          cases hn : notifyCompleted (save s (withStatus pr newStatus u now)) prId u.Role
              newStatus with
          | error e => rfl
          | ok s2 => exact notifyCompleted_prs _ _ _ _ _ hn
      · left
        have h1 : pr.HRBPId ≠ u.id := fun e => ha (Or.inl e)
        have h2 : pr.RecruiterId ≠ u.id := fun e => ha (Or.inr e)
        simp [updatePeopleRequisitionStatus, hfind, hd, h1, h2]

theorem delete_effect (s : Db) (now : Nat) (prId : ObjectId) (u : User) :
    StepEffect s (.delete now prId u) := by
  unfold StepEffect
  show (deletePeopleRequisition s now prId u).2.prs = s.prs ∨ _ ∨ _
  cases hfind : findById s prId with
  | none => left; simp [deletePeopleRequisition, hfind]
  | some pr =>
    cases hd : pr.IsDelete with
    | true => left; simp [deletePeopleRequisition, hfind, hd]
    | false =>
      by_cases hst : pr.Status = "open"
      · right; right
        have hid : pr.id = prId := findById_id hfind
        refine ⟨pr, withDeletion pr u now, by rw [hid]; exact hfind,
          ⟨hid, hd, hst, rfl⟩, ?_⟩
        show (deletePeopleRequisition s now prId u).2.prs = _
        simp [deletePeopleRequisition, hfind, hd, hst]
      · left
        simp [deletePeopleRequisition, hfind, hd, hst]

theorem unlinkSync_prs (s s1 : Db) (path : String) (h : unlinkSync s path = .ok s1) :
    s1.prs = s.prs := by
  unfold unlinkSync at h
  split at h
  · simp only [Except.ok.injEq] at h; rw [← h]
  · cases h

theorem removeOldFile_prs (s : Db) (pr : PeopleRequisition) :
    (removeOldFile s pr).prs = s.prs := by
  unfold removeOldFile
  split
  · rfl
  · split <;> rfl

theorem removeOldFile_findById (s : Db) (pr : PeopleRequisition) (id : ObjectId) :
    findById (removeOldFile s pr) id = findById s id := by
  unfold findById
  rw [removeOldFile_prs]

theorem upload_effect (s : Db) (now : Nat) (prId : ObjectId) (file : Option UploadedFile)
    (u : User) : StepEffect s (.uploadJobDescription now prId file u) := by
  unfold StepEffect
  show (uploadJobDescription s now prId file u).2.prs = s.prs ∨ _ ∨ _
  cases file with
  | none => left; rfl
  | some f =>
    by_cases hrole : u.Role = "Recruiter"
    · cases hfind : findById s prId with
      | none =>
        left
        simp only [uploadJobDescription, hrole, bne_self_eq_false, Bool.false_eq_true,
          if_false, hfind]
        cases hu : unlinkSync s f.path with
        | error e => rfl
        | ok s1 => exact unlinkSync_prs s s1 _ hu
      | some pr =>
        cases hd : pr.IsDelete with
        | true =>
          left
          simp only [uploadJobDescription, hrole, bne_self_eq_false, Bool.false_eq_true,
            if_false, hfind, hd, if_true]
          cases hu : unlinkSync s f.path with
          | error e => rfl
          | ok s1 => exact unlinkSync_prs s s1 _ hu
        | false =>
          right; right
          have hid : pr.id = prId := findById_id hfind
          refine ⟨pr, withJobDescriptionFile pr f u now, by rw [hid]; exact hfind,
            ⟨hid, hd, hrole, f, rfl, rfl⟩, ?_⟩
          show (uploadJobDescription s now prId (some f) u).2.prs = _
          simp only [uploadJobDescription, hrole, bne_self_eq_false, Bool.false_eq_true,
            if_false, hfind, hd]
          have hs : (save (removeOldFile s pr) (withJobDescriptionFile pr f u now)).prs =
              (save s (withJobDescriptionFile pr f u now)).prs := by
            simp only [save, removeOldFile_prs]
          cases hn : notifyUpload (save (removeOldFile s pr)
              (withJobDescriptionFile pr f u now)) prId with
          | error e => exact hs
          | ok s3 => exact (notifyUpload_prs _ _ _ hn).trans hs
    · left
      have hb : (u.Role != "Recruiter") = true := by simpa using hrole
      simp only [uploadJobDescription, hb, if_true]
      cases hu : unlinkSync s f.path with
      | error e => rfl
      | ok s1 => exact unlinkSync_prs s s1 _ hu

theorem applyUpdate_prs (s : Db) (now : Nat) (prId : ObjectId) (pr : PeopleRequisition)
    (d : UpdateData) (u : User) :
    (applyUpdate s now prId pr d u).2.prs = s.prs ∨
    ∃ a, EditFrame pr a ∧
      (applyUpdate s now prId pr d u).2.prs = (save s (withModifier a u now)).prs := by
  unfold applyUpdate
  simp only []
  cases ha : assignFields (allowedFieldsFor u.Role) d (d.map (fun e => e.1)) pr with
  | none => left; rfl
  | some a =>
    right
    refine ⟨a, assignFields_frame _ _ _ _ _ ha, ?_⟩
    simp only []
    cases hn : notifyReassignment (save s (withModifier a u now)) prId d pr.RecruiterId with
    | error e => rfl
    | ok s2 =>
      have hp := notifyReassignment_prs _ _ _ _ _ hn
      simp only []
      cases hf : findByIdAndPopulateDetails s2 prId with
      | none => exact hp
      | some r => exact hp

theorem update_effect (s : Db) (now : Nat) (prId : ObjectId) (d : UpdateData) (u : User) :
    StepEffect s (.update now prId d u) := by
  unfold StepEffect
  show (updatePeopleRequisition s now prId d u).2.prs = s.prs ∨ _ ∨ _
  cases hfind : findById s prId with
  | none => left; rw [update_missing s now prId d u hfind]
  | some pr =>
    cases hd : pr.IsDelete with
    | true => left; rw [update_deleted s now prId d u pr hfind hd]
    | false =>
      by_cases ha : pr.HRBPId = u.id ∨ pr.RecruiterId = u.id
      · by_cases hst : pr.Status = "open" ∨ pr.Status = "onhold"
        · rw [update_editable s now prId d u pr hfind hd ha hst]
          cases hk : (d.map (fun e => e.1)).find?
              (fun key => !(allowedFieldsFor u.Role).contains key) with
          | some k => left; rfl
          | none =>
            simp only []
            cases hc1 : checkRecruiterId s d with
            | error e => left; rfl
            | ok _ =>
              simp only []
              cases hc2 : checkDepartmentId s d with
              | error e => left; rfl
              | ok _ =>
                simp only []
                cases hc3 : checkNatureOfEmploymentId s d with
                | error e => left; rfl
                | ok _ =>
                  simp only []
                  rcases applyUpdate_prs s now prId pr d u with h | ⟨a, hfr, h⟩
                  · exact Or.inl h
                  · right; right
                    have hid : pr.id = prId := findById_id hfind
                    refine ⟨pr, withModifier a u now, by rw [hid]; exact hfind,
                      ⟨hid, hd, ha, a, hfr, rfl⟩, ?_⟩
                    show (updatePeopleRequisition s now prId d u).2.prs = _
                    rw [update_editable s now prId d u pr hfind hd ha hst, hk]
                    simp only [hc1, hc2, hc3]
                    exact h
        · left
          have h1 : pr.Status ≠ "open" := fun e => hst (Or.inl e)
          have h2 : pr.Status ≠ "onhold" := fun e => hst (Or.inr e)
          rw [update_locked s now prId d u pr hfind hd ha h1 h2]
      · left
        have h1 : pr.HRBPId ≠ u.id := fun e => ha (Or.inl e)
        have h2 : pr.RecruiterId ≠ u.id := fun e => ha (Or.inr e)
        rw [update_unassigned s now prId d u pr hfind hd h1 h2]

theorem step_effect (s : Db) (op : Op) : StepEffect s op := by
  cases op with
  | create now prData u => exact create_effect s now prData u
  | approve now prId u => exact approve_effect s now prId u
  | update now prId d u => exact update_effect s now prId d u
  | delete now prId u => exact delete_effect s now prId u
  | updateStatus now prId newStatus u => exact updateStatus_effect s now prId newStatus u
  | uploadJobDescription now prId file u => exact upload_effect s now prId file u

theorem EditFrame.id_eq {pr a : PeopleRequisition} (h : EditFrame pr a) : a.id = pr.id := by
  rw [h]

theorem EditFrame.status_eq {pr a : PeopleRequisition} (h : EditFrame pr a) :
    a.Status = pr.Status := by
  rw [h]

theorem EditFrame.approved_eq {pr a : PeopleRequisition} (h : EditFrame pr a) :
    a.IsApprovedByHRBP = pr.IsApprovedByHRBP := by
  rw [h]

/-- What every replacement by an operation preserves. -/
theorem StepChange.facts {op : Op} {pr q : PeopleRequisition} (h : StepChange op pr q) :
    q.id = pr.id ∧ pr.IsDelete = false ∧
    (q.Status = pr.Status ∨ q.Status ∈ statusEnum) ∧
    (q.IsApprovedByHRBP = pr.IsApprovedByHRBP ∨
      (q.IsApprovedByHRBP = true ∧ ∃ now u, op = .approve now pr.id u)) := by
  cases op with
  | create now prData u => exact absurd h id
  | approve now prId u =>
    obtain ⟨h1, h2, -, h4⟩ := h
    subst h4
    exact ⟨rfl, h2, Or.inl rfl, Or.inr ⟨rfl, now, u, by rw [h1]⟩⟩
  | update now prId d u =>
    obtain ⟨-, h2, -, a, hfr, h4⟩ := h
    subst h4
    exact ⟨hfr.id_eq, h2, Or.inl hfr.status_eq, Or.inl hfr.approved_eq⟩
  | delete now prId u =>
    obtain ⟨-, h2, -, h4⟩ := h
    subst h4
    exact ⟨rfl, h2, Or.inl rfl, Or.inl rfl⟩
  | updateStatus now prId newStatus u =>
    obtain ⟨-, h2, -, hv, h4⟩ := h
    subst h4
    exact ⟨rfl, h2, Or.inr (isValidTransition_enum _ _ _ hv), Or.inl rfl⟩
  | uploadJobDescription now prId file u =>
    obtain ⟨-, h2, -, f, -, h4⟩ := h
    subst h4
    exact ⟨rfl, h2, Or.inl rfl, Or.inl rfl⟩

theorem findById_congr {s s' : Db} (h : s'.prs = s.prs) (id : ObjectId) :
    findById s' id = findById s id := by
  unfold findById; rw [h]

theorem findById_mem {s : Db} {id : ObjectId} {pr : PeopleRequisition}
    (h : findById s id = some pr) : pr ∈ s.prs :=
  List.mem_of_find?_eq_some h

/-- Where a stored requisition is after one operation: unchanged, or replaced as the
operation describes. -/
theorem step_findById (s : Db) (op : Op) (prId : ObjectId) (pr : PeopleRequisition)
    (h : findById s prId = some pr) :
    findById (step s op) prId = some pr ∨
    ∃ q, StepChange op pr q ∧ findById (step s op) prId = some q := by
  rcases step_effect s op with hsame | ⟨doc, -, happ, -⟩ | ⟨pr0, q, hf0, hch, hsave⟩
  · left; rw [findById_congr hsame, h]
  · left
    unfold findById at h ⊢
    rw [happ, List.find?_append, h]; rfl
  · have hq : q.id = pr0.id := hch.facts.1
    by_cases hid : pr0.id = prId
    · right
      rw [hid] at hf0
      rw [h] at hf0
      cases hf0
      refine ⟨q, hch, ?_⟩
      rw [findById_congr hsave]
      exact findById_save h (hq.trans hid)
    · left
      rw [findById_congr hsave, findById_save_other (by rw [hq]; exact hid), h]

/-- C11. The approval flag is monotonic: a stored requisition with `IsApprovedByHRBP` true
is still stored with the flag true after any engine operation (create, approve, update,
delete, updateStatus, uploadJobDescription) with any arguments and any requester, and after
any sequence of them; and when an operation turns the flag of a stored requisition from
false to true, the operation is `approvePeopleRequisition` on that requisition. -/
theorem approval_flag_monotonic :
    (∀ (s : Db) (op : Op) (prId : ObjectId) (pr : PeopleRequisition),
      findById s prId = some pr → pr.IsApprovedByHRBP = true →
      ∃ q, findById (step s op) prId = some q ∧ q.IsApprovedByHRBP = true) ∧
    (∀ (ops : List Op) (s : Db) (prId : ObjectId) (pr : PeopleRequisition),
      findById s prId = some pr → pr.IsApprovedByHRBP = true →
      ∃ q, findById (run s ops) prId = some q ∧ q.IsApprovedByHRBP = true) ∧
    (∀ (s : Db) (op : Op) (prId : ObjectId) (pr q : PeopleRequisition),
      findById s prId = some pr → pr.IsApprovedByHRBP = false →
      findById (step s op) prId = some q → q.IsApprovedByHRBP = true →
      ∃ now u, op = .approve now prId u) := by
  have hstep : ∀ (s : Db) (op : Op) (prId : ObjectId) (pr : PeopleRequisition),
      findById s prId = some pr → pr.IsApprovedByHRBP = true →
      ∃ q, findById (step s op) prId = some q ∧ q.IsApprovedByHRBP = true := by
    intro s op prId pr h ha
    rcases step_findById s op prId pr h with h1 | ⟨q, hch, h1⟩
    · exact ⟨pr, h1, ha⟩
    · refine ⟨q, h1, ?_⟩
      rcases hch.facts.2.2.2 with e | ⟨e, -⟩
      · rw [e, ha]
      · exact e
  refine ⟨hstep, ?_, ?_⟩
  · intro ops
    induction ops with
    | nil => intro s prId pr h ha; exact ⟨pr, h, ha⟩
    | cons op rest ih =>
      intro s prId pr h ha
      obtain ⟨q, hq, hqa⟩ := hstep s op prId pr h ha
      exact ih (step s op) prId q hq hqa
  · intro s op prId pr q h ha hq hqa
    rcases step_findById s op prId pr h with h1 | ⟨q1, hch, h1⟩
    · rw [h1] at hq
      cases hq
      rw [ha] at hqa; cases hqa
    · rw [h1] at hq
      cases hq
      rcases hch.facts.2.2.2 with e | ⟨-, now, u, e⟩
      · rw [e, ha] at hqa; cases hqa
      · exact ⟨now, u, by rw [e, findById_id h]⟩

/-- C11, exercised: the approved requisition of `storeApproved` keeps its flag through an
update of its PRF number, a status change and an upload. -/
theorem approval_flag_monotonic_witness :
    ∃ q, findById (run storeApproved
        [.update 200 1 [("PRFNumber", .str "P-1")] hrbpUser,
          .updateStatus 300 1 "inprogress" recruiterUser,
          .uploadJobDescription 400 1 (some ⟨"jd.pdf", "uploads/jd-1.pdf"⟩) recruiterUser])
        1 = some q ∧ q.IsApprovedByHRBP = true :=
  approval_flag_monotonic.2.1 _ storeApproved 1 (withApproval openPR hrbpUser 150)
    (by decide) (by decide)

/-- C12. In every state reached from a store without requisitions by any sequence of engine
operations with arbitrary arguments (any new status string, any update payload), the status
of every stored requisition is one of open, inprogress, onhold, completed, closed. -/
theorem status_always_in_enum (s0 : Db) (ops : List Op) (h0 : s0.prs = []) :
    ∀ p ∈ (run s0 ops).prs,
      p.Status ∈ ["open", "inprogress", "onhold", "completed", "closed"] := by
  have hstep : ∀ (s : Db) (op : Op), (∀ p ∈ s.prs, p.Status ∈ statusEnum) →
      ∀ p ∈ (step s op).prs, p.Status ∈ statusEnum := by
    intro s op hinv p hp
    rcases step_effect s op with hsame | ⟨doc, -, happ, hdoc, -⟩ | ⟨pr0, q, hf0, hch, hsave⟩
    · rw [hsame] at hp; exact hinv p hp
    · rw [happ] at hp
      rcases List.mem_append.1 hp with h | h
      · exact hinv p h
      · rw [List.mem_singleton] at h
        rw [h, hdoc]; decide
    · rw [hsave] at hp
      simp only [save, List.mem_map] at hp
      obtain ⟨x, hx, hxp⟩ := hp
      split at hxp
      · rw [← hxp]
        rcases hch.facts.2.2.1 with e | e
        · rw [e]; exact hinv pr0 (findById_mem hf0)
        · exact e
      · rw [← hxp]; exact hinv x hx
  have hrun : ∀ (ops : List Op) (s : Db), (∀ p ∈ s.prs, p.Status ∈ statusEnum) →
      ∀ p ∈ (run s ops).prs, p.Status ∈ statusEnum := by
    intro ops
    induction ops with
    | nil => intro s hinv; exact hinv
    | cons op rest ih => intro s hinv; exact ih (step s op) (hstep s op hinv)
  exact hrun ops s0 (by rw [h0]; intro p hp; exact absurd hp (List.not_mem_nil _))

/-- C12, exercised: after a creation, a status change to a string outside the enum and an
update that submits a `Status`, the stored requisition still has a status of the enum. -/
theorem status_always_in_enum_witness :
    emptyStore.prs = [] ∧
    openPR ∈ (run emptyStore
        [.create 100 sseRequest hrbpUser, .updateStatus 200 1 "archived" hrbpUser,
          .update 300 1 [("Status", .str "archived")] hrbpUser]).prs ∧
    openPR.Status ∈ ["open", "inprogress", "onhold", "completed", "closed"] :=
  ⟨by decide, by decide,
    status_always_in_enum emptyStore
      [.create 100 sseRequest hrbpUser, .updateStatus 200 1 "archived" hrbpUser,
        .update 300 1 [("Status", .str "archived")] hrbpUser] (by decide) openPR
      (by decide)⟩

/-! ## Pagination -/

theorem parseIntOr_fallback (param : Option String) (fallback : Int)
    (h : param = none ∨ ∃ text, param = some text ∧
      (parseInt text = none ∨ parseInt text = some 0)) :
    parseIntOr param fallback = fallback := by
  rcases h with rfl | ⟨text, rfl, h | h⟩
  · rfl
  · simp [parseIntOr, h]
  · simp [parseIntOr, h]

theorem parseIntOr_value (text : String) (fallback n : Int) (h : parseInt text = some n)
    (hn : n ≠ 0) : parseIntOr (some text) fallback = n := by
  simp [parseIntOr, h, hn]

theorem ceilDiv_least (total : Nat) (limit : Int) (h : 1 ≤ limit) :
    0 ≤ ceilDiv total limit ∧ (total : Int) ≤ ceilDiv total limit * limit ∧
    ∀ n : Nat, (total : Int) ≤ n * limit → ceilDiv total limit ≤ n := by
  have hl : 0 ≤ limit := by omega
  have hpos : 0 < limit := by omega
  unfold ceilDiv
  rw [Int.fdiv_eq_ediv _ hl]
  have h1 := Int.emod_add_ediv (-(total : Int)) limit
  have h2 := Int.emod_nonneg (-(total : Int)) (by omega : limit ≠ 0)
  have h3 := Int.emod_lt_of_pos (-(total : Int)) hpos
  generalize (-(total : Int)) / limit = q at *
  generalize (-(total : Int)) % limit = r at *
  refine ⟨?_, ?_, ?_⟩
  · by_contra hc
    have : 1 ≤ q := by omega
    nlinarith
  · nlinarith
  · intro n hn
    by_contra hc
    have : (n : Int) + 1 ≤ -q := by omega
    nlinarith

theorem ceilDiv_of_zero (limit : Int) : ceilDiv 0 limit = 0 := by
  simp [ceilDiv]

theorem findAll_total (regex : String → Option (String → Bool))
    (le : String → Int → PeopleRequisition → PeopleRequisition → Bool)
    (s : Db) (f : Filters) (sortBy : String) (orderBy page limit : Int)
    (results : List PopulatedPR) (total : Nat)
    (h : findAllPeopleRequisition regex le s f sortBy orderBy page limit =
      .ok (results, total)) :
    total = matchingCount regex s f := by
  unfold findAllPeopleRequisition at h
  unfold matchingCount departmentCondition codeCondition
  cases hd : f.DepartmentId with
  | none =>
    cases hj : f.JobCode with
    | none =>
      simp only [hd, hj] at h
      split at h
      · simp at h
      · simp only [Except.ok.injEq, Prod.mk.injEq] at h
        simpa using h.2.symm
    | some pattern =>
      cases hr : regex pattern with
      | none => simp [hd, hj, hr] at h
      | some test =>
        simp only [hd, hj, hr, Option.map] at h
        split at h
        · simp at h
        · simp only [Except.ok.injEq, Prod.mk.injEq] at h
          simpa [hr] using h.2.symm
  | some v =>
    cases hc : castToObjectId v with
    | none => simp [hd, hc] at h
    | some id =>
      cases hj : f.JobCode with
      | none =>
        simp only [hd, hc, hj, Option.map] at h
        split at h
        · simp at h
        · simp only [Except.ok.injEq, Prod.mk.injEq] at h
          simpa [hc] using h.2.symm
      | some pattern =>
        cases hr : regex pattern with
        | none => simp [hd, hc, hj, hr] at h
        | some test =>
          simp only [hd, hc, hj, hr, Option.map] at h
          split at h
          · simp at h
          · simp only [Except.ok.injEq, Prod.mk.injEq] at h
            simpa [hr, hc] using h.2.symm

theorem getAll_ok (regex : String → Option (String → Bool))
    (le : String → Int → PeopleRequisition → PeopleRequisition → Bool)
    (s : Db) (q : QueryParams) (u : User) (res : PageResult) (s' : Db)
    (h : getAllPeopleRequisitions regex le s q u = (.ok res, s')) :
    res.pagination.page = parseIntOr q.page 1 ∧
    res.pagination.limit = parseIntOr q.limit 10 ∧
    res.pagination.total = matchingCount regex s (buildFilters q u) ∧
    res.pagination.totalPages = ceilDiv res.pagination.total res.pagination.limit := by
  unfold getAllPeopleRequisitions at h
  simp only [] at h
  split at h
  · simp at h
  · split at h
    · simp at h
    · rename_i results total hfa
      simp only [Prod.mk.injEq, Except.ok.injEq] at h
      obtain ⟨h1, -⟩ := h
      have ht := findAll_total regex le s _ _ _ _ _ _ _ hfa
      subst h1
      exact ⟨rfl, rfl, ht, rfl⟩

theorem getAll_badPageQuery :
    getAllPeopleRequisitions (fun _ => some (fun _ => true)) (fun _ _ _ _ => true)
        storeApproved badPageQuery hrbpUser =
      (.ok ⟨storeApproved.prs.map (populateDetails storeApproved), ⟨1, 10, 1, 1⟩⟩,
        storeApproved) := by
  have hp : parseIntOr badPageQuery.page 1 = 1 := by decide
  have hl : parseIntOr badPageQuery.limit 10 = 10 := by decide
  have hf : buildFilters badPageQuery hrbpUser = ⟨false, none, none, none, none, none⟩ := by
    decide
  have hm : [withApproval openPR hrbpUser 150].filter
      (matchesFilters ⟨false, none, none, none, none, none⟩ none none) =
      [withApproval openPR hrbpUser 150] := by decide
  have hr : hrbpUser.Role = "HRBP" := rfl
  have hc : ceilDiv 1 10 = 1 := by decide
  have hprs : storeApproved.prs = [withApproval openPR hrbpUser 150] := rfl
  unfold getAllPeopleRequisitions findAllPeopleRequisition
  simp only [hp, hl, hf, hr, hprs, hm]
  simp [hc]

/-- C21. In every result of `getAllPeopleRequisitions` the page is `parseInt(page) || 1` and
the limit is `parseInt(limit) || 10`, and such a value is the default whenever the parameter
is absent, is not a number for `parseInt`, or parses to zero.  The returned total is the
number of stored requisitions that satisfy the filter built from the requester and the
query, whatever page and limit the query carries.  The returned totalPages is
`Math.ceil(total / limit)`; for a limit of at least 1 it is the least natural number whose
product with the limit reaches the total, and it is 0 for the total 0. -/
theorem getAllPeopleRequisitions_pagination (regex : String → Option (String → Bool))
    (le : String → Int → PeopleRequisition → PeopleRequisition → Bool)
    (s : Db) (queryParams : QueryParams) (requester : User) :
    (∀ res s', getAllPeopleRequisitions regex le s queryParams requester = (.ok res, s') →
      res.pagination.page = parseIntOr queryParams.page 1 ∧
      res.pagination.limit = parseIntOr queryParams.limit 10 ∧
      res.pagination.total = matchingCount regex s (buildFilters queryParams requester) ∧
      (1 ≤ res.pagination.limit →
        0 ≤ res.pagination.totalPages ∧
        (res.pagination.total : Int) ≤ res.pagination.totalPages * res.pagination.limit ∧
        ∀ n : Nat, (res.pagination.total : Int) ≤ n * res.pagination.limit →
          res.pagination.totalPages ≤ n) ∧
      (res.pagination.total = 0 → res.pagination.totalPages = 0)) ∧
    (∀ (param : Option String) (fallback : Int),
      (param = none ∨ ∃ text, param = some text ∧
        (parseInt text = none ∨ parseInt text = some 0)) →
      parseIntOr param fallback = fallback) ∧
    (∀ page limit res s',
      getAllPeopleRequisitions regex le s { queryParams with page := page, limit := limit }
        requester = (.ok res, s') →
      res.pagination.total = matchingCount regex s (buildFilters queryParams requester)) := by
  refine ⟨fun res s' h => ?_, parseIntOr_fallback, fun page limit res s' h => ?_⟩
  · obtain ⟨h1, h2, h3, h4⟩ := getAll_ok regex le s queryParams requester res s' h
    refine ⟨h1, h2, h3, fun hl => ?_, fun h0 => ?_⟩
    · rw [h4]
      exact ceilDiv_least _ _ hl
    · rw [h4, h0]
      exact ceilDiv_of_zero _
  · exact (getAll_ok regex le s _ requester res s' h).2.2.1

/-- C21, exercised on the store with one approved requisition and the query
`page=abc&limit=0` of the HRBP: page 1, limit 10, total 1 and one page; and the values
"abc", "0" and an absent parameter give the default. -/
theorem getAllPeopleRequisitions_pagination_witness :
    matchingCount (fun _ => some (fun _ => true)) storeApproved
        (buildFilters badPageQuery hrbpUser) = 1 ∧
      parseIntOr badPageQuery.page 1 = 1 ∧ parseIntOr badPageQuery.limit 10 = 10 ∧
      parseIntOr none 10 = 10 ∧
      (0 : Int) ≤ 1 ∧ ((1 : Nat) : Int) ≤ 1 * 10 ∧
      (((1 : Nat) : Int) ≤ ((1 : Nat) : Int) * 10 → (1 : Int) ≤ ((1 : Nat) : Int)) :=
  have h := (getAllPeopleRequisitions_pagination (fun _ => some (fun _ => true))
    (fun _ _ _ _ => true) storeApproved badPageQuery hrbpUser).1 _ _ getAll_badPageQuery
  have d := getAllPeopleRequisitions_pagination (fun _ => some (fun _ => true))
    (fun _ _ _ _ => true) storeApproved badPageQuery hrbpUser
  ⟨h.2.2.1.symm, h.1.symm, h.2.1.symm, d.2.1 none 10 (Or.inl rfl),
    (h.2.2.2.1 (by decide)).1, (h.2.2.2.1 (by decide)).2.1,
    (h.2.2.2.1 (by decide)).2.2 1⟩

/-! ## Job-description attachment -/

theorem notifyUpload_cases (s : Db) (prId : ObjectId) :
    notifyUpload s prId = .ok s ∨ (∃ m, notifyUpload s prId = .ok (sendEmail s m)) ∨
    notifyUpload s prId = .error ⟨"TypeError: Cannot read properties of null", 500⟩ := by
  unfold notifyUpload
  cases hf : findByIdAndPopulateDetails s prId with
  | none => left; rfl
  | some pp =>
    cases h1 : pp.HRBP <;> cases h2 : pp.Job <;> simp only [h1, h2]
    · right; right; trivial
    · right; right; trivial
    · right; right; trivial
    · right; left; exact ⟨_, rfl⟩

theorem removeOldFile_files (s : Db) (pr : PeopleRequisition) (p1 : String)
    (h : pr.JdFilePath = some p1) (hp1 : p1 ≠ "") :
    (removeOldFile s pr).files = s.files.filter (fun f => f != p1) := by
  unfold removeOldFile
  simp only [h]
  have hb : (p1 != "") = true := by simpa using hp1
  by_cases hc : p1 ∈ s.files
  · have hc2 : s.files.contains p1 = true := by simpa using hc
    simp only [hb, hc2, Bool.and_self, if_true]
  · have hc2 : s.files.contains p1 = false := by simpa using hc
    simp only [hb, hc2, Bool.and_false, Bool.false_eq_true, if_false]
    symm
    rw [List.filter_eq_self]
    intro f hf
    have : f ≠ p1 := by
      intro e
      subst e
      exact hc hf
    simpa using this

theorem removeOldFile_shape (s : Db) (pr : PeopleRequisition) :
    removeOldFile s pr = { s with files := (removeOldFile s pr).files } := by
  unfold removeOldFile
  split
  · rfl
  · split <;> rfl

theorem upload_noFile (s : Db) (now : Nat) (prId : ObjectId) (u : User) :
    uploadJobDescription s now prId none u = (.error ⟨"No file was uploaded.", 400⟩, s) :=
  rfl

theorem unlinkSync_stored (s : Db) (path : String) (h : path ∈ s.files) :
    unlinkSync s path = .ok (withoutFile s path) := by
  have hc : s.files.contains path = true := by simpa using h
  simp only [unlinkSync, hc, if_true, withoutFile]

theorem upload_forbidden (s : Db) (now : Nat) (prId : ObjectId) (f : UploadedFile) (u : User)
    (hrole : u.Role ≠ "Recruiter") (hstored : f.path ∈ s.files) :
    uploadJobDescription s now prId (some f) u =
      (.error ⟨"You do not have permission to perform this action.", 403⟩,
        withoutFile s f.path) := by
  have hb : (u.Role != "Recruiter") = true := by simpa using hrole
  simp only [uploadJobDescription, hb, if_true, unlinkSync_stored s f.path hstored]

theorem upload_missing (s : Db) (now : Nat) (prId : ObjectId) (f : UploadedFile) (u : User)
    (hrole : u.Role = "Recruiter") (hstored : f.path ∈ s.files)
    (hfind : findById s prId = none) :
    uploadJobDescription s now prId (some f) u =
      (.error ⟨"People Requisition not found.", 404⟩, withoutFile s f.path) := by
  simp only [uploadJobDescription, hrole, bne_self_eq_false, Bool.false_eq_true, if_false,
    hfind, unlinkSync_stored s f.path hstored]

theorem upload_deleted (s : Db) (now : Nat) (prId : ObjectId) (f : UploadedFile) (u : User)
    (pr : PeopleRequisition) (hrole : u.Role = "Recruiter") (hstored : f.path ∈ s.files)
    (hfind : findById s prId = some pr) (hd : pr.IsDelete = true) :
    uploadJobDescription s now prId (some f) u =
      (.error ⟨"People Requisition not found or has been deleted.", 404⟩,
        withoutFile s f.path) := by
  simp only [uploadJobDescription, hrole, bne_self_eq_false, Bool.false_eq_true, if_false,
    hfind, hd, if_true, unlinkSync_stored s f.path hstored]

theorem upload_live (s : Db) (now : Nat) (prId : ObjectId) (f : UploadedFile) (u : User)
    (pr : PeopleRequisition) (hrole : u.Role = "Recruiter")
    (hfind : findById s prId = some pr) (hd : pr.IsDelete = false) :
    uploadJobDescription s now prId (some f) u =
      match notifyUpload (save (removeOldFile s pr) (withJobDescriptionFile pr f u now))
        prId with
      | .error e => (.error e, save (removeOldFile s pr) (withJobDescriptionFile pr f u now))
      | .ok s3 => (.ok (), s3) := by
  simp only [uploadJobDescription, hrole, bne_self_eq_false, Bool.false_eq_true, if_false,
    hfind, hd]

theorem notifyUpload_map_congr (a b : Db) (prId : ObjectId) (h1 : a.prs = b.prs)
    (h2 : a.users = b.users) (h3 : a.jobPositions = b.jobPositions) :
    (notifyUpload a prId).map (fun _ => ()) = (notifyUpload b prId).map (fun _ => ()) := by
  simp only [notifyUpload, findByIdAndPopulateDetails, findById, h1]
  cases b.prs.find? (fun p => p.id == prId) with
  | none => rfl
  | some p =>
    simp only [Option.map_some']
    have hH : (populateDetails a p).HRBP = (populateDetails b p).HRBP := by
      simp only [populateDetails, findUserById, h2]
    have hJ : (populateDetails a p).Job = (populateDetails b p).Job := by
      simp only [populateDetails, findJobPositionById, h3]
    rw [hH, hJ]
    cases (populateDetails b p).HRBP <;> cases (populateDetails b p).Job <;> rfl

theorem upload_live_fst (s : Db) (now : Nat) (prId : ObjectId) (f : UploadedFile) (u : User)
    (pr : PeopleRequisition) (hrole : u.Role = "Recruiter")
    (hfind : findById s prId = some pr) (hd : pr.IsDelete = false) :
    (uploadJobDescription s now prId (some f) u).1 =
      (notifyUpload (save (removeOldFile s pr) (withJobDescriptionFile pr f u now))
        prId).map (fun _ => ()) := by
  rw [upload_live s now prId f u pr hrole hfind hd]
  cases notifyUpload (save (removeOldFile s pr) (withJobDescriptionFile pr f u now)) prId <;>
    rfl

theorem upload_live_state (s : Db) (now : Nat) (prId : ObjectId) (f : UploadedFile)
    (u : User) (pr : PeopleRequisition) (hrole : u.Role = "Recruiter")
    (hfind : findById s prId = some pr) (hd : pr.IsDelete = false) :
    (uploadJobDescription s now prId (some f) u).2 =
        save (removeOldFile s pr) (withJobDescriptionFile pr f u now) ∨
    ∃ m, (uploadJobDescription s now prId (some f) u).2 =
        sendEmail (save (removeOldFile s pr) (withJobDescriptionFile pr f u now)) m := by
  rw [upload_live s now prId f u pr hrole hfind hd]
  rcases notifyUpload_cases (save (removeOldFile s pr) (withJobDescriptionFile pr f u now))
    prId with h | ⟨m, h⟩ | h <;> rw [h]
  · left; rfl
  · right; exact ⟨m, rfl⟩
  · left; rfl

theorem upload_live_ok (s : Db) (now : Nat) (prId : ObjectId) (f : UploadedFile)
    (u : User) (pr : PeopleRequisition) (hrole : u.Role = "Recruiter")
    (hfind : findById s prId = some pr) (hd : pr.IsDelete = false)
    (hrefs : refsResolve s pr = true) :
    (uploadJobDescription s now prId (some f) u).1 = .ok () := by
  rw [upload_live_fst s now prId f u pr hrole hfind hd]
  have hid0 : pr.id = prId := findById_id hfind
  have hid : (withJobDescriptionFile pr f u now).id = prId := hid0
  have hfind1 : findById (removeOldFile s pr) prId = some pr := by
    rw [removeOldFile_findById]; exact hfind
  have hsave := findById_save (q := withJobDescriptionFile pr f u now) hfind1 hid
  simp only [refsResolve, Bool.and_eq_true, Option.isSome_iff_exists] at hrefs
  obtain ⟨⟨⟨-, ⟨h, h1⟩⟩, ⟨j, h3⟩⟩, -⟩ := hrefs
  have hu : findUserById (save (removeOldFile s pr) (withJobDescriptionFile pr f u now))
      pr.HRBPId = some h := by
    rw [removeOldFile_shape]; exact h1
  have hj : findJobPositionById
      (save (removeOldFile s pr) (withJobDescriptionFile pr f u now)) pr.JobId = some j := by
    rw [removeOldFile_shape]; exact h3
  have hH : (withJobDescriptionFile pr f u now).HRBPId = pr.HRBPId := rfl
  have hJ : (withJobDescriptionFile pr f u now).JobId = pr.JobId := rfl
  simp only [notifyUpload, findByIdAndPopulateDetails, hsave, Option.map_some',
    populateDetails, hH, hJ, hu, hj]
  rfl

/-- C22. A Recruiter uploads the file stored at `file.path` for a non-deleted requisition
that has a job description at the path `p1` (a non-empty path other than `file.path`).
Afterwards the file store is the old one without `p1`, so it does not contain `p1` and
still contains the new file; the stored requisition has the new original name and path and
differs from the old one in no field other than JdFileName, JdFilePath, JdUploadedOn,
ModifiedBy and ModifiedOn.  The result of the call is the same for every content of the
file store, so nothing that happens while the old file is removed fails the upload, and the
call succeeds when the references of the requisition resolve. -/
theorem uploadJobDescription_replaces_file (s : Db) (now : Nat) (prId : ObjectId)
    (file : UploadedFile) (user : User) (pr : PeopleRequisition) (p1 : String)
    (hfind : findById s prId = some pr) (hlive : pr.IsDelete = false)
    (hold : pr.JdFilePath = some p1) (hp1 : p1 ≠ "") (hrole : user.Role = "Recruiter")
    (hstored : file.path ∈ s.files) (hne : file.path ≠ p1) :
    (uploadJobDescription s now prId (some file) user).2.files =
      s.files.filter (fun f => f != p1) ∧
    p1 ∉ (uploadJobDescription s now prId (some file) user).2.files ∧
    file.path ∈ (uploadJobDescription s now prId (some file) user).2.files ∧
    (∃ q, findById (uploadJobDescription s now prId (some file) user).2 prId = some q ∧
      q.JdFileName = some file.originalname ∧ q.JdFilePath = some file.path ∧
      restoreJdFields q pr = pr) ∧
    (∀ files, (uploadJobDescription { s with files := files } now prId (some file) user).1 =
      (uploadJobDescription s now prId (some file) user).1) ∧
    (refsResolve s pr = true →
      (uploadJobDescription s now prId (some file) user).1 = .ok ()) := by
  have hid0 : pr.id = prId := findById_id hfind
  have hid : (withJobDescriptionFile pr file user now).id = prId := hid0
  have hfind1 : findById (removeOldFile s pr) prId = some pr := by
    rw [removeOldFile_findById]; exact hfind
  have hsave := findById_save (q := withJobDescriptionFile pr file user now) hfind1 hid
  have hfiles : (uploadJobDescription s now prId (some file) user).2.files =
      s.files.filter (fun f => f != p1) := by
    rcases upload_live_state s now prId file user pr hrole hfind hlive with h | ⟨m, h⟩ <;>
      rw [h] <;> exact removeOldFile_files s pr p1 hold hp1
  have hq : findById (uploadJobDescription s now prId (some file) user).2 prId =
      some (withJobDescriptionFile pr file user now) := by
    rcases upload_live_state s now prId file user pr hrole hfind hlive with h | ⟨m, h⟩ <;>
      rw [h] <;> exact hsave
  refine ⟨hfiles, ?_, ?_, ⟨_, hq, rfl, rfl, rfl⟩, fun files => ?_,
    upload_live_ok s now prId file user pr hrole hfind hlive⟩
  · rw [hfiles]
    simp
  · rw [hfiles]
    simp only [List.mem_filter]
    exact ⟨hstored, by simpa using hne⟩
  · rw [upload_live_fst s now prId file user pr hrole hfind hlive,
      upload_live_fst { s with files := files } now prId file user pr hrole hfind hlive]
    apply notifyUpload_map_congr
    · simp only [save, removeOldFile_prs]
    · rw [removeOldFile_shape s pr, removeOldFile_shape { s with files := files } pr]
      rfl
    · rw [removeOldFile_shape s pr, removeOldFile_shape { s with files := files } pr]
      rfl

/-- C22, exercised: recruiter 2 replaces the job description "uploads/jd-1.pdf" of
requisition 1 by the upload stored at "uploads/jd-2.pdf". -/
theorem uploadJobDescription_replaces_file_witness :
    "uploads/jd-1.pdf" ∉
      (uploadJobDescription storeWithJd 300 1 (some secondUpload) recruiterUser).2.files ∧
    "uploads/jd-2.pdf" ∈
      (uploadJobDescription storeWithJd 300 1 (some secondUpload) recruiterUser).2.files ∧
    (uploadJobDescription storeWithJd 300 1 (some secondUpload) recruiterUser).1 = .ok () :=
  have h := uploadJobDescription_replaces_file storeWithJd 300 1 secondUpload recruiterUser
    prWithJd "uploads/jd-1.pdf" (by decide) (by decide) (by decide) (by decide) (by decide)
    (by decide) (by decide)
  ⟨h.2.1, h.2.2.1, h.2.2.2.2.2 (by decide)⟩

/-- C23. `uploadJobDescription` fails with 400 when no file is supplied.  With a file that
multer stored at `file.path`, it fails with 403 when the role of the requester is not
Recruiter and with 404 when the requester is a Recruiter and the requisition is missing or
soft-deleted; after each of these rejections the database is the old one without the file at
`file.path`, so the upload is gone, every other file is kept, and the requisitions and the
mail outbox are unchanged. -/
theorem uploadJobDescription_rejections (s : Db) (now : Nat) (prId : ObjectId)
    (user : User) :
    uploadJobDescription s now prId none user = (.error ⟨"No file was uploaded.", 400⟩, s) ∧
    (∀ file : UploadedFile, file.path ∈ s.files →
      (user.Role ≠ "Recruiter" →
        uploadJobDescription s now prId (some file) user =
          (.error ⟨"You do not have permission to perform this action.", 403⟩,
            withoutFile s file.path)) ∧
      (user.Role = "Recruiter" → findById s prId = none →
        uploadJobDescription s now prId (some file) user =
          (.error ⟨"People Requisition not found.", 404⟩, withoutFile s file.path)) ∧
      (user.Role = "Recruiter" → ∀ pr, findById s prId = some pr → pr.IsDelete = true →
        uploadJobDescription s now prId (some file) user =
          (.error ⟨"People Requisition not found or has been deleted.", 404⟩,
            withoutFile s file.path))) ∧
    (∀ path : String,
      path ∉ (withoutFile s path).files ∧
      (∀ f, f ≠ path → (f ∈ (withoutFile s path).files ↔ f ∈ s.files)) ∧
      (withoutFile s path).prs = s.prs ∧ (withoutFile s path).outbox = s.outbox) := by
  refine ⟨rfl, fun file hstored => ⟨fun hrole => ?_, fun hrole hfind => ?_,
    fun hrole pr hfind hd => ?_⟩, fun path => ⟨?_, fun f hf => ?_, rfl, rfl⟩⟩
  · exact upload_forbidden s now prId file user hrole hstored
  · exact upload_missing s now prId file user hrole hstored hfind
  · exact upload_deleted s now prId file user pr hrole hstored hfind hd
  · simp [withoutFile]
  · simp only [withoutFile, List.mem_filter]
    constructor
    · exact fun h => h.1
    · exact fun h => ⟨h, by simpa using hf⟩

/-- C23, exercised on the store with one job description and a second upload just stored:
the HRBP is refused with 403, the recruiter gets 404 for the unknown requisition 99, and
both times the new upload is removed while the attached file stays. -/
theorem uploadJobDescription_rejections_witness :
    uploadJobDescription storeWithJd 300 1 (some secondUpload) hrbpUser =
      (.error ⟨"You do not have permission to perform this action.", 403⟩,
        { storeWithJd with files := ["uploads/jd-1.pdf"] }) ∧
    uploadJobDescription storeWithJd 300 99 (some secondUpload) recruiterUser =
      (.error ⟨"People Requisition not found.", 404⟩,
        { storeWithJd with files := ["uploads/jd-1.pdf"] }) :=
  ⟨((uploadJobDescription_rejections storeWithJd 300 1 hrbpUser).2.1 secondUpload
      (by decide)).1 (by decide),
    ((uploadJobDescription_rejections storeWithJd 300 99 recruiterUser).2.1 secondUpload
      (by decide)).2.1 (by decide) (by decide)⟩

/-! ## Soft-deleted requisitions -/

theorem updateStatus_deleted (s : Db) (now : Nat) (prId : ObjectId) (newStatus : String)
    (u : User) (pr : PeopleRequisition) (h : findById s prId = some pr)
    (hd : pr.IsDelete = true) :
    updatePeopleRequisitionStatus s now prId newStatus u =
      (.error ⟨"People Requisition not found.", 404⟩, s) := by
  simp [updatePeopleRequisitionStatus, h, hd]

theorem delete_deleted (s : Db) (now : Nat) (prId : ObjectId) (u : User)
    (pr : PeopleRequisition) (h : findById s prId = some pr) (hd : pr.IsDelete = true) :
    deletePeopleRequisition s now prId u =
      (.error ⟨"This People Requisition has already been deleted.", 409⟩, s) := by
  simp [deletePeopleRequisition, h, hd]

theorem getById_deleted (s : Db) (prId : ObjectId) (u : User) (pr : PeopleRequisition)
    (h : findById s prId = some pr) (hd : pr.IsDelete = true) :
    getPeopleRequisitionById s prId u =
      (.error ⟨"People Requisition not found.", 404⟩, s) := by
  simp [getPeopleRequisitionById, findByIdAndPopulateDetails, h, populateDetails, hd]

theorem download_deleted (s : Db) (prId : ObjectId) (u : User) (pr : PeopleRequisition)
    (h : findById s prId = some pr) (hd : pr.IsDelete = true) :
    downloadJobDescription s prId u =
      (.error ⟨"Job description not found for this requisition.", 404⟩, s) := by
  unfold downloadJobDescription
  simp only [h]
  cases pr.JdFilePath with
  | none => rfl
  | some p => simp [hd]

theorem unlinkSync_absent (s : Db) (path : String) (h : path ∉ s.files) :
    unlinkSync s path = .error ⟨"ENOENT: no such file or directory", 500⟩ := by
  have hc : s.files.contains path = false := by simpa using h
  simp only [unlinkSync, hc, Bool.false_eq_true, if_false]

theorem upload_deleted_fails (s : Db) (now : Nat) (prId : ObjectId)
    (file : Option UploadedFile) (u : User) (pr : PeopleRequisition)
    (h : findById s prId = some pr) (hd : pr.IsDelete = true) :
    ∃ e, (uploadJobDescription s now prId file u).1 = .error e ∧
      e.statusCode ∈ [400, 403, 404, 500] := by
  cases file with
  | none => exact ⟨_, rfl, by simp⟩
  | some f =>
    by_cases hstored : f.path ∈ s.files
    · by_cases hrole : u.Role = "Recruiter"
      · rw [upload_deleted s now prId f u pr hrole hstored h hd]
        exact ⟨_, rfl, by simp⟩
      · rw [upload_forbidden s now prId f u hrole hstored]
        exact ⟨_, rfl, by simp⟩
    · by_cases hrole : u.Role = "Recruiter"
      · simp only [uploadJobDescription, hrole, bne_self_eq_false, Bool.false_eq_true,
          if_false, h, hd, if_true, unlinkSync_absent s f.path hstored]
        exact ⟨_, rfl, by simp⟩
      · have hb : (u.Role != "Recruiter") = true := by simpa using hrole
        simp only [uploadJobDescription, hb, if_true, unlinkSync_absent s f.path hstored]
        exact ⟨_, rfl, by simp⟩

theorem step_deleted (s : Db) (op : Op) (prId : ObjectId) (pr : PeopleRequisition)
    (h : findById s prId = some pr) (hd : pr.IsDelete = true) :
    findById (step s op) prId = some pr := by
  rcases step_findById s op prId pr h with h1 | ⟨q, hch, -⟩
  · exact h1
  · have := hch.facts.2.1
    rw [hd] at this
    cases this

theorem run_deleted (ops : List Op) (s : Db) (prId : ObjectId) (pr : PeopleRequisition)
    (h : findById s prId = some pr) (hd : pr.IsDelete = true) :
    findById (run s ops) prId = some pr := by
  induction ops generalizing s with
  | nil => exact h
  | cons op rest ih => exact ih (step s op) (step_deleted s op prId pr h hd)

/-- C28. A soft-deleted requisition is frozen.  Addressed to it, approve, update and delete
fail with 409 and updateStatus fails with 404, the database being unchanged, and
uploadJobDescription fails (400 without a file, 403 or 404 with one, 500 when the upload it
has to remove is not in the file store); getPeopleRequisitionById and
downloadJobDescription fail with 404.  After any engine operation with any arguments and any
requester, and after any sequence of them, the requisition is stored exactly as before, so
`IsDelete` stays true. -/
theorem deleted_requisition_frozen (s : Db) (prId : ObjectId) (pr : PeopleRequisition)
    (h : findById s prId = some pr) (hd : pr.IsDelete = true) :
    (∀ now u, approvePeopleRequisition s now prId u =
      (.error ⟨"This People Requisition has been deleted and cannot be approved.", 409⟩,
        s)) ∧
    (∀ now d u, updatePeopleRequisition s now prId d u =
      (.error ⟨"This People Requisition has been deleted and cannot be edited.", 409⟩,
        s)) ∧
    (∀ now u, deletePeopleRequisition s now prId u =
      (.error ⟨"This People Requisition has already been deleted.", 409⟩, s)) ∧
    (∀ now newStatus u, updatePeopleRequisitionStatus s now prId newStatus u =
      (.error ⟨"People Requisition not found.", 404⟩, s)) ∧
    (∀ now file u, ∃ e, (uploadJobDescription s now prId file u).1 = .error e ∧
      e.statusCode ∈ [400, 403, 404, 500]) ∧
    (∀ u, getPeopleRequisitionById s prId u =
      (.error ⟨"People Requisition not found.", 404⟩, s)) ∧
    (∀ u, downloadJobDescription s prId u =
      (.error ⟨"Job description not found for this requisition.", 404⟩, s)) ∧
    (∀ op, findById (step s op) prId = some pr) ∧
    (∀ ops, findById (run s ops) prId = some pr) ∧
    (∀ ops q, findById (run s ops) prId = some q → q.IsDelete = true) := by
  refine ⟨fun now u => approve_deleted s now prId u pr h hd,
    fun now d u => update_deleted s now prId d u pr h hd,
    fun now u => delete_deleted s now prId u pr h hd,
    fun now newStatus u => updateStatus_deleted s now prId newStatus u pr h hd,
    fun now file u => upload_deleted_fails s now prId file u pr h hd,
    fun u => getById_deleted s prId u pr h hd,
    fun u => download_deleted s prId u pr h hd,
    fun op => step_deleted s op prId pr h hd,
    fun ops => run_deleted ops s prId pr h hd, fun ops q hq => ?_⟩
  rw [run_deleted ops s prId pr h hd] at hq
  cases hq
  exact hd

/-- C28, exercised on the soft-deleted requisition 1 of `storeWithJdDeleted`: its HRBP cannot
approve it, its recruiter cannot download its file, and it is stored unchanged after an
approval, a status change, an edit and an upload addressed to it. -/
theorem deleted_requisition_frozen_witness :
    approvePeopleRequisition storeWithJdDeleted 300 1 hrbpUser =
      (.error ⟨"This People Requisition has been deleted and cannot be approved.", 409⟩,
        storeWithJdDeleted) ∧
    downloadJobDescription storeWithJdDeleted 1 recruiterUser =
      (.error ⟨"Job description not found for this requisition.", 404⟩,
        storeWithJdDeleted) ∧
    findById (run storeWithJdDeleted
      [.approve 300 1 hrbpUser, .updateStatus 310 1 "onhold" hrbpUser,
        .update 320 1 [("PRFNumber", .str "P-9")] hrbpUser,
        .uploadJobDescription 330 1 (some secondUpload) recruiterUser]) 1 =
      some (withDeletion prWithJd hrbpUser 250) :=
  have d := deleted_requisition_frozen storeWithJdDeleted 1
    (withDeletion prWithJd hrbpUser 250) (by decide) (by decide)
  ⟨d.1 300 hrbpUser, d.2.2.2.2.2.2.1 recruiterUser, d.2.2.2.2.2.2.2.2.1 _⟩

/-- C29 fails for `uploadJobDescription`.  Recruiter 3 is neither the HRBP (1) nor the
recruiter (2) of requisition 1.  The edit and the status change of recruiter 3 are refused
with 403, but the upload of recruiter 3 succeeds: it replaces the job description of the
requisition, removes the old file and records recruiter 3 as the modifier. -/
theorem unassigned_recruiter_upload_succeeds :
    findById storeWithJd 1 = some prWithJd ∧ prWithJd.IsDelete = false ∧
    prWithJd.HRBPId ≠ otherRecruiter.id ∧ prWithJd.RecruiterId ≠ otherRecruiter.id ∧
    updatePeopleRequisition storeWithJd 300 1 [("PRFNumber", .str "P-1")] otherRecruiter =
      (.error ⟨"You do not have permission to edit this People Requisition.", 403⟩,
        storeWithJd) ∧
    updatePeopleRequisitionStatus storeWithJd 300 1 "inprogress" otherRecruiter =
      (.error ⟨"You do not have permission to update this People Requisition.", 403⟩,
        storeWithJd) ∧
    (uploadJobDescription storeWithJd 300 1 (some secondUpload) otherRecruiter).1 = .ok () ∧
    findById (uploadJobDescription storeWithJd 300 1 (some secondUpload) otherRecruiter).2 1 =
      some (withJobDescriptionFile prWithJd secondUpload otherRecruiter 300) ∧
    (withJobDescriptionFile prWithJd secondUpload otherRecruiter 300).JdFilePath =
      some "uploads/jd-2.pdf" ∧
    prWithJd.JdFilePath = some "uploads/jd-1.pdf" ∧
    (uploadJobDescription storeWithJd 300 1 (some secondUpload) otherRecruiter).2.files =
      ["uploads/jd-2.pdf"] := by
  decide

/-! ## Departments -/

theorem findActivePRByDepartment_isSome (s : Db) (id : ObjectId) :
    (findActivePRByDepartment s id).isSome = true ↔
      ∃ p ∈ s.prs, p.DepartmentId = id ∧ p.IsDelete = false := by
  unfold findActivePRByDepartment
  simp [List.find?_isSome]

theorem findActiveUserByDepartment_isSome (s : Db) (id : ObjectId) :
    (findActiveUserByDepartment s id).isSome = true ↔
      ∃ u ∈ s.users, u.DepartmentId = some id ∧ u.IsDelete = false := by
  unfold findActiveUserByDepartment
  simp [List.find?_isSome]

theorem removeDepartment_free (s : Db) (now : Nat) (id : ObjectId) (deletedBy : String)
    (department : Department) (hfind : findDepartmentById s id = some department)
    (hlive : department.IsDelete = false) (hfree : ¬ departmentInUse s id) :
    removeDepartment s now id deletedBy =
      (.ok (withDepartmentDeletion department deletedBy now),
        saveDepartment s (withDepartmentDeletion department deletedBy now)) := by
  have h1 : (findActivePRByDepartment s id).isSome = false := by
    rw [Bool.eq_false_iff]
    intro h
    exact hfree (Or.inl ((findActivePRByDepartment_isSome s id).1 h))
  have h2 : (findActiveUserByDepartment s id).isSome = false := by
    rw [Bool.eq_false_iff]
    intro h
    exact hfree (Or.inr ((findActiveUserByDepartment_isSome s id).1 h))
  simp only [removeDepartment, hfind, hlive, h1, h2, Bool.false_eq_true, if_false]

theorem removeDepartment_inUse (s : Db) (now : Nat) (id : ObjectId) (deletedBy : String)
    (department : Department) (hfind : findDepartmentById s id = some department)
    (hlive : department.IsDelete = false) (huse : departmentInUse s id) :
    ∃ msg, removeDepartment s now id deletedBy = (.error ⟨msg, 409⟩, s) := by
  by_cases h1 : (findActivePRByDepartment s id).isSome = true
  · have e : removeDepartment s now id deletedBy =
        (.error ⟨"Cannot delete department. They are assigned to active People Requisitions.",
          409⟩, s) := by
      simp only [removeDepartment, hfind, hlive, h1, Bool.false_eq_true, if_false, if_true]
    exact ⟨_, e⟩
  · have h2 : (findActiveUserByDepartment s id).isSome = true := by
      rcases huse with h | h
      · exact absurd ((findActivePRByDepartment_isSome s id).2 h) h1
      · exact (findActiveUserByDepartment_isSome s id).2 h
    have e : removeDepartment s now id deletedBy =
        (.error ⟨"Cannot delete department. They are assigned to active User.", 409⟩, s) := by
      simp only [removeDepartment, hfind, hlive, h1, h2, Bool.false_eq_true, if_false,
        if_true]
    exact ⟨_, e⟩

theorem editDepartment_inUse (regex : String → Option (String → Bool))
    (lower : Char → List Char) (s : Db) (now : Nat) (id : ObjectId)
    (newName : Option String) (modifiedBy : String)
    (department : Department) (hfind : findDepartmentById s id = some department)
    (hlive : department.IsDelete = false) (huse : departmentInUse s id) :
    ∃ msg, editDepartment regex lower s now id newName modifiedBy =
      (.error ⟨msg, 409⟩, s) := by
  by_cases h1 : (findActivePRByDepartment s id).isSome = true
  · have e : editDepartment regex lower s now id newName modifiedBy =
        (.error ⟨"Cannot update department. They are assigned to active People Requisitions.",
          409⟩, s) := by
      simp only [editDepartment, hfind, hlive, h1, Bool.false_eq_true, if_false, if_true]
    exact ⟨_, e⟩
  · have h2 : (findActiveUserByDepartment s id).isSome = true := by
      rcases huse with h | h
      · exact absurd ((findActivePRByDepartment_isSome s id).2 h) h1
      · exact (findActiveUserByDepartment_isSome s id).2 h
    have e : editDepartment regex lower s now id newName modifiedBy =
        (.error ⟨"Cannot update department. They are assigned to active User.", 409⟩, s) := by
      simp only [editDepartment, hfind, hlive, h1, h2, Bool.false_eq_true, if_false,
        if_true]
    exact ⟨_, e⟩

/-- C24. For a department that exists and is not deleted, `removeDepartment` succeeds
exactly when no non-deleted requisition and no non-deleted user references it: then the
department is stored with `IsDelete` true, the deleter and the time; otherwise the call
fails with 409 and the database is unchanged.  `editDepartment` fails with 409, the database
unchanged, whenever such a reference exists.  Only references of non-deleted requisitions
and users count, and a non-deleted requisition counts whatever its status is. -/
theorem department_in_use_guard (regex : String → Option (String → Bool))
    (lower : Char → List Char) (s : Db) (now : Nat) (id : ObjectId)
    (department : Department) (hfind : findDepartmentById s id = some department)
    (hlive : department.IsDelete = false) :
    (∀ deletedBy,
      ((∃ d, (removeDepartment s now id deletedBy).1 = .ok d) ↔ ¬ departmentInUse s id) ∧
      (¬ departmentInUse s id →
        removeDepartment s now id deletedBy =
          (.ok (withDepartmentDeletion department deletedBy now),
            saveDepartment s (withDepartmentDeletion department deletedBy now))) ∧
      (departmentInUse s id →
        ∃ msg, removeDepartment s now id deletedBy = (.error ⟨msg, 409⟩, s))) ∧
    (∀ newName modifiedBy, departmentInUse s id →
      ∃ msg, editDepartment regex lower s now id newName modifiedBy =
        (.error ⟨msg, 409⟩, s)) ∧
    (departmentInUse s id ↔
      (∃ p ∈ s.prs, p.DepartmentId = id ∧ p.IsDelete = false) ∨
      (∃ u ∈ s.users, u.DepartmentId = some id ∧ u.IsDelete = false)) ∧
    (∀ p ∈ s.prs, p.DepartmentId = id → p.IsDelete = false → ∀ deletedBy,
      ∃ msg, removeDepartment s now id deletedBy = (.error ⟨msg, 409⟩, s)) := by
  refine ⟨fun deletedBy => ⟨⟨?_, ?_⟩,
      removeDepartment_free s now id deletedBy department hfind hlive,
      removeDepartment_inUse s now id deletedBy department hfind hlive⟩,
    fun newName modifiedBy =>
      editDepartment_inUse regex lower s now id newName modifiedBy department hfind hlive,
    Iff.rfl, fun p hp h1 h2 deletedBy =>
      removeDepartment_inUse s now id deletedBy department hfind hlive
        (Or.inl ⟨p, hp, h1, h2⟩)⟩
  · rintro ⟨d, hd⟩ huse
    obtain ⟨msg, hm⟩ := removeDepartment_inUse s now id deletedBy department hfind hlive huse
    rw [hm] at hd
    cases hd
  · intro hfree
    rw [removeDepartment_free s now id deletedBy department hfind hlive hfree]
    exact ⟨_, rfl⟩

/-- C24, exercised on `departmentStore`: the department 22, referenced only by a deleted
requisition and a deleted user, is removed; the department 20 of the completed requisition 5
is not, and its renaming is refused as well. -/
theorem department_in_use_guard_witness :
    removeDepartment departmentStore 500 22 "RHUB-001" =
      (.ok { id := 22, Department := "Finance", IsDelete := true,
             DeletedBy := some "RHUB-001", DeletedOn := some 500 },
        saveDepartment departmentStore
          { id := 22, Department := "Finance", IsDelete := true,
            DeletedBy := some "RHUB-001", DeletedOn := some 500 }) ∧
    (∃ msg, removeDepartment departmentStore 500 20 "RHUB-001" =
      (.error ⟨msg, 409⟩, departmentStore)) ∧
    (∃ msg, editDepartment (fun _ => some (fun _ => false)) lowerCaseMapping departmentStore
      500 20 (some "platform") "RHUB-001" = (.error ⟨msg, 409⟩, departmentStore)) :=
  ⟨((department_in_use_guard (fun _ => some (fun _ => false)) lowerCaseMapping
      departmentStore 500 22 { id := 22, Department := "Finance", IsDelete := false }
      (by decide) (by decide)).1 "RHUB-001").2.1 (by unfold departmentInUse; decide),
    ((department_in_use_guard (fun _ => some (fun _ => false)) lowerCaseMapping
      departmentStore 500 20 { id := 20, Department := "Engineering", IsDelete := false }
      (by decide) (by decide)).1 "RHUB-001").2.2 (by unfold departmentInUse; decide),
    (department_in_use_guard (fun _ => some (fun _ => false)) lowerCaseMapping
      departmentStore 500 20 { id := 20, Department := "Engineering", IsDelete := false }
      (by decide) (by decide)).2.1 (some "platform") "RHUB-001"
      (by unfold departmentInUse; decide)⟩

/-! ## Passwords -/

theorem any_between (l : List Char) (lo hi : Char) :
    (∃ x ∈ l, decide (lo ≤ x) = true ∧ decide (x ≤ hi) = true) ↔
      ∃ c ∈ l, lo.toNat ≤ c.toNat ∧ c.toNat ≤ hi.toNat := by
  simp only [decide_eq_true_eq]
  exact Iff.rfl

theorem isPasswordComplex_iff (p : Option String) :
    isPasswordComplex p = true ↔ ∃ text, p = some text ∧ meetsPolicy text := by
  cases p with
  | none => simp [isPasswordComplex]
  | some text =>
    have hempty : text = "" → jsLength text < 8 := by
      intro e
      subst e
      decide
    unfold isPasswordComplex meetsPolicy validatorSpecialChars
    simp only [Option.some.injEq, exists_eq_left']
    by_cases hlen : jsLength text < 8
    · have h1 : (text == "" || decide (jsLength text < 8)) = true := by simp [hlen]
      simp only [h1, if_true]
      constructor
      · intro h; cases h
      · intro h; omega
    · have hne : text ≠ "" := fun e => hlen (hempty e)
      have h1 : (text == "" || decide (jsLength text < 8)) = false := by simp [hlen, hne]
      simp only [h1, Bool.false_eq_true, if_false, Bool.and_eq_true, List.any_eq_true]
      constructor
      · rintro ⟨⟨⟨h2, h3⟩, h4⟩, h5⟩
        refine ⟨by omega, (any_between _ _ _).1 h2, (any_between _ _ _).1 h3,
          (any_between _ _ _).1 h4, ?_⟩
        obtain ⟨c, hc, hm⟩ := h5
        exact ⟨c, hc, by simpa using hm⟩
      · rintro ⟨-, h2, h3, h4, c, hc, hm⟩
        exact ⟨⟨⟨(any_between _ 'A' 'Z').2 h2, (any_between _ 'a' 'z').2 h3⟩,
          (any_between _ '0' '9').2 h4⟩, c, hc, by simpa using hm⟩

theorem saveAccount_queries (hash : String → String) (s : AuthDb) (old user : Account) :
    (saveAccount hash s old user).queries = s.queries + 1 := rfl

theorem changePassword_policy (hash : String → String) (compare : String → String → Bool)
    (s : AuthDb) (userId : ObjectId) (current new : Option String)
    (h : isPasswordComplex new = false) :
    changePassword hash compare s userId current new = (.error passwordPolicyError, s) := by
  simp [changePassword, h]

theorem changePassword_complex (hash : String → String) (compare : String → String → Bool)
    (s : AuthDb) (userId : ObjectId) (current new : Option String)
    (h : isPasswordComplex new = true) :
    s.queries < (changePassword hash compare s userId current new).2.queries ∧
    ∀ e, (changePassword hash compare s userId current new).1 = .error e →
      e.statusCode ≠ 400 := by
  unfold changePassword
  simp only [h, Bool.not_true, Bool.false_eq_true, if_false]
  cases s.accounts.find? (fun a => a.id == userId) with
  | none =>
    refine ⟨Nat.lt_succ_self _, fun e he => ?_⟩
    simp only [Except.error.injEq] at he
    rw [← he]; decide
  | some user =>
    simp only []
    cases hd : user.IsDelete with
    | true =>
      refine ⟨Nat.lt_succ_self _, fun e he => ?_⟩
      simp only [if_true, Except.error.injEq] at he
      rw [← he]; decide
    | false =>
      simp only [Bool.false_eq_true, if_false]
      cases current with
      | none =>
        refine ⟨Nat.lt_succ_self _, fun e he => ?_⟩
        simp only [Except.error.injEq] at he
        rw [← he]; decide
      | some cur =>
        cases new with
        | none =>
          refine ⟨Nat.lt_succ_self _, fun e he => ?_⟩
          simp only [Except.error.injEq] at he
          rw [← he]; decide
        | some pw =>
          simp only []
          cases hc : compare cur user.Password with
          | false =>
            refine ⟨Nat.lt_succ_self _, fun e he => ?_⟩
            simp only [Bool.not_false, if_true, Except.error.injEq] at he
            rw [← he]; decide
          | true =>
            simp only [Bool.not_true, Bool.false_eq_true, if_false]
            refine ⟨?_, fun e he => by cases he⟩
            rw [saveAccount_queries]
            exact Nat.lt_succ_of_lt (Nat.lt_succ_self _)

theorem resetPassword_policy (hash : String → String) (s : AuthDb) (now : Nat)
    (token : String) (password : Option String) (h : isPasswordComplex password = false) :
    resetPassword hash s now token password = (.error passwordPolicyError, s) := by
  simp [resetPassword, h]

theorem resetPassword_complex (hash : String → String) (s : AuthDb) (now : Nat)
    (token : String) (password : Option String) (h : isPasswordComplex password = true) :
    s.queries < (resetPassword hash s now token password).2.queries := by
  unfold resetPassword
  simp only [h, Bool.not_true, Bool.false_eq_true, if_false]
  cases s.accounts.find? (hasValidToken now token) with
  | none => exact Nat.lt_succ_self _
  | some user =>
    cases password with
    | none => exact Nat.lt_succ_self _
    | some pw =>
      simp only []
      rw [saveAccount_queries]
      exact Nat.lt_succ_of_lt (Nat.lt_succ_self _)

/-- C25. `isPasswordComplex(p)` is true exactly when `p` is a string of at least 8 code
units that contains a character in A-Z, one in a-z, one in 0-9 and one of the six characters
`@ # $ % & *`; it is false for the missing and for the empty password.  `changePassword`
and `resetPassword` fail with 400 and without any call of `userQueries` (the database,
with its count of such calls, is the one they were given) exactly when the new password is
not complex, and the error is then the one of the password policy; `changePassword` fails
with 400 in no other case. -/
theorem password_policy_enforced :
    (∀ p, isPasswordComplex p = true ↔ ∃ text, p = some text ∧ meetsPolicy text) ∧
    isPasswordComplex none = false ∧ isPasswordComplex (some "") = false ∧
    (∀ (hash : String → String) (compare : String → String → Bool) (s : AuthDb)
      (userId : ObjectId) (current new : Option String),
      ((∃ msg, changePassword hash compare s userId current new =
          (.error ⟨msg, 400⟩, s)) ↔ isPasswordComplex new = false) ∧
      ((∃ e, (changePassword hash compare s userId current new).1 = .error e ∧
          e.statusCode = 400) ↔ isPasswordComplex new = false) ∧
      (isPasswordComplex new = false →
        changePassword hash compare s userId current new =
          (.error passwordPolicyError, s))) ∧
    (∀ (hash : String → String) (s : AuthDb) (now : Nat) (token : String)
      (password : Option String),
      ((∃ msg, resetPassword hash s now token password = (.error ⟨msg, 400⟩, s)) ↔
        isPasswordComplex password = false) ∧
      (isPasswordComplex password = false →
        resetPassword hash s now token password = (.error passwordPolicyError, s))) := by
  refine ⟨isPasswordComplex_iff, rfl, rfl, fun hash compare s userId current new => ?_,
    fun hash s now token password => ?_⟩
  · refine ⟨⟨?_, ?_⟩, ⟨?_, ?_⟩, changePassword_policy hash compare s userId current new⟩
    · rintro ⟨msg, h⟩
      cases hc : isPasswordComplex new with
      | false => rfl
      | true =>
        have hq := (changePassword_complex hash compare s userId current new hc).1
        rw [h] at hq
        exact absurd hq (lt_irrefl _)
    · intro hc
      rw [changePassword_policy hash compare s userId current new hc]
      exact ⟨_, rfl⟩
    · rintro ⟨e, he, h400⟩
      cases hc : isPasswordComplex new with
      | false => rfl
      | true =>
        exact absurd h400
          ((changePassword_complex hash compare s userId current new hc).2 e he)
    · intro hc
      rw [changePassword_policy hash compare s userId current new hc]
      exact ⟨_, rfl, rfl⟩
  · refine ⟨⟨?_, ?_⟩, resetPassword_policy hash s now token password⟩
    · rintro ⟨msg, h⟩
      cases hc : isPasswordComplex password with
      | false => rfl
      | true =>
        have hq := resetPassword_complex hash s now token password hc
        rw [h] at hq
        exact absurd hq (lt_irrefl _)
    · intro hc
      rw [resetPassword_policy hash s now token password hc]
      exact ⟨_, rfl⟩

/-- C25, exercised: "Password@123" is complex, and the account 1 cannot change its password
to "password123", nor can a reset set it, the store being untouched. -/
theorem password_policy_enforced_witness :
    isPasswordComplex (some "Password@123") = true ∧
    changePassword sampleHash sampleCompare authStore 1 (some "Password@123")
      (some "password123") = (.error passwordPolicyError, authStore) ∧
    resetPassword sampleHash authStore 1000 "token" (some "password123") =
      (.error passwordPolicyError, authStore) :=
  ⟨(password_policy_enforced.1 (some "Password@123")).2
      ⟨"Password@123", rfl, by unfold meetsPolicy validatorSpecialChars; decide⟩,
    (password_policy_enforced.2.2.2.1 sampleHash sampleCompare authStore 1
      (some "Password@123") (some "password123")).2.2 (by decide),
    (password_policy_enforced.2.2.2.2 sampleHash authStore 1000 "token"
      (some "password123")).2 (by decide)⟩

/-! ## Password reset requests -/

theorem find_email_none (s : AuthDb) (email : String)
    (h : ∀ a ∈ s.accounts, a.Email ≠ email) :
    s.accounts.find? (fun a => a.Email == email) = none := by
  rw [List.find?_eq_none]
  intro a ha
  simpa using h a ha

theorem forgotPassword_unknown (hash : String → String) (s : AuthDb) (now : Nat)
    (resetToken email : String) (h : ∀ a ∈ s.accounts, a.Email ≠ email) :
    forgotPassword hash s now resetToken email =
      (.error ⟨"Cannot read properties of null (reading 'IsDelete')", 500⟩,
        queried s) ∧
    forgotPasswordController hash s now resetToken email =
      (⟨500, "Cannot read properties of null (reading 'IsDelete')"⟩,
        queried s) := by
  have hf : forgotPassword hash s now resetToken email =
      (.error ⟨"Cannot read properties of null (reading 'IsDelete')", 500⟩,
        queried s) := by
    simp only [forgotPassword, find_email_none s email h]
  refine ⟨hf, ?_⟩
  simp only [forgotPasswordController, hf]
  rfl

theorem forgotPassword_deleted (hash : String → String) (s : AuthDb) (now : Nat)
    (resetToken email : String) (user : Account)
    (h : s.accounts.find? (fun a => a.Email == email) = some user)
    (hd : user.IsDelete = true) :
    forgotPassword hash s now resetToken email = (.ok (), queried s) ∧
    forgotPasswordController hash s now resetToken email =
      (⟨200, "If a user with that email exists, a password reset link has been sent."⟩,
        queried s) := by
  have hf : forgotPassword hash s now resetToken email = (.ok (), queried s) := by
    simp only [forgotPassword, h, hd, if_true]
  exact ⟨hf, by simp only [forgotPasswordController, hf]⟩

theorem forgotPassword_registered (hash : String → String) (s : AuthDb) (now : Nat)
    (resetToken email : String) (user : Account)
    (h : s.accounts.find? (fun a => a.Email == email) = some user)
    (hd : user.IsDelete = false) :
    (forgotPassword hash s now resetToken email).1 = .ok () ∧
    (forgotPassword hash s now resetToken email).2.outbox =
      s.outbox ++ [⟨user.Email, "RHub Password Reset Request", "passwordResetEmail"⟩] ∧
    (forgotPasswordController hash s now resetToken email).1 =
      ⟨200, "If a user with that email exists, a password reset link has been sent."⟩ := by
  have hf : forgotPassword hash s now resetToken email =
      (.ok (), { saveAccount hash (queried s) user (withResetToken user resetToken now) with
        outbox := (saveAccount hash (queried s) user
            (withResetToken user resetToken now)).outbox ++
          [⟨user.Email, "RHub Password Reset Request", "passwordResetEmail"⟩] }) := by
    simp only [forgotPassword, h, hd, Bool.false_eq_true, if_false]
  refine ⟨by rw [hf], by rw [hf]; rfl, ?_⟩
  simp only [forgotPasswordController, hf]

/-- C26 fails for an email that no user has.  In `authStore` the request for the registered
"hrbp@gmail.com" stores the token, mails the link and is answered with 200 and the fixed
message, and the request for the soft-deleted "gone@gmail.com" is answered the same way
without a token and without a mail.  The request for "nobody@gmail.com" does not return: the
service throws a `TypeError` on `user.IsDelete`, and the controller answers 500 with the
message of that error. -/
theorem forgotPassword_unknown_email_answers_500 :
    (forgotPasswordController sampleHash authStore 1000 "c0ffee" "hrbp@gmail.com").1 =
      ⟨200, "If a user with that email exists, a password reset link has been sent."⟩ ∧
    (forgotPassword sampleHash authStore 1000 "c0ffee" "hrbp@gmail.com").2.outbox =
      [⟨"hrbp@gmail.com", "RHub Password Reset Request", "passwordResetEmail"⟩] ∧
    forgotPasswordController sampleHash authStore 1000 "c0ffee" "gone@gmail.com" =
      (⟨200, "If a user with that email exists, a password reset link has been sent."⟩,
        queried authStore) ∧
    forgotPassword sampleHash authStore 1000 "c0ffee" "nobody@gmail.com" =
      (.error ⟨"Cannot read properties of null (reading 'IsDelete')", 500⟩,
        queried authStore) ∧
    forgotPasswordController sampleHash authStore 1000 "c0ffee" "nobody@gmail.com" =
      (⟨500, "Cannot read properties of null (reading 'IsDelete')"⟩,
        queried authStore) :=
  ⟨(forgotPassword_registered sampleHash authStore 1000 "c0ffee" "hrbp@gmail.com"
      ⟨1, "hrbp@gmail.com", "hash(Password@123)", false, none, none⟩ (by decide)
      (by decide)).2.2,
    (forgotPassword_registered sampleHash authStore 1000 "c0ffee" "hrbp@gmail.com"
      ⟨1, "hrbp@gmail.com", "hash(Password@123)", false, none, none⟩ (by decide)
      (by decide)).2.1,
    (forgotPassword_deleted sampleHash authStore 1000 "c0ffee" "gone@gmail.com"
      ⟨6, "gone@gmail.com", "hash(Password@123)", true, none, none⟩ (by decide)
      (by decide)).2,
    (forgotPassword_unknown sampleHash authStore 1000 "c0ffee" "nobody@gmail.com"
      (by decide)).1,
    (forgotPassword_unknown sampleHash authStore 1000 "c0ffee" "nobody@gmail.com"
      (by decide)).2⟩

/-! ## Upload filter -/

/-- C27 fails in both halves.  The Word document "resume.doc" with the MIME type
"application/msword" has the extension ".doc" and is rejected with 400, because its MIME type
contains none of "pdf", "doc", "docx"; and the macro-enabled document "offer.docm" is
accepted although its extension ".docm" is none of ".pdf", ".doc", ".docx", because the
expression is matched anywhere in the text.  A PDF is accepted. -/
theorem fileFilter_rejects_doc_accepts_docm :
    extname wordDocument.originalname = ".doc" ∧
    fileFilter lowerCaseMapping wordDocument =
      .error ⟨"Only .pdf, .doc, and .docx files are allowed.", 400⟩ ∧
    fileFilter lowerCaseMapping macroDocument = .ok true ∧
    toLowerCase lowerCaseMapping (extname macroDocument.originalname) = ".docm" ∧
    ".docm" ∉ [".pdf", ".doc", ".docx"] ∧
    fileFilter lowerCaseMapping ⟨"jd.pdf", "application/pdf"⟩ = .ok true := by
  decide

/-! ## Temporary passwords -/

theorem randomChar_mem (chars : List Char) (r : Nat) (h : 0 < chars.length) :
    ∃ c ∈ chars, randomChar chars r = [c] := by
  have hlt : r % chars.length < chars.length := Nat.mod_lt _ h
  refine ⟨chars.get ⟨r % chars.length, hlt⟩, List.get_mem _ _ _, ?_⟩
  unfold randomChar
  rw [List.get?_eq_get hlt]

theorem flatten_singletons (f : Nat → List Char) (chars : List Char)
    (hf : ∀ i, ∃ c ∈ chars, f i = [c]) (l : List Nat) :
    ((l.map f).flatten).length = l.length ∧ ∀ c ∈ (l.map f).flatten, c ∈ chars := by
  induction l with
  | nil => simp
  | cons i rest ih =>
    obtain ⟨c, hc, hfi⟩ := hf i
    simp only [List.map_cons, List.flatten_cons, hfi, List.singleton_append,
      List.length_cons, List.mem_cons]
    refine ⟨by rw [ih.1], ?_⟩
    rintro x (rfl | hx)
    · exact hc
    · exact ih.2 x hx

theorem jsLength_ascii (l : List Char) (h : ∀ c ∈ l, c.toNat < 0x10000) :
    jsLength (String.mk l) = l.length := by
  unfold jsLength
  show (l.map (fun c => if c.toNat < 0x10000 then 1 else 2)).sum = l.length
  induction l with
  | nil => rfl
  | cons c rest ih =>
    have hc : c.toNat < 0x10000 := h c (List.mem_cons_self _ _)
    simp only [List.map_cons, List.sum_cons, hc, if_true, List.length_cons]
    rw [ih (fun x hx => h x (List.mem_cons_of_mem _ hx))]
    omega

theorem generated_chars (rand : Nat → Nat) (length : Nat) :
    ∃ u l n sp rest, u ∈ upperCaseChars ∧ l ∈ lowerCaseChars ∧ n ∈ numericChars ∧
      sp ∈ specialChars ∧ rest.length = length - 4 ∧ (∀ c ∈ rest, c ∈ allChars) ∧
      ∀ shuffle : List Char → List Char,
        generateRandomPassword rand shuffle length =
          String.mk (shuffle (u :: l :: n :: sp :: rest)) := by
  obtain ⟨u, hu, eu⟩ := randomChar_mem upperCaseChars (rand 0) (by decide)
  obtain ⟨l, hl, el⟩ := randomChar_mem lowerCaseChars (rand 1) (by decide)
  obtain ⟨n, hn, en⟩ := randomChar_mem numericChars (rand 2) (by decide)
  obtain ⟨sp, hsp, esp⟩ := randomChar_mem specialChars (rand 3) (by decide)
  have hrest := flatten_singletons (fun i => randomChar allChars (rand (i + 4))) allChars
    (fun i => randomChar_mem allChars (rand (i + 4)) (by decide)) (List.range (length - 4))
  refine ⟨u, l, n, sp, _, hu, hl, hn, hsp, ?_, hrest.2, fun shuffle => ?_⟩
  · rw [hrest.1, List.length_range]
  · unfold generateRandomPassword
    simp only [eu, el, en, esp, List.singleton_append, List.cons_append, List.nil_append]

/-- C30, as the code has it.  For every outcome of the random choices (the draws `rand` and
a shuffle that rearranges its input) the password of `generateRandomPassword` with length 12
has exactly 12 characters, all taken from `allChars`, among them an upper-case letter, a
lower-case letter, a digit and a character of the generator's own `specialChars`; and
`isPasswordComplex` accepts it exactly when one of its characters is among the six special
characters of the validator. -/
theorem generateRandomPassword_shape (rand : Nat → Nat) (shuffle : List Char → List Char)
    (hshuffle : ∀ l, (shuffle l).Perm l) :
    (generateRandomPassword rand shuffle 12).length = 12 ∧
    jsLength (generateRandomPassword rand shuffle 12) = 12 ∧
    (∀ c ∈ (generateRandomPassword rand shuffle 12).data, c ∈ allChars) ∧
    (∃ c ∈ (generateRandomPassword rand shuffle 12).data, c ∈ upperCaseChars) ∧
    (∃ c ∈ (generateRandomPassword rand shuffle 12).data, c ∈ lowerCaseChars) ∧
    (∃ c ∈ (generateRandomPassword rand shuffle 12).data, c ∈ numericChars) ∧
    (∃ c ∈ (generateRandomPassword rand shuffle 12).data, c ∈ specialChars) ∧
    (isPasswordComplex (some (generateRandomPassword rand shuffle 12)) = true ↔
      ∃ c ∈ (generateRandomPassword rand shuffle 12).data, c ∈ validatorSpecialChars) := by
  obtain ⟨u, l, n, sp, rest, hu, hl, hn, hsp, hlen, hrest, hgen⟩ := generated_chars rand 12
  rw [hgen shuffle]
  have hp := hshuffle (u :: l :: n :: sp :: rest)
  have hmem : ∀ c, c ∈ shuffle (u :: l :: n :: sp :: rest) ↔
      c ∈ u :: l :: n :: sp :: rest := fun c => hp.mem_iff
  have hlength : (shuffle (u :: l :: n :: sp :: rest)).length = 12 := by
    rw [hp.length_eq]
    simp only [List.length_cons, hlen]
  have hupper : ∀ c ∈ upperCaseChars, c ∈ allChars ∧ 65 ≤ c.toNat ∧ c.toNat ≤ 90 := by
    decide
  have hlower : ∀ c ∈ lowerCaseChars, c ∈ allChars ∧ 97 ≤ c.toNat ∧ c.toNat ≤ 122 := by
    decide
  have hnum : ∀ c ∈ numericChars, c ∈ allChars ∧ 48 ≤ c.toNat ∧ c.toNat ≤ 57 := by
    decide
  have hspec : ∀ c ∈ specialChars, c ∈ allChars := by decide
  have hascii : ∀ c ∈ allChars, c.toNat < 0x10000 := by decide
  have hall : ∀ c ∈ shuffle (u :: l :: n :: sp :: rest), c ∈ allChars := by
    intro c hc
    rw [hmem] at hc
    simp only [List.mem_cons] at hc
    rcases hc with rfl | rfl | rfl | rfl | hc
    · exact (hupper _ hu).1
    · exact (hlower _ hl).1
    · exact (hnum _ hn).1
    · exact hspec _ hsp
    · exact hrest c hc
  have hjs : jsLength (String.mk (shuffle (u :: l :: n :: sp :: rest))) = 12 := by
    rw [jsLength_ascii _ (fun c hc => hascii c (hall c hc)), hlength]
  have hu1 : u ∈ shuffle (u :: l :: n :: sp :: rest) := (hmem u).2 (by simp)
  have hl1 : l ∈ shuffle (u :: l :: n :: sp :: rest) := (hmem l).2 (by simp)
  have hn1 : n ∈ shuffle (u :: l :: n :: sp :: rest) := (hmem n).2 (by simp)
  have hs1 : sp ∈ shuffle (u :: l :: n :: sp :: rest) := (hmem sp).2 (by simp)
  refine ⟨hlength, hjs, hall, ⟨u, hu1, hu⟩, ⟨l, hl1, hl⟩, ⟨n, hn1, hn⟩, ⟨sp, hs1, hsp⟩, ?_⟩
  rw [isPasswordComplex_iff]
  constructor
  · rintro ⟨text, ht, hpol⟩
    cases ht
    exact hpol.2.2.2.2
  · intro hv
    exact ⟨_, rfl, by rw [hjs]; decide, ⟨u, hu1, (hupper _ hu).2⟩, ⟨l, hl1, (hlower _ hl).2⟩,
      ⟨n, hn1, (hnum _ hn).2⟩, hv⟩

/-- C30, exercised with the draws 0, 1, 2, ... and the shuffle that reverses. -/
theorem generateRandomPassword_shape_witness :
    (generateRandomPassword (fun k => k) List.reverse 12).length = 12 ∧
    jsLength (generateRandomPassword (fun k => k) List.reverse 12) = 12 :=
  have h := generateRandomPassword_shape (fun k => k) List.reverse
    (fun l => List.reverse_perm l)
  ⟨h.1, h.2.1⟩

/-- C30 fails as stated: when every draw is 0 and the shuffle keeps the order, the generated
password is "Aa0!AAAAAAAA", whose only special character `!` is not one of the validator's
six, and `isPasswordComplex` rejects it. -/
theorem generated_password_rejected_by_validator :
    generateRandomPassword (fun _ => 0) (fun l => l) 12 = "Aa0!AAAAAAAA" ∧
    isPasswordComplex (some (generateRandomPassword (fun _ => 0) (fun l => l) 12)) =
      false := by
  decide

end RHub
